import Mathlib

/-! # DAC calibration and relative threshold of WaveDump

Shallow embedding of the calibration code of `WaveDump.c` (release 3.10.3) and of its
copy `wavedump.c`: the functions `Calibrate_DC_Offset`, `Calibrate_XX740_DC_Offset`,
`Set_calibrated_DCO` and the threshold assignment of `Set_relative_Threshold` are the
same text in both files.

Conventions of the embedding.
* C `int` values are `Int`; `uint32_t` values are `Nat` reduced modulo `2 ^ 32` at every
  conversion and after every unsigned operation.
* C `float` and `double` values are rationals (`CFloat`). A definition without suffix
  evaluates a floating point expression in exact arithmetic, where a division by zero leaves
  the rationals and is `none`; the definition of the same name with the suffix `Float`
  evaluates the expression as the code does, every operation rounded to the C type in
  which it is carried out, where an overflow is `none` as well.
* C arrays indexed by a channel are functions of the index.
-/

namespace WaveDump

/-! ## Exact arithmetic for floating point expressions -/

/-- Value of a C floating point expression in exact arithmetic: a rational number, or
`none` when a division by zero has produced an IEEE infinity or NaN. -/
abbrev CFloat := Option ℚ

/-- Floating point addition in exact arithmetic. -/
def CFloat.add (a b : CFloat) : CFloat :=
  a.bind fun x => b.bind fun y => some (x + y)

/-- Floating point subtraction in exact arithmetic. -/
def CFloat.sub (a b : CFloat) : CFloat :=
  a.bind fun x => b.bind fun y => some (x - y)

/-- Floating point multiplication in exact arithmetic. -/
def CFloat.mul (a b : CFloat) : CFloat :=
  a.bind fun x => b.bind fun y => some (x * y)

/-- Floating point division: a zero divisor gives no rational value. -/
def CFloat.div (a b : CFloat) : CFloat :=
  a.bind fun x => b.bind fun y => if y = 0 then none else some (x / y)

/-- The C library function `fabs`. -/
def CFloat.fabs (a : CFloat) : CFloat :=
  a.map fun x => |x|

/-- Conversion `(uint32_t)x` of a non-negative floating point value: truncation, with the
32-bit unsigned conversion taken modulo `2 ^ 32`. -/
def toUInt32 (x : ℚ) : Nat :=
  (Int.toNat ⌊x⌋) % 2 ^ 32

/-- Conversion of a C `int` to `uint32_t`. -/
def intToUInt32 (x : Int) : Nat :=
  Int.toNat (x % 2 ^ 32)

/-! ## Binary floating point: the arithmetic of the C types `float` and `double`

The types `float` and `double` are the IEEE formats binary32 and binary64. Every operation
of an expression is rounded to nearest, ties to even, in the type of the operation: `float`
when both operands are `float`, `double` as soon as one operand is a `double` such as the
constants `100.` and `655.35`.
-/

/-- The integer nearest to `x`, the even one of the two when `x` lies halfway. -/
def roundHalfEven (x : ℚ) : Int :=
  if x - ⌊x⌋ < 1 / 2 then ⌊x⌋
  else if 1 / 2 < x - ⌊x⌋ then ⌊x⌋ + 1
  else if ⌊x⌋ % 2 = 0 then ⌊x⌋
  else ⌊x⌋ + 1

/-- The number nearest to `x` in the binary floating point format with `p` bits of
precision whose least normal number is `2 ^ emin` (round to nearest, ties to even, gradual
underflow); the exponent is not bounded above. -/
def roundBinary (p : Nat) (emin : Int) (x : ℚ) : ℚ :=
  (roundHalfEven (x / 2 ^ (max (Int.log 2 |x|) emin - ((p : Int) - 1))) : ℚ) *
    2 ^ (max (Int.log 2 |x|) emin - ((p : Int) - 1))

/-- Rounding to the C type `float` (IEEE binary32); `none` when the result overflows to an
infinity. -/
def toFloat (x : ℚ) : CFloat :=
  if |roundBinary 24 (-126) x| < 2 ^ 128 then some (roundBinary 24 (-126) x) else none

/-- Rounding to the C type `double` (IEEE binary64); `none` when the result overflows to an
infinity. -/
def toDouble (x : ℚ) : CFloat :=
  if |roundBinary 53 (-1022) x| < 2 ^ 1024 then some (roundBinary 53 (-1022) x) else none

/-- Subtraction of two `float` operands. -/
def CFloat.subF (a b : CFloat) : CFloat :=
  (CFloat.sub a b).bind toFloat

/-- Multiplication of two `float` operands. -/
def CFloat.mulF (a b : CFloat) : CFloat :=
  (CFloat.mul a b).bind toFloat

/-- Division of two `float` operands. -/
def CFloat.divF (a b : CFloat) : CFloat :=
  (CFloat.div a b).bind toFloat

/-- Subtraction with a `double` operand. -/
def CFloat.subD (a b : CFloat) : CFloat :=
  (CFloat.sub a b).bind toDouble

/-- Multiplication with a `double` operand. -/
def CFloat.mulD (a b : CFloat) : CFloat :=
  (CFloat.mul a b).bind toDouble

/-- Division with a `double` operand. -/
def CFloat.divD (a b : CFloat) : CFloat :=
  (CFloat.div a b).bind toDouble

/-! ## Baseline estimator: the block `check for clean baselines` -/

/-- Loop state of the search for the most probable value: the histogram `freq`, the
highest count `max` seen so far and the value `mpp` that reached it. -/
structure MppState where
  freq : Int → Int
  max : Int
  mpp : Int

/-- One iteration `k` of the loop `find most probable value mpp`, on `v = value[k][ch]`. -/
def findMppStep (size : Int) (s : MppState) (v : Int) : MppState :=
  if 0 < v ∧ v < size then
    let freq := Function.update s.freq v (s.freq v + 1)
    if freq v > s.max then
      { freq := freq, max := freq v, mpp := v }
    else
      { freq := freq, max := s.max, mpp := s.mpp }
  else s

/-- The loop `find most probable value mpp` over the observations `value[0..NACQS-1][ch]`,
from `max = 0`, `mpp = 0` and the zeroed histogram of `calloc`. -/
def findMpp (size : Int) (value : List Int) : MppState :=
  value.foldl (findMppStep size) { freq := fun _ => 0, max := 0, mpp := 0 }

/-- Loop state of `discard values too far from mpp`: the running sum kept in
`avg_value[p][ch]` and the count `ok`. -/
structure AvgState where
  avg_value : ℚ
  ok : Int

/-- One iteration of the loop `discard values too far from mpp`. -/
def discardStep (mpp : Int) (a : AvgState) (v : Int) : AvgState :=
  if v ≥ mpp - 5 ∧ v ≤ mpp + 5 then
    { avg_value := a.avg_value + (v : ℚ), ok := a.ok + 1 }
  else a

/-- The loop `discard values too far from mpp`, from `avg_value[p][ch] = 0` and `ok = 0`. -/
def discardFar (mpp : Int) (value : List Int) : AvgState :=
  value.foldl (discardStep mpp) { avg_value := 0, ok := 0 }

/-- The value of `size = (int)pow(2, (double)BoardInfo.ADC_NBits)`. -/
def adcSize (ADC_NBits : Nat) : Int :=
  2 ^ ADC_NBits

/-- The block `check for clean baselines` for one channel (or group): the value left in
`avg_value[p][ch]`, that is `(avg_value[p][ch] / (float)ok) * 100. / (float)size`, in exact
arithmetic (`checkCleanBaselineFloat` has the roundings of the code). -/
def checkCleanBaseline (ADC_NBits : Nat) (value : List Int) : CFloat :=
  let size := adcSize ADC_NBits
  let mpp := (findMpp size value).mpp
  let a := discardFar mpp value
  CFloat.div (CFloat.mul (CFloat.div (some a.avg_value) (some (a.ok : ℚ))) (some 100))
    (some (size : ℚ))

/-! ## Configuration, board and digitizer library -/

/-- Unsigned 32-bit addition. -/
def u32add (a b : Nat) : Nat :=
  (a + b) % 2 ^ 32

/-- Unsigned 32-bit subtraction. -/
def u32sub (a b : Nat) : Nat :=
  (a % 2 ^ 32 + (2 ^ 32 - b % 2 ^ 32)) % 2 ^ 32

/-- Conversion of a `uint32_t` to `int` (two's complement). -/
def u32ToInt (x : Nat) : Int :=
  if x % 2 ^ 32 < 2 ^ 31 then ((x % 2 ^ 32 : Nat) : Int) else ((x % 2 ^ 32 : Nat) : Int) - 2 ^ 32

/-- The enumeration `ERROR_CODES` of WaveDump. -/
inductive ERROR_CODES where
  | ERR_NONE
  | ERR_CONF_FILE_NOT_FOUND
  | ERR_DGZ_OPEN
  | ERR_BOARD_INFO_READ
  | ERR_INVALID_BOARD_TYPE
  | ERR_DGZ_PROGRAM
  | ERR_MALLOC
  | ERR_RESTART
  | ERR_INTERRUPT
  | ERR_READOUT
  | ERR_EVENT_BUILD
  | ERR_HISTO_MALLOC
  | ERR_UNHANDLED_BOARD
  | ERR_OUTFILE_WRITE
  | ERR_OVERTEMP
  | ERR_BOARD_FAILURE
  | ERR_DUMMY_LAST
  deriving DecidableEq, Repr

/-- Modelled from the spec: the pulse polarity of a unit (Positive | Negative), the type
`CAEN_DGTZ_PulsePolarity_t` of the digitizer library, whose header is not among the
sources. -/
inductive CAEN_DGTZ_PulsePolarity_t where
  | CAEN_DGTZ_PulsePolarityPositive
  | CAEN_DGTZ_PulsePolarityNegative
  deriving DecidableEq, Repr

/-- Modelled from the spec: the trigger modes of the digitizer library
(`CAEN_DGTZ_TriggerMode_t`), of which the code names `CAEN_DGTZ_TRGMODE_DISABLED`. -/
inductive CAEN_DGTZ_TriggerMode_t where
  | CAEN_DGTZ_TRGMODE_DISABLED
  | CAEN_DGTZ_TRGMODE_EXTOUT_ONLY
  | CAEN_DGTZ_TRGMODE_ACQ_ONLY
  | CAEN_DGTZ_TRGMODE_ACQ_AND_EXTOUT
  deriving DecidableEq, Repr

/-- Modelled from the spec: the acquisition modes of the digitizer library
(`CAEN_DGTZ_AcqMode_t`), of which the code names `CAEN_DGTZ_SW_CONTROLLED`. -/
inductive CAEN_DGTZ_AcqMode_t where
  | CAEN_DGTZ_SW_CONTROLLED
  | CAEN_DGTZ_S_IN_CONTROLLED
  | CAEN_DGTZ_FIRST_TRG_CONTROLLED
  deriving DecidableEq, Repr

/-- Modelled from the spec: the board families the calibration code tells apart
(`BoardInfo.FamilyCode`); every other family of the library is `OTHER_FAMILY_CODE`. -/
inductive CAEN_DGTZ_BoardFamilyCode_t where
  | CAEN_DGTZ_XX724_FAMILY_CODE
  | CAEN_DGTZ_XX740_FAMILY_CODE
  | CAEN_DGTZ_XX730_FAMILY_CODE
  | CAEN_DGTZ_XX725_FAMILY_CODE
  | CAEN_DGTZ_XX742_FAMILY_CODE
  | OTHER_FAMILY_CODE
  deriving DecidableEq, Repr

/-- Modelled from the spec: the fields of `CAEN_DGTZ_BoardInfo_t` the calibration code
reads: number of channels (groups for x740 boards), ADC bit depth and board family. -/
structure CAEN_DGTZ_BoardInfo_t where
  Channels : Nat
  ADC_NBits : Nat
  FamilyCode : CAEN_DGTZ_BoardFamilyCode_t

/-- Modelled from the spec: the calibration model `{gain, offset}` per unit, the structure
`DAC_Calibration_data` of `WaveDump.h` with its `float` arrays `cal` and `offset`. -/
structure DAC_Calibration_data where
  cal : Nat → CFloat
  offset : Nat → CFloat

/-- Modelled from the spec: the fields of `WaveDumpConfig_t` (declared in `WaveDump.h`,
which is not among the sources) that the calibration and threshold code reads or writes.
`DCoffset` and `Threshold` are `uint32_t` arrays, `Version_used` is `1` for a unit in
Calibrated mode and `0` for a unit in Legacy mode; `DCoffsetGrpCh[i][j]` is the code
configured for channel `j` of group `i` of an x742 board, `-1` when none is. -/
structure WaveDumpConfig_t where
  Nch : Nat
  Nbit : Nat
  NumEvents : Nat
  PostTrigger : Nat
  ExtTriggerMode : CAEN_DGTZ_TriggerMode_t
  EnableMask : Nat
  DecimationFactor : Nat
  ChannelTriggerMode : Nat → CAEN_DGTZ_TriggerMode_t
  PulsePolarity : Nat → CAEN_DGTZ_PulsePolarity_t
  DCoffset : Nat → Nat
  Threshold : Nat → Nat
  Version_used : Nat → Int
  DAC_Calib : DAC_Calibration_data
  DCoffsetGrpCh : Nat → Nat → Int

/-- A call of the digitizer library (or of the flash writer) with the arguments that
reach the device. -/
inductive HwCall where
  | GetAcquisitionMode
  | SetAcquisitionMode (mode : CAEN_DGTZ_AcqMode_t)
  | SetExtTriggerInputMode (mode : CAEN_DGTZ_TriggerMode_t)
  | SetChannelSelfTrigger (mode : CAEN_DGTZ_TriggerMode_t) (mask : Nat)
  | SetGroupSelfTrigger (mode : CAEN_DGTZ_TriggerMode_t) (mask : Nat)
  | SetChannelEnableMask (mask : Nat)
  | SetGroupEnableMask (mask : Nat)
  | SetMaxNumEventsBLT (n : Nat)
  | SetDecimationFactor (n : Nat)
  | SetPostTriggerSize (n : Nat)
  | MallocReadoutBuffer
  | AllocateEvent
  | SetChannelDCOffset (ch : Nat) (code : Nat)
  | SetGroupDCOffset (ch : Nat) (code : Nat)
  | SetChannelTriggerThreshold (ch : Nat) (thr : Nat)
  | SetGroupTriggerThreshold (ch : Nat) (thr : Nat)
  | ClearData
  | SWStartAcquisition
  | SWStopAcquisition
  | SendSWtrigger
  | ReadData
  | GetEventInfo
  | DecodeEvent
  | FreeReadoutBuffer
  | FreeEvent
  | Save_DAC_Calibration_To_Flash (DAC_Calib : DAC_Calibration_data)
  | GetChannelDCOffset (ch : Nat)
  | GetGroupDCOffset (ch : Nat)
  | ReadRegister (address : Nat)
  | WriteRegister (address : Nat) (data : Nat)

/-! ## Two-point calibration: `Calibrate_DC_Offset` -/

/-- Modelled from the spec: the number of calibration points `NPOINTS` of `WaveDump.h`;
two fixed points are used. -/
def NPOINTS : Nat := 2

/-- The array `dc[NPOINTS] = { 25,75 }` of test values (percent). -/
def dc (p : Nat) : Nat :=
  if p = 0 then 25 else if p = 1 then 75 else 0

/-- The DAC code of test point `p`:
`(uint32_t)((float)(abs(dc[p] - 100))*(655.35))`. -/
def testDCOffset (p : Nat) : Nat :=
  toUInt32 (((|u32ToInt (u32sub (dc p) 100)| : Int) : ℚ) * (65535 / 100))

/-- Responses of the digitizer during a calibration run: the acquisition mode read at
entry, the return codes of the calls whose failure changes the control flow (`0` is
`CAEN_DGTZ_Success`), and for test point `p` and acquisition `acq` the size of the buffer
read and the decoded samples `DataChannel[ch][i]`. -/
structure CalibrationDevice where
  mem_mode : CAEN_DGTZ_AcqMode_t
  MallocReadoutBuffer : Int
  AllocateEvent : Int
  SWStartAcquisition : Nat → Int
  ReadData : Nat → Nat → Int
  BufferSize : Nat → Nat → Nat
  GetEventInfo : Nat → Nat → Int
  DecodeEvent : Nat → Nat → Int
  DataChannel : Nat → Nat → Nat → Nat → Nat

/-- Outcome of a part of a run: it falls through with a value, or it jumps to
`QuitProgram` with the current `ErrCode`; in both cases with the library calls made. -/
inductive Flow (α : Type) where
  | next (a : α) (calls : List HwCall)
  | quit (ErrCode : ERROR_CODES) (calls : List HwCall)

/-- The value a part of a run falls through with, if it does. -/
def Flow.result {α : Type} : Flow α → Option α
  | .next a _ => some a
  | .quit _ _ => none

/-- Sequencing of two parts of a run. -/
def Flow.andThen {α β : Type} (x : Flow α) (f : α → Flow β) : Flow β :=
  match x with
  | .quit e c => .quit e c
  | .next a c =>
    match f a with
    | .quit e c2 => .quit e (c ++ c2)
    | .next b c2 => .next b (c ++ c2)

/-- The mask built by `for (ch = 0; ch < Channels; ch++) chmask |= (1 << ch);`. -/
def allMask (Channels : Nat) : Nat :=
  (List.range Channels).foldl (fun chmask ch => (chmask ||| (1 <<< ch)) % 2 ^ 32) 0

/-- A decoded sample as `int`: a `uint8_t` of `Event8` when `Nbit == 8`, else a
`uint16_t` of `Event16`. -/
def sampleInt (Nbit : Nat) (raw : Nat) : Int :=
  if Nbit = 8 then ((raw % 2 ^ 8 : Nat) : Int) else ((raw % 2 ^ 16 : Nat) : Int)

/-- The statement `value[acq][ch] += (int)(...DataChannel[ch][i])` for `i = 1 .. 20`
followed by `value[acq][ch] = (value[acq][ch] / 20)`, from the entry `v0`. -/
def meanOver20 (v0 : Int) (sample : Nat → Int) : Int :=
  Int.tdiv ((List.range 20).foldl (fun acc j => acc + sample (j + 1)) v0) 20

/-- The loop `for (ch = 0; ch < Channels; ch++)` that fills `value[acq][ch]` from the
decoded event of acquisition `acq` at test point `p`. -/
def storeObservations (dev : CalibrationDevice) (WDcfg : WaveDumpConfig_t)
    (BoardInfo : CAEN_DGTZ_BoardInfo_t) (p : Nat) (value : Nat → Nat → Int) (acq : Nat) :
    Nat → Nat → Int :=
  fun a ch =>
    if a = acq ∧ ch < BoardInfo.Channels then
      meanOver20 (value a ch) fun i => sampleInt WDcfg.Nbit (dev.DataChannel p acq ch i)
    else value a ch

/-- One pass of the loop `for (acq = 0; acq < NACQS; acq++)` of `Calibrate_DC_Offset`
at test point `p`, on the array `value`. -/
def acqStep (dev : CalibrationDevice) (WDcfg : WaveDumpConfig_t)
    (BoardInfo : CAEN_DGTZ_BoardInfo_t) (p : Nat) (value : Nat → Nat → Int) (acq : Nat) :
    Flow (Nat → Nat → Int) :=
  if dev.ReadData p acq ≠ 0 then
    .quit .ERR_READOUT [.SendSWtrigger, .ReadData]
  else if dev.BufferSize p acq = 0 then
    .next value [.SendSWtrigger, .ReadData]
  else if dev.GetEventInfo p acq ≠ 0 then
    .quit .ERR_EVENT_BUILD [.SendSWtrigger, .ReadData, .GetEventInfo]
  else if dev.DecodeEvent p acq ≠ 0 then
    .quit .ERR_EVENT_BUILD [.SendSWtrigger, .ReadData, .GetEventInfo, .DecodeEvent]
  else
    .next (storeObservations dev WDcfg BoardInfo p value acq)
      [.SendSWtrigger, .ReadData, .GetEventInfo, .DecodeEvent]

/-- A `for` loop whose body may jump to `QuitProgram`: the body `step` runs on the
indices of `idx` in order, threading the loop state. -/
def Flow.forEach {σ : Type} (step : σ → Nat → Flow σ) : List Nat → σ → Flow σ
  | [], s => .next s []
  | i :: idx, s => (step s i).andThen fun s1 => Flow.forEach step idx s1

/-- The observations `value[0][ch], ..., value[NACQS - 1][ch]` of one unit. -/
def batchOf (NACQS : Nat) (value : Nat → Nat → Int) (ch : Nat) : List Int :=
  (List.range NACQS).map fun k => value k ch

/-- The loop `check for clean baselines` over the units: `avg_value[p][ch]` of every
`ch < Channels`; the other entries keep their initial `0`. -/
def cleanBaselines (BoardInfo : CAEN_DGTZ_BoardInfo_t) (NACQS : Nat)
    (value : Nat → Nat → Int) (ch : Nat) : CFloat :=
  if ch < BoardInfo.Channels then
    checkCleanBaseline BoardInfo.ADC_NBits (batchOf NACQS value ch)
  else some 0

/-- Body of the loop `for (p = 0; p < NPOINTS; p++)` of `Calibrate_DC_Offset`: program
the test offset on every channel, acquire `NACQS` observations in a fresh array `value`,
and leave the clean baseline of the point in `avg_value[p]`. -/
def pointStep (dev : CalibrationDevice) (NACQS : Nat) (WDcfg : WaveDumpConfig_t)
    (BoardInfo : CAEN_DGTZ_BoardInfo_t) (avg_value : Nat → Nat → CFloat) (p : Nat) :
    Flow (Nat → Nat → CFloat) :=
  let setOffsets : List HwCall :=
    (List.range BoardInfo.Channels).map fun ch => HwCall.SetChannelDCOffset ch (testDCOffset p)
  if dev.SWStartAcquisition p ≠ 0 then
    .quit .ERR_NONE (setOffsets ++ [.ClearData, .SWStartAcquisition])
  else
    (Flow.next () (setOffsets ++ [.ClearData, .SWStartAcquisition])).andThen fun _ =>
    (Flow.forEach (acqStep dev WDcfg BoardInfo p) (List.range NACQS) (fun _ _ => 0)).andThen
      fun value =>
    .next (fun q ch => if q = p then cleanBaselines BoardInfo NACQS value ch else avg_value q ch)
      [.SWStopAcquisition]

/-- The gain `cal[ch]` of the fit:
`(float)(avg_value[1][ch] - avg_value[0][ch]) / (float)(dc[1] - dc[0])`, in exact arithmetic
(`fitCalFloat` has the roundings of the code). -/
def fitCal (avg0 avg1 : CFloat) : CFloat :=
  CFloat.div (CFloat.sub avg1 avg0) (some ((u32sub (dc 1) (dc 0) : Nat) : ℚ))

/-- The intercept `offset[ch]` of the fit:
`(float)(dc[1] * avg_value[0][ch] - dc[0] * avg_value[1][ch]) / (float)(dc[1] - dc[0])`, in
exact arithmetic (`fitOffsetFloat` has the roundings of the code). -/
def fitOffset (avg0 avg1 : CFloat) : CFloat :=
  CFloat.div
    (CFloat.sub (CFloat.mul (some ((dc 1 : Nat) : ℚ)) avg0) (CFloat.mul (some ((dc 0 : Nat) : ℚ)) avg1))
    (some ((u32sub (dc 1) (dc 0) : Nat) : ℚ))

/-- One pass of the loop that fits and stores the model of unit `ch`, in exact arithmetic:
`WDcfg->DAC_Calib.cal[ch] = cal[ch]; WDcfg->DAC_Calib.offset[ch] = offset[ch];`. -/
def storeStep (avg_value : Nat → Nat → CFloat) (WDcfg : WaveDumpConfig_t) (ch : Nat) :
    WaveDumpConfig_t :=
  { WDcfg with
    DAC_Calib :=
      { cal := Function.update WDcfg.DAC_Calib.cal ch (fitCal (avg_value 0 ch) (avg_value 1 ch))
        offset :=
          Function.update WDcfg.DAC_Calib.offset ch (fitOffset (avg_value 0 ch) (avg_value 1 ch)) } }

/-- The loop `for (ch = 0; ch < Channels; ch++)` that stores the fitted models. -/
def storeCalibration (BoardInfo : CAEN_DGTZ_BoardInfo_t) (avg_value : Nat → Nat → CFloat)
    (WDcfg : WaveDumpConfig_t) : WaveDumpConfig_t :=
  (List.range BoardInfo.Channels).foldl (storeStep avg_value) WDcfg

/-- The calls of `reset self trigger mode settings` at the end of `Calibrate_DC_Offset`:
channel pairs for x730 and x725 boards, single channels otherwise. -/
def resetSelfTrigger (WDcfg : WaveDumpConfig_t) (BoardInfo : CAEN_DGTZ_BoardInfo_t) :
    List HwCall :=
  if BoardInfo.FamilyCode = .CAEN_DGTZ_XX730_FAMILY_CODE ∨
      BoardInfo.FamilyCode = .CAEN_DGTZ_XX725_FAMILY_CODE then
    ((List.range ((WDcfg.Nch + 1) / 2)).map fun j =>
      let i := 2 * j
      if WDcfg.EnableMask &&& (0x3 <<< i) ≠ 0 then
        if WDcfg.ChannelTriggerMode i ≠ .CAEN_DGTZ_TRGMODE_DISABLED then
          if WDcfg.ChannelTriggerMode (i + 1) = .CAEN_DGTZ_TRGMODE_DISABLED then
            [HwCall.SetChannelSelfTrigger (WDcfg.ChannelTriggerMode i)
              ((0x1 <<< i) % 2 ^ 32 &&& WDcfg.EnableMask)]
          else
            [HwCall.SetChannelSelfTrigger (WDcfg.ChannelTriggerMode i)
              ((0x3 <<< i) % 2 ^ 32 &&& WDcfg.EnableMask)]
        else
          [HwCall.SetChannelSelfTrigger (WDcfg.ChannelTriggerMode (i + 1))
            ((0x2 <<< i) % 2 ^ 32 &&& WDcfg.EnableMask)]
      else []).flatten
  else
    ((List.range WDcfg.Nch).map fun i =>
      if WDcfg.EnableMask &&& (1 <<< i) ≠ 0 then
        [HwCall.SetChannelSelfTrigger (WDcfg.ChannelTriggerMode i) (1 <<< i)]
      else []).flatten

/-- The calls between the store loop and `Save_DAC_Calibration_To_Flash`: free the buffers
and `reset settings`. -/
def resetSettings (dev : CalibrationDevice) (WDcfg : WaveDumpConfig_t)
    (BoardInfo : CAEN_DGTZ_BoardInfo_t) : List HwCall :=
  [.ClearData, .FreeReadoutBuffer, .FreeEvent,
    .SetMaxNumEventsBLT WDcfg.NumEvents, .SetPostTriggerSize WDcfg.PostTrigger,
    .SetAcquisitionMode dev.mem_mode, .SetExtTriggerInputMode WDcfg.ExtTriggerMode,
    .SetChannelEnableMask WDcfg.EnableMask] ++
  (if BoardInfo.FamilyCode = .CAEN_DGTZ_XX740_FAMILY_CODE ∨
      BoardInfo.FamilyCode = .CAEN_DGTZ_XX724_FAMILY_CODE then
    [.SetDecimationFactor WDcfg.DecimationFactor] else []) ++
  resetSelfTrigger WDcfg BoardInfo

/-- What a run leaves behind: the configuration, the library calls in order, and the
`ErrCode` reached at `QuitProgram`. -/
structure RunResult where
  WDcfg : WaveDumpConfig_t
  calls : List HwCall
  ErrCode : ERROR_CODES

/-- The calls of `Calibrate_DC_Offset` before the readout buffer is allocated. -/
def calibrationSetup (BoardInfo : CAEN_DGTZ_BoardInfo_t) : List HwCall :=
  [.GetAcquisitionMode, .SetAcquisitionMode .CAEN_DGTZ_SW_CONTROLLED,
    .SetExtTriggerInputMode .CAEN_DGTZ_TRGMODE_DISABLED,
    .SetChannelSelfTrigger .CAEN_DGTZ_TRGMODE_DISABLED (allMask BoardInfo.Channels),
    .SetChannelEnableMask (allMask BoardInfo.Channels), .SetMaxNumEventsBLT 1] ++
  (if BoardInfo.FamilyCode = .CAEN_DGTZ_XX740_FAMILY_CODE ∨
      BoardInfo.FamilyCode = .CAEN_DGTZ_XX724_FAMILY_CODE then
    [.SetDecimationFactor 1] else [])

/-- The part of `Calibrate_DC_Offset` from `malloc` to the end of the loop over the test
points: the two allocations, then the measurement of `avg_value`. -/
def measurePoints (dev : CalibrationDevice) (NACQS : Nat) (WDcfg : WaveDumpConfig_t)
    (BoardInfo : CAEN_DGTZ_BoardInfo_t) : Flow (Nat → Nat → CFloat) :=
  if dev.MallocReadoutBuffer ≠ 0 then .quit .ERR_MALLOC [.MallocReadoutBuffer]
  else if dev.AllocateEvent ≠ 0 then .quit .ERR_MALLOC [.MallocReadoutBuffer, .AllocateEvent]
  else
    (Flow.next () [.MallocReadoutBuffer, .AllocateEvent]).andThen fun _ =>
    Flow.forEach (pointStep dev NACQS WDcfg BoardInfo) (List.range NPOINTS) (fun _ _ => some 0)

/-- The function `Calibrate_DC_Offset`, run against the device responses `dev` with
`NACQS` acquisitions per test point. -/
def Calibrate_DC_Offset (dev : CalibrationDevice) (NACQS : Nat) (WDcfg : WaveDumpConfig_t)
    (BoardInfo : CAEN_DGTZ_BoardInfo_t) : RunResult :=
  match measurePoints dev NACQS WDcfg BoardInfo with
  | .quit ErrCode calls =>
    { WDcfg := WDcfg, calls := calibrationSetup BoardInfo ++ calls, ErrCode := ErrCode }
  | .next avg_value calls =>
    let WDcfg1 := storeCalibration BoardInfo avg_value WDcfg
    { WDcfg := WDcfg1
      calls := calibrationSetup BoardInfo ++ calls ++ resetSettings dev WDcfg1 BoardInfo ++
        [.Save_DAC_Calibration_To_Flash WDcfg1.DAC_Calib]
      ErrCode := .ERR_NONE }

/-! ## Two-point calibration of x740 boards: `Calibrate_XX740_DC_Offset` -/

/-- The loop `for (g = 0; g < Channels; g++)` of `Calibrate_XX740_DC_Offset` that fills
`value[acq][g]` from `Event16->DataChannel[g * 8]`. -/
def storeObservationsXX740 (dev : CalibrationDevice) (BoardInfo : CAEN_DGTZ_BoardInfo_t)
    (p : Nat) (value : Nat → Nat → Int) (acq : Nat) : Nat → Nat → Int :=
  fun a g =>
    if a = acq ∧ g < BoardInfo.Channels then
      meanOver20 (value a g) fun k => ((dev.DataChannel p acq (g * 8) k % 2 ^ 16 : Nat) : Int)
    else value a g

/-- One pass of the loop `for (acq = 0; acq < NACQS; acq++)` of
`Calibrate_XX740_DC_Offset`. -/
def acqStepXX740 (dev : CalibrationDevice) (BoardInfo : CAEN_DGTZ_BoardInfo_t) (p : Nat)
    (value : Nat → Nat → Int) (acq : Nat) : Flow (Nat → Nat → Int) :=
  if dev.ReadData p acq ≠ 0 then
    .quit .ERR_READOUT [.SendSWtrigger, .ReadData]
  else if dev.BufferSize p acq = 0 then
    .next value [.SendSWtrigger, .ReadData]
  else if dev.GetEventInfo p acq ≠ 0 then
    .quit .ERR_EVENT_BUILD [.SendSWtrigger, .ReadData, .GetEventInfo]
  else if dev.DecodeEvent p acq ≠ 0 then
    .quit .ERR_EVENT_BUILD [.SendSWtrigger, .ReadData, .GetEventInfo, .DecodeEvent]
  else
    .next (storeObservationsXX740 dev BoardInfo p value acq)
      [.SendSWtrigger, .ReadData, .GetEventInfo, .DecodeEvent]

/-- Body of the loop `for (p = 0; p < NPOINTS; p++)` of `Calibrate_XX740_DC_Offset`. -/
def pointStepXX740 (dev : CalibrationDevice) (NACQS : Nat)
    (BoardInfo : CAEN_DGTZ_BoardInfo_t) (avg_value : Nat → Nat → CFloat) (p : Nat) :
    Flow (Nat → Nat → CFloat) :=
  let setOffsets : List HwCall :=
    (List.range BoardInfo.Channels).map fun i => HwCall.SetGroupDCOffset i (testDCOffset p)
  if dev.SWStartAcquisition p ≠ 0 then
    .quit .ERR_NONE (setOffsets ++ [.ClearData, .SWStartAcquisition])
  else
    (Flow.next () (setOffsets ++ [.ClearData, .SWStartAcquisition])).andThen fun _ =>
    (Flow.forEach (acqStepXX740 dev BoardInfo p) (List.range NACQS) (fun _ _ => 0)).andThen
      fun value =>
    .next (fun q g => if q = p then cleanBaselines BoardInfo NACQS value g else avg_value q g)
      [.SWStopAcquisition]

/-- The calls of `Calibrate_XX740_DC_Offset` before the readout buffer is allocated. -/
def calibrationSetupXX740 (BoardInfo : CAEN_DGTZ_BoardInfo_t) : List HwCall :=
  [.GetAcquisitionMode, .SetAcquisitionMode .CAEN_DGTZ_SW_CONTROLLED,
    .SetExtTriggerInputMode .CAEN_DGTZ_TRGMODE_DISABLED, .SetMaxNumEventsBLT 1,
    .SetDecimationFactor 1,
    .SetGroupSelfTrigger .CAEN_DGTZ_TRGMODE_DISABLED (allMask BoardInfo.Channels),
    .SetGroupEnableMask (allMask BoardInfo.Channels)]

/-- The part of `Calibrate_XX740_DC_Offset` from `malloc` to the end of the loop over the
test points. -/
def measurePointsXX740 (dev : CalibrationDevice) (NACQS : Nat)
    (BoardInfo : CAEN_DGTZ_BoardInfo_t) : Flow (Nat → Nat → CFloat) :=
  if dev.MallocReadoutBuffer ≠ 0 then .quit .ERR_MALLOC [.MallocReadoutBuffer]
  else if dev.AllocateEvent ≠ 0 then .quit .ERR_MALLOC [.MallocReadoutBuffer, .AllocateEvent]
  else
    (Flow.next () [.MallocReadoutBuffer, .AllocateEvent]).andThen fun _ =>
    Flow.forEach (pointStepXX740 dev NACQS BoardInfo) (List.range NPOINTS) (fun _ _ => some 0)

/-- The calls of `Calibrate_XX740_DC_Offset` between the store loop and
`Save_DAC_Calibration_To_Flash`. -/
def resetSettingsXX740 (dev : CalibrationDevice) (WDcfg : WaveDumpConfig_t)
    (BoardInfo : CAEN_DGTZ_BoardInfo_t) : List HwCall :=
  [.ClearData, .FreeReadoutBuffer, .FreeEvent,
    .SetMaxNumEventsBLT WDcfg.NumEvents, .SetDecimationFactor WDcfg.DecimationFactor,
    .SetPostTriggerSize WDcfg.PostTrigger, .SetAcquisitionMode dev.mem_mode,
    .SetExtTriggerInputMode WDcfg.ExtTriggerMode, .SetGroupEnableMask WDcfg.EnableMask] ++
  ((List.range BoardInfo.Channels).map fun i =>
    if WDcfg.EnableMask &&& (1 <<< i) ≠ 0 then
      [HwCall.SetGroupSelfTrigger (WDcfg.ChannelTriggerMode i) (1 <<< i)]
    else []).flatten

/-- The function `Calibrate_XX740_DC_Offset`, run against the device responses `dev` with
`NACQS` acquisitions per test point. -/
def Calibrate_XX740_DC_Offset (dev : CalibrationDevice) (NACQS : Nat)
    (WDcfg : WaveDumpConfig_t) (BoardInfo : CAEN_DGTZ_BoardInfo_t) : RunResult :=
  match measurePointsXX740 dev NACQS BoardInfo with
  | .quit ErrCode calls =>
    { WDcfg := WDcfg, calls := calibrationSetupXX740 BoardInfo ++ calls, ErrCode := ErrCode }
  | .next avg_value calls =>
    let WDcfg1 := storeCalibration BoardInfo avg_value WDcfg
    { WDcfg := WDcfg1
      calls := calibrationSetupXX740 BoardInfo ++ calls ++
        resetSettingsXX740 dev WDcfg1 BoardInfo ++
        [.Save_DAC_Calibration_To_Flash WDcfg1.DAC_Calib]
      ErrCode := .ERR_NONE }

/-! ## Applying the calibration: `Set_calibrated_DCO` -/

/-- The operand of the multiplication by `655.35` in `Set_calibrated_DCO`, for a request
`r = dc_file[ch]`: `fabs((((float)r - offset) / cal) - 100.)` for a positive pulse polarity
and `fabs(((fabs(r - 100.) - offset) / cal) - 100.)` for a negative one, in exact arithmetic
(`targetPercentFloat` has the roundings of the code). -/
def targetPercent (pol : CAEN_DGTZ_PulsePolarity_t) (r : Int) (cal offset : CFloat) : CFloat :=
  match pol with
  | .CAEN_DGTZ_PulsePolarityPositive =>
    CFloat.fabs (CFloat.sub (CFloat.div (CFloat.sub (some (r : ℚ)) offset) cal) (some 100))
  | .CAEN_DGTZ_PulsePolarityNegative =>
    CFloat.fabs (CFloat.sub
      (CFloat.div (CFloat.sub (CFloat.fabs (CFloat.sub (some (r : ℚ)) (some 100))) offset) cal)
      (some 100))

/-- The value assigned to `WDcfg->DCoffset[ch]` before the range checks:
`(uint32_t)((float)(fabs(...))*(655.35))`, with the product in exact arithmetic
(`calibratedCodeFloat` has the roundings of the code). It is `none` when the floating point
expression has no rational value. -/
def calibratedCode (pol : CAEN_DGTZ_PulsePolarity_t) (r : Int) (cal offset : CFloat) :
    Option Nat :=
  (CFloat.mul (targetPercent pol r cal offset) (some (65535 / 100))).map toUInt32

/-- The two range checks on `WDcfg->DCoffset[ch]`, an unsigned value: above `65535` it
becomes `65535`, below `0` it becomes `0`. -/
def clampDCoffset (pol : CAEN_DGTZ_PulsePolarity_t) (d : Nat) : Nat :=
  match pol with
  | .CAEN_DGTZ_PulsePolarityPositive =>
    let d1 := if d > 65535 then 65535 else d
    if d1 < 0 then 0 else d1
  | .CAEN_DGTZ_PulsePolarityNegative =>
    let d1 := if d < 0 then 0 else d
    if d1 > 65535 then 65535 else d1

/-- What `Set_calibrated_DCO` leaves behind: the configuration, the library calls and the
returned code. -/
structure DCOResult where
  WDcfg : WaveDumpConfig_t
  calls : List HwCall
  ret : Int

/-- The function `Set_calibrated_DCO` for unit `ch`, with the global request array
`dc_file`, the floating point expression taken in exact arithmetic; `setRet` is the code the
device returns for the offset write. The result is `none` when the floating point expression
has no rational value. -/
def Set_calibrated_DCO (dc_file : Nat → Int) (setRet : Int) (ch : Nat)
    (WDcfg : WaveDumpConfig_t) (BoardInfo : CAEN_DGTZ_BoardInfo_t) : Option DCOResult :=
  if WDcfg.Version_used ch = 0 then
    some { WDcfg := WDcfg, calls := [], ret := 0 }
  else
    (calibratedCode (WDcfg.PulsePolarity ch) (dc_file ch) (WDcfg.DAC_Calib.cal ch)
      (WDcfg.DAC_Calib.offset ch)).map fun d =>
    let WDcfg1 : WaveDumpConfig_t :=
      { WDcfg with
        DCoffset := Function.update WDcfg.DCoffset ch (clampDCoffset (WDcfg.PulsePolarity ch) d) }
    if BoardInfo.FamilyCode = .CAEN_DGTZ_XX740_FAMILY_CODE then
      { WDcfg := WDcfg1, calls := [.SetGroupDCOffset ch (WDcfg1.DCoffset ch)], ret := setRet }
    else
      { WDcfg := WDcfg1, calls := [.SetChannelDCOffset ch (WDcfg1.DCoffset ch)], ret := setRet }

/-! ## Relative threshold: the assignment of `Set_relative_Threshold` -/

/-- The statements of `Set_relative_Threshold` that turn the measured `baseline[ch]` into
the threshold of unit `ch` (the same text in the self-triggered pass and in the software
trigger pass): the sum or difference with `thr_file[ch]` in `uint32_t`, the two range
checks, and the write to the device. -/
def setThreshold (thr_file : Nat → Int) (WDcfg : WaveDumpConfig_t)
    (BoardInfo : CAEN_DGTZ_BoardInfo_t) (baseline : Nat → Int) (ch : Nat) :
    WaveDumpConfig_t × List HwCall :=
  let t1 : Nat :=
    match WDcfg.PulsePolarity ch with
    | .CAEN_DGTZ_PulsePolarityPositive =>
      u32add (intToUInt32 (baseline ch)) (intToUInt32 (thr_file ch))
    | .CAEN_DGTZ_PulsePolarityNegative =>
      u32sub (intToUInt32 (baseline ch)) (intToUInt32 (thr_file ch))
  let t2 : Nat := if t1 < 0 then 0 else t1
  let size : Int := adcSize BoardInfo.ADC_NBits
  let t3 : Nat := if t2 > intToUInt32 size then intToUInt32 size else t2
  let WDcfg1 : WaveDumpConfig_t := { WDcfg with Threshold := Function.update WDcfg.Threshold ch t3 }
  if BoardInfo.FamilyCode = .CAEN_DGTZ_XX740_FAMILY_CODE then
    (WDcfg1, [.SetGroupTriggerThreshold ch (WDcfg1.Threshold ch)])
  else
    (WDcfg1, [.SetChannelTriggerThreshold ch (WDcfg1.Threshold ch)])

/-! ## Concrete boards, configurations and device responses -/

/-- A two-channel x730 board with a 14-bit ADC. -/
def board730 : CAEN_DGTZ_BoardInfo_t :=
  { Channels := 2, ADC_NBits := 14, FamilyCode := .CAEN_DGTZ_XX730_FAMILY_CODE }

/-- A configuration with both channels enabled, in Calibrated mode, with positive pulses
and the model `cal = 1`, `offset = 0`. -/
def config730 : WaveDumpConfig_t :=
  { Nch := 2, Nbit := 14, NumEvents := 1023, PostTrigger := 50,
    ExtTriggerMode := .CAEN_DGTZ_TRGMODE_ACQ_ONLY, EnableMask := 3, DecimationFactor := 1,
    ChannelTriggerMode := fun _ => .CAEN_DGTZ_TRGMODE_ACQ_ONLY,
    PulsePolarity := fun _ => .CAEN_DGTZ_PulsePolarityPositive,
    DCoffset := fun _ => 32767, Threshold := fun _ => 100, Version_used := fun _ => 1,
    DAC_Calib := { cal := fun _ => some 1, offset := fun _ => some 0 },
    DCoffsetGrpCh := fun _ _ => -1 }

/-- The configuration `config730` with negative pulses. -/
def config730neg : WaveDumpConfig_t :=
  { config730 with PulsePolarity := fun _ => .CAEN_DGTZ_PulsePolarityNegative }

/-- A device on which every call succeeds and every decoded sample of every event is the
16-bit word `s`. -/
def constantDevice (s : Nat) : CalibrationDevice :=
  { mem_mode := .CAEN_DGTZ_SW_CONTROLLED, MallocReadoutBuffer := 0, AllocateEvent := 0,
    SWStartAcquisition := fun _ => 0, ReadData := fun _ _ => 0, BufferSize := fun _ _ => 1,
    GetEventInfo := fun _ _ => 0, DecodeEvent := fun _ _ => 0,
    DataChannel := fun _ _ _ _ => s }

/-- Whether a call is the flash write of the calibration. -/
def HwCall.isSave : HwCall → Bool
  | .Save_DAC_Calibration_To_Flash _ => true
  | _ => false

/-- Every call of the run whose failure jumps to `QuitProgram` succeeds on `dev`. -/
def CalibrationDevice.succeeds (dev : CalibrationDevice) : Prop :=
  dev.MallocReadoutBuffer = 0 ∧ dev.AllocateEvent = 0 ∧ (∀ p, dev.SWStartAcquisition p = 0) ∧
    (∀ p acq, dev.ReadData p acq = 0) ∧ (∀ p acq, dev.GetEventInfo p acq = 0) ∧
    (∀ p acq, dev.DecodeEvent p acq = 0)

/-- The array `value` at the end of the acquisition loop of test point `p` when no call
fails: acquisitions with an empty buffer leave their row at `0`. -/
def observations (dev : CalibrationDevice) (WDcfg : WaveDumpConfig_t)
    (BoardInfo : CAEN_DGTZ_BoardInfo_t) (NACQS p : Nat) : Nat → Nat → Int :=
  (List.range NACQS).foldl
    (fun value acq =>
      if dev.BufferSize p acq = 0 then value else storeObservations dev WDcfg BoardInfo p value acq)
    (fun _ _ => 0)

/-- The observations of the batch that lie in `[m - 5, m + 5]`, in order. -/
def inBand (m : Int) (value : List Int) : List Int :=
  value.filter fun v => decide (m - 5 ≤ v ∧ v ≤ m + 5)

/-- Invariant of the loop `find most probable value mpp` after the observations `seen`. -/
structure MppInv (size : Int) (seen : List Int) (s : MppState) : Prop where
  freq_eq : ∀ v, s.freq v = if 0 < v ∧ v < size then (seen.count v : Int) else 0
  freq_le : ∀ v, s.freq v ≤ s.max
  mpp_max : (s.max = 0 ∧ s.mpp = 0) ∨ (0 < s.max ∧ s.max ≤ s.freq s.mpp)

/-- The library calls made by a part of a run. -/
def Flow.calls {α : Type} : Flow α → List HwCall
  | .next _ c => c
  | .quit _ c => c

/-- The settings of the digitizer that the library calls of the calibration and threshold
code set: acquisition mode, external trigger mode, self trigger mode of every unit, enable
mask, maximum number of events per transfer, decimation factor, post trigger size, DC
offset and trigger threshold of every unit, and whether the acquisition is running. -/
structure DeviceSettings where
  AcquisitionMode : CAEN_DGTZ_AcqMode_t
  ExtTriggerInputMode : CAEN_DGTZ_TriggerMode_t
  SelfTrigger : Nat → CAEN_DGTZ_TriggerMode_t
  EnableMask : Nat
  MaxNumEventsBLT : Nat
  DecimationFactor : Nat
  PostTriggerSize : Nat
  DCOffset : Nat → Nat
  TriggerThreshold : Nat → Nat
  acquiring : Bool

/-- The settings of the digitizer after one library call that takes effect. -/
def DeviceSettings.after (d : DeviceSettings) : HwCall → DeviceSettings
  | .SetAcquisitionMode mode => { d with AcquisitionMode := mode }
  | .SetExtTriggerInputMode mode => { d with ExtTriggerInputMode := mode }
  | .SetChannelSelfTrigger mode mask =>
    { d with SelfTrigger := fun ch => if mask &&& (1 <<< ch) ≠ 0 then mode else d.SelfTrigger ch }
  | .SetGroupSelfTrigger mode mask =>
    { d with SelfTrigger := fun ch => if mask &&& (1 <<< ch) ≠ 0 then mode else d.SelfTrigger ch }
  | .SetChannelEnableMask mask => { d with EnableMask := mask }
  | .SetGroupEnableMask mask => { d with EnableMask := mask }
  | .SetMaxNumEventsBLT n => { d with MaxNumEventsBLT := n }
  | .SetDecimationFactor n => { d with DecimationFactor := n }
  | .SetPostTriggerSize n => { d with PostTriggerSize := n }
  | .SetChannelDCOffset ch code => { d with DCOffset := Function.update d.DCOffset ch code }
  | .SetGroupDCOffset ch code => { d with DCOffset := Function.update d.DCOffset ch code }
  | .SetChannelTriggerThreshold ch thr =>
    { d with TriggerThreshold := Function.update d.TriggerThreshold ch thr }
  | .SetGroupTriggerThreshold ch thr =>
    { d with TriggerThreshold := Function.update d.TriggerThreshold ch thr }
  | .SWStartAcquisition => { d with acquiring := true }
  | .SWStopAcquisition => { d with acquiring := false }
  | _ => d

/-- The settings of the digitizer after a sequence of library calls. -/
def settingsAfter (d : DeviceSettings) (calls : List HwCall) : DeviceSettings :=
  calls.foldl DeviceSettings.after d

/-- The settings of a digitizer programmed from the configuration `WDcfg`, with the
acquisition mode `mode` and the acquisition stopped. -/
def programmedSettings (WDcfg : WaveDumpConfig_t) (mode : CAEN_DGTZ_AcqMode_t) :
    DeviceSettings :=
  { AcquisitionMode := mode, ExtTriggerInputMode := WDcfg.ExtTriggerMode,
    SelfTrigger := WDcfg.ChannelTriggerMode, EnableMask := WDcfg.EnableMask,
    MaxNumEventsBLT := WDcfg.NumEvents, DecimationFactor := WDcfg.DecimationFactor,
    PostTriggerSize := WDcfg.PostTrigger, DCOffset := WDcfg.DCoffset,
    TriggerThreshold := WDcfg.Threshold, acquiring := false }

/-- The configuration `config730` with only channel 0 enabled. -/
def config730one : WaveDumpConfig_t :=
  { config730 with EnableMask := 1 }

/-- A device on which every call succeeds except the reads of the data, which return the
library error `-2`. -/
def readFailDevice : CalibrationDevice :=
  { constantDevice 100 with ReadData := fun _ _ => -2 }

/-! ## Programming the DC offset in `ProgramDigitizer` -/

/-- The statements of `ProgramDigitizer` that program the DC offset of an enabled unit `i`.
On an x742 board the eight channels of group `i` are written, each with
`WDcfg.DCoffsetGrpCh[i][j]` when that is not `-1` and with `WDcfg.DCoffset[i]` otherwise,
and `Version_used` is not read. On the other boards:
`if (WDcfg.Version_used[i] == 1) ret |= Set_calibrated_DCO(handle, i, &WDcfg, BoardInfo);`
`else ret |= CAEN_DGTZ_SetChannelDCOffset(handle, i, WDcfg.DCoffset[i]);`, with
`CAEN_DGTZ_SetGroupDCOffset` in the branch of the x740 boards. `setRet` is the code the
device returns for an offset write. -/
def programDCOffset (dc_file : Nat → Int) (setRet : Int) (i : Nat) (WDcfg : WaveDumpConfig_t)
    (BoardInfo : CAEN_DGTZ_BoardInfo_t) : Option DCOResult :=
  if BoardInfo.FamilyCode = .CAEN_DGTZ_XX742_FAMILY_CODE then
    some
      { WDcfg := WDcfg
        calls := (List.range 8).map fun j =>
          if WDcfg.DCoffsetGrpCh i j ≠ -1 then
            HwCall.SetChannelDCOffset (i * 8 + j) (intToUInt32 (WDcfg.DCoffsetGrpCh i j))
          else HwCall.SetChannelDCOffset (i * 8 + j) (WDcfg.DCoffset i)
        ret := setRet }
  else if WDcfg.Version_used i = 1 then
    Set_calibrated_DCO dc_file setRet i WDcfg BoardInfo
  else if BoardInfo.FamilyCode = .CAEN_DGTZ_XX740_FAMILY_CODE then
    some { WDcfg := WDcfg, calls := [.SetGroupDCOffset i (WDcfg.DCoffset i)], ret := setRet }
  else
    some { WDcfg := WDcfg, calls := [.SetChannelDCOffset i (WDcfg.DCoffset i)], ret := setRet }

/-! ## Register access: `WriteRegisterBitmask` -/

/-- Bitwise complement `~x` of a `uint32_t`. -/
def u32not (x : Nat) : Nat :=
  2 ^ 32 - 1 - x % 2 ^ 32

/-- What `WriteRegisterBitmask` leaves behind: the returned code and the library calls. -/
structure RegisterResult where
  ret : Int
  calls : List HwCall

/-- The function `WriteRegisterBitmask` on the register at `address`: `readRet` and `d32`
are the code and the value that `CAEN_DGTZ_ReadRegister` returns, `writeRet` the code that
`CAEN_DGTZ_WriteRegister` returns (`0` is `CAEN_DGTZ_Success`). -/
def WriteRegisterBitmask (readRet : Int) (d32 : Nat) (writeRet : Int)
    (address data mask : Nat) : RegisterResult :=
  if readRet ≠ 0 then
    { ret := readRet, calls := [.ReadRegister address] }
  else
    let data1 := data &&& mask
    let d32a := d32 &&& u32not mask
    let d32b := d32a ||| data1
    { ret := writeRet, calls := [.ReadRegister address, .WriteRegister address d32b] }

/-! ## Relative threshold: the function `Set_relative_Threshold` -/

/-- Responses of the digitizer during a run of `Set_relative_Threshold`: the return codes
of the calls whose failure ends the run (`0` is `CAEN_DGTZ_Success`), the DC offset `dco`
read back for every unit, and for the two reads of the run (index `0` for the self
triggered event, index `1` for the software triggered event) the size of the buffer read
and the decoded `ChSize[event_ch]` and `DataChannel[event_ch][i]`. -/
structure ThresholdDevice where
  MallocReadoutBuffer : Int
  AllocateEvent : Int
  SetPostTriggerSize : Int
  GetDCOffset : Nat → Int
  dco : Nat → Nat
  SetTriggerThreshold : Nat → Int
  ReadData : Nat → Int
  BufferSize : Nat → Nat
  GetEventInfo : Nat → Int
  DecodeEvent : Nat → Int
  ChSize : Nat → Nat → Nat
  DataChannel : Nat → Nat → Nat → Nat

/-- The test `WDcfg->EnableMask & (1 << ch) && WDcfg->Version_used[ch] == 1`: the unit is
enabled and in Calibrated mode. -/
def usesBaselineShift (WDcfg : WaveDumpConfig_t) (ch : Nat) : Bool :=
  decide (WDcfg.EnableMask &&& (1 <<< ch) ≠ 0) && decide (WDcfg.Version_used ch = 1)

/-- The flag `should_start` after the preliminary check: some unit below `Channels` is
enabled and in Calibrated mode. -/
def shouldStart (WDcfg : WaveDumpConfig_t) (BoardInfo : CAEN_DGTZ_BoardInfo_t) : Bool :=
  (List.range BoardInfo.Channels).any (usesBaselineShift WDcfg)

/-- The exploratory threshold `custom_thr` of unit `ch`, from the DC offset read back, in
the arithmetic of the code: `dco_percent = (float)dco / 65535.` is the `double` quotient of
the converted `dco`, rounded to `float` by the assignment;
`expected_baseline = pow(2, (double)BoardInfo.ADC_NBits) * (1.0 - dco_percent)` is a `double`
difference and a `double` product, rounded to `float` by the assignment; the threshold is
`(uint32_t)expected_baseline + 100` for positive pulses and `(uint32_t)expected_baseline - 100`
otherwise. The values are far from the overflow of either format, so the roundings are taken
without the overflow test. -/
def customThreshold (dev : ThresholdDevice) (WDcfg : WaveDumpConfig_t)
    (BoardInfo : CAEN_DGTZ_BoardInfo_t) (ch : Nat) : Nat :=
  let dco_percent : ℚ :=
    roundBinary 24 (-126) (roundBinary 53 (-1022)
      (roundBinary 24 (-126) ((dev.dco ch % 2 ^ 32 : Nat) : ℚ) / 65535))
  let expected_baseline : ℚ :=
    roundBinary 24 (-126) (roundBinary 53 (-1022)
      ((2 : ℚ) ^ BoardInfo.ADC_NBits * roundBinary 53 (-1022) (1 - dco_percent)))
  match WDcfg.PulsePolarity ch with
  | .CAEN_DGTZ_PulsePolarityPositive => u32add (toUInt32 expected_baseline) 100
  | .CAEN_DGTZ_PulsePolarityNegative => u32sub (toUInt32 expected_baseline) 100

/-- One pass of the loop `try to set a small threshold to get a self triggered event`. A
`return` of the function is a jump out of the run with `ErrCode` still `ERR_NONE`. -/
def customThresholdStep (dev : ThresholdDevice) (WDcfg : WaveDumpConfig_t)
    (BoardInfo : CAEN_DGTZ_BoardInfo_t) (_ : Unit) (ch : Nat) : Flow Unit :=
  if usesBaselineShift WDcfg ch = true then
    let get : HwCall :=
      if BoardInfo.FamilyCode = .CAEN_DGTZ_XX740_FAMILY_CODE then .GetGroupDCOffset ch
      else .GetChannelDCOffset ch
    let set : HwCall :=
      if BoardInfo.FamilyCode = .CAEN_DGTZ_XX740_FAMILY_CODE then
        .SetGroupTriggerThreshold ch (customThreshold dev WDcfg BoardInfo ch)
      else .SetChannelTriggerThreshold ch (customThreshold dev WDcfg BoardInfo ch)
    if dev.GetDCOffset ch ≠ 0 then .quit .ERR_NONE [get]
    else if dev.SetTriggerThreshold ch ≠ 0 then .quit .ERR_NONE [get, set]
    else .next () [get, set]
  else .next () []

/-- The variables of `Set_relative_Threshold` that its two passes over the units update:
the configuration, `baseline`, `no_self_triggered_event`, `sw_trigger_needed`, and the
library calls made so far. -/
structure ResolverState where
  WDcfg : WaveDumpConfig_t
  baseline : Nat → Int
  no_self_triggered_event : Nat → Int
  sw_trigger_needed : Int
  calls : List HwCall

/-- Outcome of a pass of `Set_relative_Threshold`: it falls through with its variables, or
the function ends there. -/
inductive Pass where
  | next (s : ResolverState)
  | quit (r : RunResult)

/-- The index `event_ch` of the unit in the decoded event: channel 0 of the group for x740
boards. -/
def eventChannel (BoardInfo : CAEN_DGTZ_BoardInfo_t) (ch : Nat) : Nat :=
  if BoardInfo.FamilyCode = .CAEN_DGTZ_XX740_FAMILY_CODE then ch * 8 else ch

/-- The number of samples averaged in the self triggered pass:
`samples = (int)(size * ((100 - custom_posttrg) / 2) / 100)` with the `uint32_t`
`custom_posttrg = 50`. -/
def preTriggerSamples (size : Int) : Int :=
  u32ToInt ((intToUInt32 size * (u32sub 100 50 / 2)) % 2 ^ 32 / 100)

/-- One pass of the loop over the units after a self triggered event was decoded. The
result is `none` when `baseline[ch] / samples` divides by zero. -/
def selfTriggerStep (dev : ThresholdDevice) (thr_file : Nat → Int)
    (BoardInfo : CAEN_DGTZ_BoardInfo_t) (s : ResolverState) (ch : Nat) : Option ResolverState :=
  if usesBaselineShift s.WDcfg ch = true then
    let event_ch := eventChannel BoardInfo ch
    let size : Int := u32ToInt (dev.ChSize 0 event_ch)
    if size = 0 then
      some { s with
        no_self_triggered_event := Function.update s.no_self_triggered_event ch 1,
        sw_trigger_needed := 1 }
    else
      let samples := preTriggerSamples size
      let sum : Int :=
        (List.range samples.toNat).foldl
          (fun acc i => acc + sampleInt s.WDcfg.Nbit (dev.DataChannel 0 event_ch i))
          (s.baseline ch)
      if samples = 0 then none
      else
        let baseline := Function.update s.baseline ch (Int.tdiv sum samples)
        let r := setThreshold thr_file s.WDcfg BoardInfo baseline ch
        some { s with WDcfg := r.1, baseline := baseline, calls := s.calls ++ r.2 }
  else some s

/-- The part of `Set_relative_Threshold` after the first read, up to `CAEN_DGTZ_ClearData`:
with a self triggered event, its decoding and the loop over the units; without one, every
unit is flagged for the software trigger. -/
def selfTriggerPass (dev : ThresholdDevice) (thr_file : Nat → Int)
    (BoardInfo : CAEN_DGTZ_BoardInfo_t) (s : ResolverState) : Option Pass :=
  if dev.BufferSize 0 > 0 then
    if dev.GetEventInfo 0 ≠ 0 then
      some (.quit
        { WDcfg := s.WDcfg
          calls := s.calls ++ [.GetEventInfo]
          ErrCode := .ERR_EVENT_BUILD })
    else if dev.DecodeEvent 0 ≠ 0 then
      some (.quit
        { WDcfg := s.WDcfg
          calls := s.calls ++ [.GetEventInfo, .DecodeEvent]
          ErrCode := .ERR_EVENT_BUILD })
    else
      ((List.range BoardInfo.Channels).foldlM (selfTriggerStep dev thr_file BoardInfo)
        { s with calls := s.calls ++ [.GetEventInfo, .DecodeEvent] }).map Pass.next
  else
    some (.next { s with
      sw_trigger_needed := 1,
      no_self_triggered_event := fun ch =>
        if ch < BoardInfo.Channels then 1 else s.no_self_triggered_event ch })

/-- The statement `baseline[ch] += ...DataChannel[event_ch][i]` for `i = 1 .. 10` followed
by `baseline[ch] = (baseline[ch] / 10)`, from the entry `b0`. -/
def meanOver10 (b0 : Int) (sample : Nat → Int) : Int :=
  Int.tdiv ((List.range 10).foldl (fun acc j => acc + sample (j + 1)) b0) 10

/-- One pass of the loop over the units after the software triggered event was decoded:
a unit that is enabled, in Calibrated mode and has a self triggered baseline is skipped by
`continue`; for every other unit the threshold assignment runs, after the mean over 10
samples when the unit is enabled and in Calibrated mode. -/
def swTriggerStep (dev : ThresholdDevice) (thr_file : Nat → Int)
    (BoardInfo : CAEN_DGTZ_BoardInfo_t) (s : ResolverState) (ch : Nat) : ResolverState :=
  if usesBaselineShift s.WDcfg ch = true ∧ s.no_self_triggered_event ch = 0 then s
  else
    let baseline : Nat → Int :=
      if usesBaselineShift s.WDcfg ch = true then
        Function.update s.baseline ch
          (meanOver10 (s.baseline ch) fun i =>
            sampleInt s.WDcfg.Nbit (dev.DataChannel 1 (eventChannel BoardInfo ch) i))
      else s.baseline
    let r := setThreshold thr_file s.WDcfg BoardInfo baseline ch
    { s with WDcfg := r.1, baseline := baseline, calls := s.calls ++ r.2 }

/-- The part `if (sw_trigger_needed) { ... }` of `Set_relative_Threshold`. -/
def swTriggerPass (dev : ThresholdDevice) (thr_file : Nat → Int)
    (BoardInfo : CAEN_DGTZ_BoardInfo_t) (s : ResolverState) : Pass :=
  if s.sw_trigger_needed ≠ 0 then
    if dev.ReadData 1 ≠ 0 then
      .quit
        { WDcfg := s.WDcfg
          calls := s.calls ++ [.SendSWtrigger, .ReadData]
          ErrCode := .ERR_READOUT }
    else if dev.BufferSize 1 = 0 then
      .quit
        { WDcfg := s.WDcfg
          calls := s.calls ++ [.SendSWtrigger, .ReadData]
          ErrCode := .ERR_NONE }
    else if dev.GetEventInfo 1 ≠ 0 then
      .quit
        { WDcfg := s.WDcfg
          calls := s.calls ++ [.SendSWtrigger, .ReadData, .GetEventInfo]
          ErrCode := .ERR_EVENT_BUILD }
    else if dev.DecodeEvent 1 ≠ 0 then
      .quit
        { WDcfg := s.WDcfg
          calls := s.calls ++ [.SendSWtrigger, .ReadData, .GetEventInfo, .DecodeEvent]
          ErrCode := .ERR_EVENT_BUILD }
    else
      .next ((List.range BoardInfo.Channels).foldl (swTriggerStep dev thr_file BoardInfo)
        { s with calls := s.calls ++ [.SendSWtrigger, .ReadData, .GetEventInfo, .DecodeEvent] })
  else .next s

/-- The calls of `Set_relative_Threshold` before the loop over the exploratory thresholds:
the two allocations and `CAEN_DGTZ_SetPostTriggerSize(handle, custom_posttrg)`. -/
def resolverSetup : List HwCall :=
  [.MallocReadoutBuffer, .AllocateEvent, .SetPostTriggerSize 50]

/-- The function `Set_relative_Threshold`, run against the device responses `dev` with the
global request array `thr_file`. The result is `none` when the run divides by zero. -/
def Set_relative_Threshold (dev : ThresholdDevice) (thr_file : Nat → Int)
    (WDcfg : WaveDumpConfig_t) (BoardInfo : CAEN_DGTZ_BoardInfo_t) : Option RunResult :=
  if shouldStart WDcfg BoardInfo = false then
    some
      { WDcfg := WDcfg
        calls := []
        ErrCode := .ERR_NONE }
  else if dev.MallocReadoutBuffer ≠ 0 then
    some
      { WDcfg := WDcfg
        calls := [.MallocReadoutBuffer]
        ErrCode := .ERR_MALLOC }
  else if dev.AllocateEvent ≠ 0 then
    some
      { WDcfg := WDcfg
        calls := [.MallocReadoutBuffer, .AllocateEvent]
        ErrCode := .ERR_MALLOC }
  else if dev.SetPostTriggerSize ≠ 0 then
    some
      { WDcfg := WDcfg
        calls := resolverSetup
        ErrCode := .ERR_NONE }
  else
    match Flow.forEach (customThresholdStep dev WDcfg BoardInfo)
        (List.range BoardInfo.Channels) () with
    | .quit ErrCode calls =>
      some
        { WDcfg := WDcfg
          calls := resolverSetup ++ calls
          ErrCode := ErrCode }
    | .next _ calls =>
      if dev.ReadData 0 ≠ 0 then
        some
          { WDcfg := WDcfg
            calls := resolverSetup ++ calls ++ [.SWStartAcquisition, .ReadData]
            ErrCode := .ERR_READOUT }
      else
        (selfTriggerPass dev thr_file BoardInfo
          { WDcfg := WDcfg, baseline := fun _ => 0, no_self_triggered_event := fun _ => 0,
            sw_trigger_needed := 0,
            calls := resolverSetup ++ calls ++ [.SWStartAcquisition, .ReadData] }).map fun
          | .quit r => r
          | .next s =>
            match swTriggerPass dev thr_file BoardInfo
                { s with calls := s.calls ++ [.ClearData] } with
            | .quit r => r
            | .next s2 =>
              { WDcfg := s2.WDcfg
                calls := s2.calls ++
                  [.SWStopAcquisition, .SetPostTriggerSize s2.WDcfg.PostTrigger, .ClearData,
                    .FreeReadoutBuffer, .FreeEvent]
                ErrCode := .ERR_NONE }

/-- A device for `Set_relative_Threshold` on which every call succeeds, the DC offset read
back is `32767`, the self triggered read returns the buffer size `size0` and the software
triggered read the buffer size `size1`; every unit of a decoded event has 1024 samples,
all equal to `sample`. -/
def thresholdDevice (size0 size1 sample : Nat) : ThresholdDevice :=
  { MallocReadoutBuffer := 0, AllocateEvent := 0, SetPostTriggerSize := 0,
    GetDCOffset := fun _ => 0, dco := fun _ => 32767, SetTriggerThreshold := fun _ => 0,
    ReadData := fun _ => 0,
    BufferSize := fun k => if k = 0 then size0 else size1,
    GetEventInfo := fun _ => 0, DecodeEvent := fun _ => 0,
    ChSize := fun _ _ => 1024, DataChannel := fun _ _ _ => sample }

/-- Whether a call writes the trigger threshold of unit `ch`. -/
def HwCall.isThresholdWrite (ch : Nat) : HwCall → Bool
  | .SetChannelTriggerThreshold c _ => decide (c = ch)
  | .SetGroupTriggerThreshold c _ => decide (c = ch)
  | _ => false

/-! ## Callers: keyboard commands and the restart path of `main` -/

/-- Modelled from the spec: the fields of `WaveDumpRun_t` (declared in `WaveDump.h`, which
is not among the sources) that the commands below read or write; `AcqRun` is the
"acquisition running" flag. -/
structure WaveDumpRun_t where
  AcqRun : Int
  Restart : Int
  GroupPlotSwitch : Int

/-- The three routines of the calibration and threshold engines. -/
inductive Routine where
  | Calibrate_DC_Offset
  | Calibrate_XX740_DC_Offset
  | Set_relative_Threshold
  deriving DecidableEq, Repr

/-- What a command leaves behind: the run flags, the configuration, the library calls, and
for every routine invoked the value of `WDrun->AcqRun` at the invocation. -/
structure CommandResult where
  WDrun : WaveDumpRun_t
  WDcfg : WaveDumpConfig_t
  calls : List HwCall
  invoked : List (Routine × Int)

/-- The call `Set_relative_Threshold(handle, WDcfg, BoardInfo)` guarded by
`BoardInfo.FamilyCode != CAEN_DGTZ_XX742_FAMILY_CODE`, with the flag `AcqRun` of the
moment. -/
def invokeThreshold (dev : ThresholdDevice) (thr_file : Nat → Int) (AcqRun : Int)
    (WDcfg : WaveDumpConfig_t) (BoardInfo : CAEN_DGTZ_BoardInfo_t) :
    Option (RunResult × List (Routine × Int)) :=
  if BoardInfo.FamilyCode ≠ .CAEN_DGTZ_XX742_FAMILY_CODE then
    (Set_relative_Threshold dev thr_file WDcfg BoardInfo).map fun r =>
      (r, [(Routine.Set_relative_Threshold, AcqRun)])
  else some ({ WDcfg := WDcfg, calls := [], ErrCode := .ERR_NONE }, [])

/-- The command `case 's'` of `CheckKeyboardCommands`: with `AcqRun == 0` the thresholds are
resolved and the acquisition is started, otherwise the acquisition is stopped. -/
def keyStartStop (dev : ThresholdDevice) (thr_file : Nat → Int) (WDrun : WaveDumpRun_t)
    (WDcfg : WaveDumpConfig_t) (BoardInfo : CAEN_DGTZ_BoardInfo_t) : Option CommandResult :=
  if WDrun.AcqRun = 0 then
    (invokeThreshold dev thr_file WDrun.AcqRun WDcfg BoardInfo).map fun r =>
      { WDrun :=
          { WDrun with
            GroupPlotSwitch :=
              if BoardInfo.FamilyCode = .CAEN_DGTZ_XX730_FAMILY_CODE ∨
                  BoardInfo.FamilyCode = .CAEN_DGTZ_XX725_FAMILY_CODE then 0
              else WDrun.GroupPlotSwitch,
            AcqRun := 1 }
        WDcfg := r.1.WDcfg
        calls := r.1.calls ++ [.SWStartAcquisition]
        invoked := r.2 }
  else
    some
      { WDrun := { WDrun with AcqRun := 0 }
        WDcfg := WDcfg
        calls := [.SWStopAcquisition]
        invoked := [] }

/-- One pass of the loop `set new dco values using calibration data` of the command
`case 'D'`, on the configuration and the calls made so far. -/
def setNewDCOStep (dc_file : Nat → Int) (setRet : Nat → Int)
    (BoardInfo : CAEN_DGTZ_BoardInfo_t) (s : WaveDumpConfig_t × List HwCall) (i : Nat) :
    Option (WaveDumpConfig_t × List HwCall) :=
  if s.1.EnableMask &&& (1 <<< i) ≠ 0 then
    if s.1.Version_used i = 1 then
      (Set_calibrated_DCO dc_file (setRet i) i s.1 BoardInfo).map fun r =>
        (r.WDcfg, s.2 ++ r.calls)
    else some (s.1, s.2 ++ [.SetChannelDCOffset i (s.1.DCoffset i)])
  else some s

/-- The command `case 'D'` of `CheckKeyboardCommands`: with `AcqRun == 0` the DAC
calibration of the board family runs and the new DC offsets are programmed; otherwise only
a message is printed. -/
def keyDACCalibration (dev : CalibrationDevice) (NACQS : Nat) (dc_file : Nat → Int)
    (setRet : Nat → Int) (WDrun : WaveDumpRun_t) (WDcfg : WaveDumpConfig_t)
    (BoardInfo : CAEN_DGTZ_BoardInfo_t) : Option CommandResult :=
  if WDrun.AcqRun = 0 then
    let r : RunResult × List (Routine × Int) :=
      if BoardInfo.FamilyCode = .CAEN_DGTZ_XX740_FAMILY_CODE then
        (Calibrate_XX740_DC_Offset dev NACQS WDcfg BoardInfo,
          [(Routine.Calibrate_XX740_DC_Offset, WDrun.AcqRun)])
      else if BoardInfo.FamilyCode ≠ .CAEN_DGTZ_XX742_FAMILY_CODE then
        (Calibrate_DC_Offset dev NACQS WDcfg BoardInfo,
          [(Routine.Calibrate_DC_Offset, WDrun.AcqRun)])
      else ({ WDcfg := WDcfg, calls := [], ErrCode := .ERR_NONE }, [])
    ((List.range BoardInfo.Channels).foldlM (setNewDCOStep dc_file setRet BoardInfo)
      (r.1.WDcfg, r.1.calls)).map fun s =>
      { WDrun := WDrun, WDcfg := s.1, calls := s.2, invoked := r.2 }
  else
    some
      { WDrun := WDrun
        WDcfg := WDcfg
        calls := []
        invoked := [] }

/-- The statements of `main` after the allocation of the readout buffer, on the path from
the label `Restart`: `if (WDrun.Restart && WDrun.AcqRun) { ...Set_relative_Threshold...;`
`CAEN_DGTZ_SWStartAcquisition(handle); }`, then `WDrun.Restart = 0`. -/
def mainRestart (dev : ThresholdDevice) (thr_file : Nat → Int) (WDrun : WaveDumpRun_t)
    (WDcfg : WaveDumpConfig_t) (BoardInfo : CAEN_DGTZ_BoardInfo_t) : Option CommandResult :=
  if WDrun.Restart ≠ 0 ∧ WDrun.AcqRun ≠ 0 then
    (invokeThreshold dev thr_file WDrun.AcqRun WDcfg BoardInfo).map fun r =>
      { WDrun := { WDrun with Restart := 0 }
        WDcfg := r.1.WDcfg
        calls := r.1.calls ++ [.SWStartAcquisition]
        invoked := r.2 }
  else
    some
      { WDrun := { WDrun with Restart := 0 }
        WDcfg := WDcfg
        calls := []
        invoked := [] }

/-- The configuration `config730` with the post trigger size `80`. -/
def config730post : WaveDumpConfig_t :=
  { config730 with PostTrigger := 80 }

/-- The configuration `config730` with channel 1 in Legacy mode. -/
def config730legacy : WaveDumpConfig_t :=
  { config730 with Version_used := fun ch => if ch = 1 then 0 else 1 }

/-- Two configurations that differ at most in the array `Threshold`. -/
def sameButThreshold (W W1 : WaveDumpConfig_t) : Prop :=
  W1 = { W with Threshold := W1.Threshold }

/-- The baseline of unit `ch` in the software trigger pass when no self triggered baseline
was accumulated: the integer mean of the samples `1 .. 10` of its buffer in the software
triggered event. -/
def fallbackBaseline (dev : ThresholdDevice) (WDcfg : WaveDumpConfig_t)
    (BoardInfo : CAEN_DGTZ_BoardInfo_t) (ch : Nat) : Int :=
  meanOver10 0 fun i => sampleInt WDcfg.Nbit (dev.DataChannel 1 (eventChannel BoardInfo ch) i)

/-- The threshold that the assignment of `Set_relative_Threshold` gives to unit `ch` for
the measured baseline `B`. -/
def thresholdFor (thr_file : Nat → Int) (WDcfg : WaveDumpConfig_t)
    (BoardInfo : CAEN_DGTZ_BoardInfo_t) (B : Int) (ch : Nat) : Nat :=
  (setThreshold thr_file WDcfg BoardInfo (fun _ => B) ch).1.Threshold ch

/-- What a pass over another unit leaves of unit `ch`: the configuration but for the array
`Threshold`, the entries `Threshold[ch]` and `baseline[ch]`, a set flag
`no_self_triggered_event[ch]`, a set `sw_trigger_needed`, and the threshold of the unit on
the device. -/
def keepsUnit (ch : Nat) (s s1 : ResolverState) : Prop :=
  sameButThreshold s.WDcfg s1.WDcfg ∧ s1.WDcfg.Threshold ch = s.WDcfg.Threshold ch ∧
    s1.baseline ch = s.baseline ch ∧
    (s.no_self_triggered_event ch ≠ 0 → s1.no_self_triggered_event ch ≠ 0) ∧
    (s.sw_trigger_needed ≠ 0 → s1.sw_trigger_needed ≠ 0) ∧
    ∀ d : DeviceSettings, (settingsAfter d s1.calls).TriggerThreshold ch =
      (settingsAfter d s.calls).TriggerThreshold ch

/-- Every library call of `Set_relative_Threshold` up to the first read of the data
succeeds: the two allocations, the change of the post trigger size, the reads of the DC
offset and the writes of the exploratory threshold of the enabled units in Calibrated
mode, and the read itself. -/
def ThresholdDevice.reachesReadout (dev : ThresholdDevice) (WDcfg : WaveDumpConfig_t)
    (BoardInfo : CAEN_DGTZ_BoardInfo_t) : Prop :=
  dev.MallocReadoutBuffer = 0 ∧ dev.AllocateEvent = 0 ∧ dev.SetPostTriggerSize = 0 ∧
    (∀ c, c < BoardInfo.Channels → usesBaselineShift WDcfg c = true →
      dev.GetDCOffset c = 0 ∧ dev.SetTriggerThreshold c = 0) ∧
    dev.ReadData 0 = 0

/-- Unit `ch` yields no samples in the self triggered event: the first read returns an
empty buffer, or the event is decoded and has `ChSize[event_ch] == 0` for the unit. -/
def noSelfTriggeredSamples (dev : ThresholdDevice) (BoardInfo : CAEN_DGTZ_BoardInfo_t)
    (ch : Nat) : Prop :=
  dev.BufferSize 0 = 0 ∨
    (dev.GetEventInfo 0 = 0 ∧ dev.DecodeEvent 0 = 0 ∧
      u32ToInt (dev.ChSize 0 (eventChannel BoardInfo ch)) = 0)

/-- The self triggered pass divides by no zero: every enabled unit in Calibrated mode with
a non-zero `size` in the self triggered event has `samples != 0`. -/
def selfTriggerDefined (dev : ThresholdDevice) (WDcfg : WaveDumpConfig_t)
    (BoardInfo : CAEN_DGTZ_BoardInfo_t) : Prop :=
  ∀ c, c < BoardInfo.Channels → usesBaselineShift WDcfg c = true →
    u32ToInt (dev.ChSize 0 (eventChannel BoardInfo c)) ≠ 0 →
      preTriggerSamples (u32ToInt (dev.ChSize 0 (eventChannel BoardInfo c))) ≠ 0

/-- Every entry of the array `Threshold` of `W` is the one of `W0` or is at most `S`. -/
def thresholdsWithin (W0 : WaveDumpConfig_t) (S : Nat) (W : WaveDumpConfig_t) : Prop :=
  ∀ c, W.Threshold c = W0.Threshold c ∨ W.Threshold c ≤ S

/-- The configuration a pass of `Set_relative_Threshold` ends with. -/
def Pass.config : Pass → WaveDumpConfig_t
  | .next s => s.WDcfg
  | .quit r => r.WDcfg

/-! ## The fit, the applier and the estimator in the arithmetic of the code -/

/-- The gain `cal[ch]` of the fit in the arithmetic of the code: the `float` difference of
the two `float` estimates, divided in `float` by `(float)(dc[1] - dc[0])`. -/
def fitCalFloat (avg0 avg1 : CFloat) : CFloat :=
  CFloat.divF (CFloat.subF avg1 avg0) (toFloat ((u32sub (dc 1) (dc 0) : Nat) : ℚ))

/-- The intercept `offset[ch]` of the fit in the arithmetic of the code: the two products
`dc[1] * avg_value[0][ch]` and `dc[0] * avg_value[1][ch]` of a `uint32_t` converted to
`float` with a `float`, their `float` difference, and the `float` division by
`(float)(dc[1] - dc[0])`. -/
def fitOffsetFloat (avg0 avg1 : CFloat) : CFloat :=
  CFloat.divF
    (CFloat.subF (CFloat.mulF (toFloat ((dc 1 : Nat) : ℚ)) avg0)
      (CFloat.mulF (toFloat ((dc 0 : Nat) : ℚ)) avg1))
    (toFloat ((u32sub (dc 1) (dc 0) : Nat) : ℚ))

/-- The operand of the multiplication by `655.35` in `Set_calibrated_DCO` in the
arithmetic of the code. For positive pulses `(float)dc_file[ch] - offset` and the division
by `cal` are `float` operations, the subtraction of `100.` and `fabs` are `double`
operations, and the cast `(float)` rounds the result. For negative pulses
`fabs(dc_file[ch] - 100.)` is a `double`, so the subtraction of `offset`, the division by
`cal` and the subtraction of `100.` are `double` operations before `fabs` and the cast
`(float)`. -/
def targetPercentFloat (pol : CAEN_DGTZ_PulsePolarity_t) (r : Int) (cal offset : CFloat) :
    CFloat :=
  match pol with
  | .CAEN_DGTZ_PulsePolarityPositive =>
    (CFloat.fabs (CFloat.subD (CFloat.divF (CFloat.subF (toFloat (r : ℚ)) offset) cal)
      (some 100))).bind toFloat
  | .CAEN_DGTZ_PulsePolarityNegative =>
    (CFloat.fabs (CFloat.subD
      (CFloat.divD (CFloat.subD (CFloat.fabs (CFloat.subD (some (r : ℚ)) (some 100))) offset) cal)
      (some 100))).bind toFloat

/-- The value assigned to `WDcfg->DCoffset[ch]` before the range checks in the arithmetic
of the code: the `double` product of the `float` operand and the `double` constant
`655.35`, converted by `(uint32_t)`. -/
def calibratedCodeFloat (pol : CAEN_DGTZ_PulsePolarity_t) (r : Int) (cal offset : CFloat) :
    Option Nat :=
  (CFloat.mulD (targetPercentFloat pol r cal offset) (toDouble (65535 / 100))).map toUInt32

/-- One pass of the loop that fits and stores the model of unit `ch`, in the arithmetic of
the code. -/
def storeStepFloat (avg_value : Nat → Nat → CFloat) (WDcfg : WaveDumpConfig_t) (ch : Nat) :
    WaveDumpConfig_t :=
  { WDcfg with
    DAC_Calib :=
      { cal :=
          Function.update WDcfg.DAC_Calib.cal ch (fitCalFloat (avg_value 0 ch) (avg_value 1 ch))
        offset :=
          Function.update WDcfg.DAC_Calib.offset ch
            (fitOffsetFloat (avg_value 0 ch) (avg_value 1 ch)) } }

/-- The loop `for (ch = 0; ch < Channels; ch++)` that stores the fitted models, in the
arithmetic of the code. -/
def storeCalibrationFloat (BoardInfo : CAEN_DGTZ_BoardInfo_t) (avg_value : Nat → Nat → CFloat)
    (WDcfg : WaveDumpConfig_t) : WaveDumpConfig_t :=
  (List.range BoardInfo.Channels).foldl (storeStepFloat avg_value) WDcfg

/-- The function `Set_calibrated_DCO` for unit `ch` in the arithmetic of the code, with the
global request array `dc_file`; `setRet` is the code the device returns for the offset
write. The result is `none` when the floating point expression is an infinity or a NaN. -/
def Set_calibrated_DCOFloat (dc_file : Nat → Int) (setRet : Int) (ch : Nat)
    (WDcfg : WaveDumpConfig_t) (BoardInfo : CAEN_DGTZ_BoardInfo_t) : Option DCOResult :=
  if WDcfg.Version_used ch = 0 then
    some { WDcfg := WDcfg, calls := [], ret := 0 }
  else
    (calibratedCodeFloat (WDcfg.PulsePolarity ch) (dc_file ch) (WDcfg.DAC_Calib.cal ch)
      (WDcfg.DAC_Calib.offset ch)).map fun d =>
    let WDcfg1 : WaveDumpConfig_t :=
      { WDcfg with
        DCoffset := Function.update WDcfg.DCoffset ch (clampDCoffset (WDcfg.PulsePolarity ch) d) }
    if BoardInfo.FamilyCode = .CAEN_DGTZ_XX740_FAMILY_CODE then
      { WDcfg := WDcfg1, calls := [.SetGroupDCOffset ch (WDcfg1.DCoffset ch)], ret := setRet }
    else
      { WDcfg := WDcfg1, calls := [.SetChannelDCOffset ch (WDcfg1.DCoffset ch)], ret := setRet }

/-- One iteration of the loop `discard values too far from mpp` in the arithmetic of the
code: the running sum `avg_value[p][ch] + (float)value[k][ch]` is a `float`. The state is
the sum and the count `ok`. -/
def discardStepFloat (mpp : Int) (a : CFloat × Int) (v : Int) : CFloat × Int :=
  if v ≥ mpp - 5 ∧ v ≤ mpp + 5 then
    ((CFloat.add a.1 (toFloat (v : ℚ))).bind toFloat, a.2 + 1)
  else a

/-- The block `check for clean baselines` for one channel (or group) in the arithmetic of
the code: the `float` sum is divided in `float` by `(float)ok`, the product with `100.` and
the division by `(float)size` are `double` operations, and the assignment to
`avg_value[p][ch]` rounds to `float`. -/
def checkCleanBaselineFloat (ADC_NBits : Nat) (value : List Int) : CFloat :=
  let size := adcSize ADC_NBits
  let mpp := (findMpp size value).mpp
  let a := value.foldl (discardStepFloat mpp) (some 0, 0)
  (CFloat.divD (CFloat.mulD (CFloat.divF a.1 (toFloat (a.2 : ℚ))) (some 100))
    (toFloat (size : ℚ))).bind toFloat

/-! ## An x742 board -/

/-- An x742 board with two groups of eight channels and a 12-bit ADC. -/
def board742 : CAEN_DGTZ_BoardInfo_t :=
  { Channels := 2, ADC_NBits := 12, FamilyCode := .CAEN_DGTZ_XX742_FAMILY_CODE }

/-- The configuration `config730` with every unit in Legacy mode and the DAC code `1000`
configured for channel 0 of group 0 in `DCoffsetGrpCh`. -/
def config742legacy : WaveDumpConfig_t :=
  { config730 with
    Version_used := fun _ => 0,
    DCoffsetGrpCh := fun i j => if i = 0 ∧ j = 0 then 1000 else -1 }

/-! # Theorems -/

/-! ## Rounding to a binary floating point format -/

theorem roundHalfEven_of_near (x : ℚ) (n : Int) (h : |x - n| < 1 / 2) :
    roundHalfEven x = n := by
  have h1 := abs_lt.1 h
  have hf1 : (⌊x⌋ : ℚ) ≤ x := Int.floor_le x
  have hf2 : x < ⌊x⌋ + 1 := Int.lt_floor_add_one x
  have hcase : ⌊x⌋ = n ∨ ⌊x⌋ = n - 1 := by
    have a1 : ((n : ℚ) - 1) < (⌊x⌋ : ℚ) + 1 := by linarith [h1.1]
    have a2 : (⌊x⌋ : ℚ) < (n : ℚ) + 1 := by linarith [h1.2]
    have b1 : n - 1 < ⌊x⌋ + 1 := by exact_mod_cast a1
    have b2 : ⌊x⌋ < n + 1 := by exact_mod_cast a2
    omega
  unfold roundHalfEven
  rcases hcase with hc | hc
  · have : x - ⌊x⌋ < 1 / 2 := by
      rw [hc]
      linarith [h1.2]
    rw [if_pos this, hc]
  · have e : (⌊x⌋ : ℚ) = (n : ℚ) - 1 := by
      rw [hc]
      push_cast
      ring
    have hn1 : ¬ (x - ⌊x⌋ < 1 / 2) := by
      rw [e]
      linarith [h1.1]
    have hn2 : 1 / 2 < x - ⌊x⌋ := by
      rw [e]
      linarith [h1.1]
    rw [if_neg hn1, if_pos hn2, hc]
    ring

theorem roundHalfEven_of_tie (x : ℚ) (n : Int) (h : x = n + 1 / 2) :
    roundHalfEven x = if n % 2 = 0 then n else n + 1 := by
  have hf : ⌊x⌋ = n := by
    rw [Int.floor_eq_iff, h]
    constructor <;> linarith
  unfold roundHalfEven
  rw [hf, h]
  have h1 : ¬ ((n : ℚ) + 1 / 2 - n < 1 / 2) := by
    have : (n : ℚ) + 1 / 2 - n = 1 / 2 := by ring
    rw [this]
    exact lt_irrefl _
  have h2 : ¬ (1 / 2 < (n : ℚ) + 1 / 2 - n) := by
    have : (n : ℚ) + 1 / 2 - n = 1 / 2 := by ring
    rw [this]
    exact lt_irrefl _
  rw [if_neg h1, if_neg h2]

theorem roundHalfEven_error (x : ℚ) : |(roundHalfEven x : ℚ) - x| ≤ 1 / 2 := by
  have hf1 : (⌊x⌋ : ℚ) ≤ x := Int.floor_le x
  have hf2 : x < ⌊x⌋ + 1 := Int.lt_floor_add_one x
  unfold roundHalfEven
  rw [abs_le]
  split_ifs with h1 h2 h3
  · constructor <;> linarith
  · push_cast
    constructor <;> linarith
  · constructor <;> linarith
  · push_cast
    constructor <;> linarith

/-- The exponent of a number between two consecutive powers of two. -/
theorem log_two_eq (x : ℚ) (e : Int) (h1 : (2 : ℚ) ^ e ≤ |x|) (h2 : |x| < (2 : ℚ) ^ (e + 1)) :
    Int.log 2 |x| = e := by
  have hpos : 0 < |x| := lt_of_lt_of_le (zpow_pos (by norm_num) e) h1
  have a : e ≤ Int.log 2 |x| := (Int.zpow_le_iff_le_log (by norm_num) hpos).1 (by exact_mod_cast h1)
  have b : Int.log 2 |x| < e + 1 :=
    (Int.lt_zpow_iff_log_lt (by norm_num) hpos).1 (by exact_mod_cast h2)
  omega
/-- Certificate of a rounding: `x` lies in the binade of exponent `e` and `n` is the
nearest multiple of the unit in the last place. -/
theorem roundBinary_of_near (p : Nat) (emin : Int) (x : ℚ) (e : Int) (n : Int) (q : ℚ)
    (he : emin ≤ e) (hq : q = 2 ^ (e - ((p : Int) - 1)))
    (h1 : (2 : ℚ) ^ e ≤ |x|) (h2 : |x| < (2 : ℚ) ^ (e + 1))
    (hn : |x / q - n| < 1 / 2) :
    roundBinary p emin x = n * q := by
  unfold roundBinary
  rw [log_two_eq x e h1 h2, max_eq_left he, ← hq, roundHalfEven_of_near _ _ hn]

theorem roundBinary_of_tie (p : Nat) (emin : Int) (x : ℚ) (e : Int) (n : Int) (q : ℚ)
    (he : emin ≤ e) (hq : q = 2 ^ (e - ((p : Int) - 1)))
    (h1 : (2 : ℚ) ^ e ≤ |x|) (h2 : |x| < (2 : ℚ) ^ (e + 1))
    (hn : x / q = n + 1 / 2) :
    roundBinary p emin x = ((if n % 2 = 0 then n else n + 1 : Int) : ℚ) * q := by
  unfold roundBinary
  rw [log_two_eq x e h1 h2, max_eq_left he, ← hq, roundHalfEven_of_tie _ _ hn]

/-- Certificate of a conversion to `float`. -/
theorem toFloat_of_near (x y : ℚ) (e : Int) (n : Int) (q : ℚ)
    (he : -126 ≤ e) (hq : q = 2 ^ (e - 23))
    (h1 : (2 : ℚ) ^ e ≤ |x|) (h2 : |x| < (2 : ℚ) ^ (e + 1))
    (hn : |x / q - n| < 1 / 2) (hy : y = n * q) (hov : |y| < 2 ^ 128) :
    toFloat x = some y := by
  have h := roundBinary_of_near 24 (-126) x e n q he (by rw [hq]; norm_num) h1 h2 hn
  unfold toFloat
  rw [h, ← hy, if_pos hov]

theorem toFloat_of_tie (x y : ℚ) (e : Int) (n : Int) (q : ℚ)
    (he : -126 ≤ e) (hq : q = 2 ^ (e - 23))
    (h1 : (2 : ℚ) ^ e ≤ |x|) (h2 : |x| < (2 : ℚ) ^ (e + 1))
    (hn : x / q = n + 1 / 2) (hy : y = ((if n % 2 = 0 then n else n + 1 : Int) : ℚ) * q)
    (hov : |y| < 2 ^ 128) :
    toFloat x = some y := by
  have h := roundBinary_of_tie 24 (-126) x e n q he (by rw [hq]; norm_num) h1 h2 hn
  unfold toFloat
  rw [h, ← hy, if_pos hov]

/-- Certificate of a conversion to `double`. -/
theorem toDouble_of_near (x y : ℚ) (e : Int) (n : Int) (q : ℚ)
    (he : -1022 ≤ e) (hq : q = 2 ^ (e - 52))
    (h1 : (2 : ℚ) ^ e ≤ |x|) (h2 : |x| < (2 : ℚ) ^ (e + 1))
    (hn : |x / q - n| < 1 / 2) (hy : y = n * q) (hov : |y| < 2 ^ 1024) :
    toDouble x = some y := by
  have h := roundBinary_of_near 53 (-1022) x e n q he (by rw [hq]; norm_num) h1 h2 hn
  unfold toDouble
  rw [h, ← hy, if_pos hov]

theorem roundHalfEven_zero : roundHalfEven 0 = 0 := by
  have h := roundHalfEven_of_near 0 0 (by norm_num)
  exact h

theorem roundBinary_zero (p : Nat) (emin : Int) : roundBinary p emin 0 = 0 := by
  unfold roundBinary
  rw [zero_div, roundHalfEven_zero]
  simp

theorem toFloat_zero : toFloat 0 = some 0 := by
  unfold toFloat
  rw [roundBinary_zero]
  simp

/-- The rounding error of a binary format: at most half a unit in the last place, that is
a relative error of `2 ^ (-p)` for a normal number and `2 ^ (emin - p)` below. -/
theorem roundBinary_error (p : Nat) (emin : Int) (x : ℚ) :
    |roundBinary p emin x - x| ≤ |x| / 2 ^ p + 2 ^ (emin - (p : Int)) := by
  by_cases hx : x = 0
  · rw [hx, roundBinary_zero]
    simp
    positivity
  have hpos : 0 < |x| := abs_pos.mpr hx
  have hq : (0 : ℚ) < 2 ^ (max (Int.log 2 |x|) emin - ((p : Int) - 1)) :=
    zpow_pos (by norm_num) _
  have herr := roundHalfEven_error (x / 2 ^ (max (Int.log 2 |x|) emin - ((p : Int) - 1)))
  have h1 : |roundBinary p emin x - x| ≤
      2 ^ (max (Int.log 2 |x|) emin - ((p : Int) - 1)) / 2 := by
    unfold roundBinary
    have e : (roundHalfEven (x / 2 ^ (max (Int.log 2 |x|) emin - ((p : Int) - 1))) : ℚ) *
        2 ^ (max (Int.log 2 |x|) emin - ((p : Int) - 1)) - x =
        ((roundHalfEven (x / 2 ^ (max (Int.log 2 |x|) emin - ((p : Int) - 1))) : ℚ) -
          x / 2 ^ (max (Int.log 2 |x|) emin - ((p : Int) - 1))) *
          2 ^ (max (Int.log 2 |x|) emin - ((p : Int) - 1)) := by
      field_simp
    rw [e, abs_mul, abs_of_pos hq]
    calc _ ≤ 1 / 2 * 2 ^ (max (Int.log 2 |x|) emin - ((p : Int) - 1)) :=
          mul_le_mul_of_nonneg_right herr (le_of_lt hq)
      _ = _ := by ring
  have h2 : (2 : ℚ) ^ (max (Int.log 2 |x|) emin - ((p : Int) - 1)) / 2 =
      2 ^ (max (Int.log 2 |x|) emin) / 2 ^ p := by
    rw [zpow_sub₀ (by norm_num), zpow_sub₀ (by norm_num), zpow_natCast, zpow_one]
    field_simp
    ring
  rw [h2] at h1
  have hp : (0 : ℚ) < 2 ^ p := by positivity
  rcases le_total (Int.log 2 |x|) emin with hle | hle
  · rw [max_eq_right hle] at h1
    have e3 : (2 : ℚ) ^ emin / 2 ^ p = 2 ^ (emin - (p : Int)) := by
      rw [zpow_sub₀ (by norm_num), zpow_natCast]
    rw [e3] at h1
    have : 0 ≤ |x| / 2 ^ p := by positivity
    linarith
  · rw [max_eq_left hle] at h1
    have hlog : (2 : ℚ) ^ (Int.log 2 |x|) ≤ |x| := Int.zpow_log_le_self (by norm_num) hpos
    have : (2 : ℚ) ^ (Int.log 2 |x|) / 2 ^ p ≤ |x| / 2 ^ p :=
      div_le_div_of_nonneg_right hlog (le_of_lt hp)
    have h0 : (0 : ℚ) < 2 ^ (emin - (p : Int)) := zpow_pos (by norm_num) _
    linarith

/-- The error of a conversion to `float`. -/
theorem toFloat_error {x y : ℚ} (h : toFloat x = some y) :
    |y - x| ≤ |x| / 2 ^ 24 + 1 / 2 ^ 150 := by
  unfold toFloat at h
  split_ifs at h with hov
  rw [Option.some.injEq] at h
  rw [← h]
  have e := roundBinary_error 24 (-126) x
  have e2 : (2 : ℚ) ^ ((-126 : Int) - ((24 : Nat) : Int)) = 1 / 2 ^ 150 := by norm_num
  rw [e2] at e
  exact e

/-- The error of a conversion to `double`. -/
theorem toDouble_error {x y : ℚ} (h : toDouble x = some y) :
    |y - x| ≤ |x| / 2 ^ 53 + 1 / 2 ^ 1075 := by
  unfold toDouble at h
  split_ifs at h with hov
  rw [Option.some.injEq] at h
  rw [← h]
  have e := roundBinary_error 53 (-1022) x
  have e2 : (2 : ℚ) ^ ((-1022 : Int) - ((53 : Nat) : Int)) = 1 / 2 ^ 1075 := by norm_num
  rw [e2] at e
  exact e

/-- A value of moderate size converts to a `float`. -/
theorem toFloat_exists (x : ℚ) (h : |x| ≤ 2 ^ 100) : ∃ y, toFloat x = some y := by
  have e := roundBinary_error 24 (-126) x
  have e2 : (2 : ℚ) ^ ((-126 : Int) - ((24 : Nat) : Int)) = 1 / 2 ^ 150 := by norm_num
  rw [e2] at e
  have hb : |roundBinary 24 (-126) x| < 2 ^ 128 := by
    have h1 : |roundBinary 24 (-126) x| ≤ |roundBinary 24 (-126) x - x| + |x| := by
      have := abs_add (roundBinary 24 (-126) x - x) x
      simpa using this
    have h3 : |x| / 2 ^ 24 ≤ |x| := div_le_self (abs_nonneg x) (by norm_num)
    have h4 : (1 : ℚ) / 2 ^ 150 ≤ 1 := by norm_num
    have h5 : (2 : ℚ) ^ 100 + 2 ^ 100 + 1 < 2 ^ 128 := by norm_num
    linarith
  exact ⟨_, by unfold toFloat; rw [if_pos hb]⟩

/-- A value of moderate size converts to a `double`. -/
theorem toDouble_exists (x : ℚ) (h : |x| ≤ 2 ^ 100) : ∃ y, toDouble x = some y := by
  have e := roundBinary_error 53 (-1022) x
  have e2 : (2 : ℚ) ^ ((-1022 : Int) - ((53 : Nat) : Int)) = 1 / 2 ^ 1075 := by norm_num
  rw [e2] at e
  have hb : |roundBinary 53 (-1022) x| < 2 ^ 1024 := by
    have h1 : |roundBinary 53 (-1022) x| ≤ |roundBinary 53 (-1022) x - x| + |x| := by
      have := abs_add (roundBinary 53 (-1022) x - x) x
      simpa using this
    have h3 : |x| / 2 ^ 53 ≤ |x| := div_le_self (abs_nonneg x) (by norm_num)
    have h4 : (1 : ℚ) / 2 ^ 1075 ≤ 1 := by norm_num
    have h5 : (2 : ℚ) ^ 100 + 2 ^ 100 + 1 < 2 ^ 1024 := by norm_num
    linarith
  exact ⟨_, by unfold toDouble; rw [if_pos hb]⟩
/-! ## Exact conversions and signs -/

theorem toDouble_zero : toDouble 0 = some 0 := by
  unfold toDouble
  rw [roundBinary_zero]
  simp

theorem roundHalfEven_intCast (n : Int) : roundHalfEven (n : ℚ) = n :=
  roundHalfEven_of_near _ n (by simp)

/-- An integer of less than `p` bits is a number of the format. -/
theorem roundBinary_intCast (p : Nat) (emin : Int) (n : Int) (hemin : emin ≤ 0)
    (h : |n| < 2 ^ p) : roundBinary p emin (n : ℚ) = n := by
  by_cases hn : n = 0
  · rw [hn, Int.cast_zero, roundBinary_zero]
  have hpos : (1 : ℚ) ≤ |(n : ℚ)| := by
    have : (1 : Int) ≤ |n| := Int.one_le_abs hn
    exact_mod_cast this
  have hlt : |(n : ℚ)| < 2 ^ (p : Int) := by
    rw [zpow_natCast]
    exact_mod_cast h
  have h0 : 0 ≤ Int.log 2 |(n : ℚ)| := by
    rw [← Int.zpow_le_iff_le_log (by norm_num) (by linarith)]
    simpa using hpos
  have h1 : Int.log 2 |(n : ℚ)| < p := by
    rw [← Int.lt_zpow_iff_log_lt (by norm_num) (by linarith)]
    exact hlt
  unfold roundBinary
  rw [max_eq_left (le_trans hemin h0)]
  obtain ⟨m, hm⟩ : ∃ m : Nat, (m : Int) = (p : Int) - 1 - Int.log 2 |(n : ℚ)| :=
    ⟨((p : Int) - 1 - Int.log 2 |(n : ℚ)|).toNat, Int.toNat_of_nonneg (by omega)⟩
  have e : Int.log 2 |(n : ℚ)| - ((p : Int) - 1) = -(m : Int) := by omega
  rw [e, zpow_neg, zpow_natCast]
  have e2 : (n : ℚ) / (2 ^ m)⁻¹ = ((n * 2 ^ m : Int) : ℚ) := by
    push_cast
    field_simp
  rw [e2, roundHalfEven_intCast]
  push_cast
  field_simp

/-- An `int` of less than 24 bits converts to `float` exactly. -/
theorem toFloat_intCast (n : Int) (h : |n| < 2 ^ 24) : toFloat (n : ℚ) = some (n : ℚ) := by
  unfold toFloat
  rw [roundBinary_intCast 24 (-126) n (by norm_num) h]
  have h2 : |(n : ℚ)| < 2 ^ 128 := by
    have : |(n : ℚ)| < 2 ^ 24 := by exact_mod_cast h
    have h3 : (2 : ℚ) ^ 24 < 2 ^ 128 := by norm_num
    linarith
  rw [if_pos h2]

/-- An `int` of less than 53 bits converts to `double` exactly. -/
theorem toDouble_intCast (n : Int) (h : |n| < 2 ^ 53) : toDouble (n : ℚ) = some (n : ℚ) := by
  unfold toDouble
  rw [roundBinary_intCast 53 (-1022) n (by norm_num) h]
  have h2 : |(n : ℚ)| < 2 ^ 1024 := by
    have : |(n : ℚ)| < 2 ^ 53 := by exact_mod_cast h
    have h3 : (2 : ℚ) ^ 53 < 2 ^ 1024 := by norm_num
    linarith
  rw [if_pos h2]

theorem roundHalfEven_nonneg {x : ℚ} (h : 0 ≤ x) : 0 ≤ roundHalfEven x := by
  have hf : 0 ≤ ⌊x⌋ := Int.floor_nonneg.mpr h
  unfold roundHalfEven
  split_ifs <;> omega

theorem roundBinary_nonneg (p : Nat) (emin : Int) {x : ℚ} (h : 0 ≤ x) :
    0 ≤ roundBinary p emin x := by
  unfold roundBinary
  have hq : (0 : ℚ) < 2 ^ (max (Int.log 2 |x|) emin - ((p : Int) - 1)) :=
    zpow_pos (by norm_num) _
  have h1 : 0 ≤ roundHalfEven (x / 2 ^ (max (Int.log 2 |x|) emin - ((p : Int) - 1))) :=
    roundHalfEven_nonneg (div_nonneg h (le_of_lt hq))
  have h2 : (0 : ℚ) ≤ (roundHalfEven (x / 2 ^ (max (Int.log 2 |x|) emin - ((p : Int) - 1))) : ℚ) := by
    exact_mod_cast h1
  exact mul_nonneg h2 (le_of_lt hq)

/-- Rounding to `float` keeps a value non-negative. -/
theorem toFloat_nonneg {x y : ℚ} (h : toFloat x = some y) (hx : 0 ≤ x) : 0 ≤ y := by
  unfold toFloat at h
  split_ifs at h with hov
  rw [Option.some.injEq] at h
  rw [← h]
  exact roundBinary_nonneg 24 (-126) hx

/-- Rounding to `double` keeps a value non-negative. -/
theorem toDouble_nonneg {x y : ℚ} (h : toDouble x = some y) (hx : 0 ≤ x) : 0 ≤ y := by
  unfold toDouble at h
  split_ifs at h with hov
  rw [Option.some.injEq] at h
  rw [← h]
  exact roundBinary_nonneg 53 (-1022) hx
/-! ## The baseline estimator -/

theorem inBand_cons_pos {m v : Int} (vs : List Int) (h : m - 5 ≤ v ∧ v ≤ m + 5) :
    inBand m (v :: vs) = v :: inBand m vs := by
  unfold inBand
  rw [List.filter_cons_of_pos]
  exact decide_eq_true h

theorem inBand_cons_neg {m v : Int} (vs : List Int) (h : ¬ (m - 5 ≤ v ∧ v ≤ m + 5)) :
    inBand m (v :: vs) = inBand m vs := by
  unfold inBand
  rw [List.filter_cons_of_neg]
  simpa using h

theorem discardFar_foldl (mpp : Int) (value : List Int) (a : AvgState) :
    value.foldl (discardStep mpp) a =
      { avg_value := a.avg_value + (((inBand mpp value).sum : Int) : ℚ),
        ok := a.ok + ((inBand mpp value).length : Int) } := by
  induction value generalizing a with
  | nil => simp [inBand]
  | cons v vs ih =>
    rw [List.foldl_cons, ih]
    by_cases h : mpp - 5 ≤ v ∧ v ≤ mpp + 5
    · have h2 : v ≥ mpp - 5 ∧ v ≤ mpp + 5 := h
      rw [inBand_cons_pos vs h, discardStep, if_pos h2]
      simp only [List.sum_cons, List.length_cons, Int.cast_add, Nat.cast_add, Nat.cast_one,
        AvgState.mk.injEq]
      constructor <;> ring
    · have h2 : ¬ (v ≥ mpp - 5 ∧ v ≤ mpp + 5) := h
      rw [inBand_cons_neg vs h, discardStep, if_neg h2]

theorem MppInv.init (size : Int) :
    MppInv size [] { freq := fun _ => 0, max := 0, mpp := 0 } where
  freq_eq := by intro v; simp
  freq_le := by intro v; simp
  mpp_max := Or.inl ⟨rfl, rfl⟩

theorem MppInv.step {size : Int} {seen : List Int} {s : MppState}
    (h : MppInv size seen s) (v : Int) :
    MppInv size (seen ++ [v]) (findMppStep size s v) := by
  unfold findMppStep
  by_cases hr : 0 < v ∧ v < size
  · rw [if_pos hr]
    have hfv : ∀ w, Function.update s.freq v (s.freq v + 1) w
        = if 0 < w ∧ w < size then ((seen ++ [v]).count w : Int) else 0 := by
      intro w
      by_cases hw : w = v
      · subst hw
        rw [Function.update_same, h.freq_eq, if_pos hr, if_pos hr]
        simp [List.count_append]
      · rw [Function.update_noteq hw, h.freq_eq]
        have : ([v] : List Int).count w = 0 := by
          simp [List.count_cons, List.count_nil]
          exact fun e => hw e.symm
        simp [List.count_append, this]
    by_cases hm : Function.update s.freq v (s.freq v + 1) v > s.max
    · simp only [hm, if_true]
      refine ⟨hfv, ?_, ?_⟩
      · intro w
        show Function.update s.freq v (s.freq v + 1) w ≤ Function.update s.freq v (s.freq v + 1) v
        by_cases hw : w = v
        · rw [hw]
        · rw [Function.update_noteq hw]
          exact le_of_lt (lt_of_le_of_lt (h.freq_le w) hm)
      · right
        refine ⟨?_, le_refl _⟩
        show 0 < Function.update s.freq v (s.freq v + 1) v
        have := h.freq_le v
        rcases h.mpp_max with ⟨h0, _⟩ | ⟨hp, _⟩ <;> omega
    · simp only [hm, if_false]
      refine ⟨hfv, ?_, ?_⟩
      · intro w
        show Function.update s.freq v (s.freq v + 1) w ≤ s.max
        by_cases hw : w = v
        · rw [hw]; exact not_lt.mp hm
        · rw [Function.update_noteq hw]; exact h.freq_le w
      · rcases h.mpp_max with h0 | ⟨hp, hle⟩
        · exact Or.inl h0
        · right
          refine ⟨hp, ?_⟩
          show s.max ≤ Function.update s.freq v (s.freq v + 1) s.mpp
          by_cases hw : s.mpp = v
          · rw [hw, Function.update_same]; rw [hw] at hle; omega
          · rw [Function.update_noteq hw]; exact hle
  · rw [if_neg hr]
    refine ⟨?_, h.freq_le, h.mpp_max⟩
    intro w
    rw [h.freq_eq]
    by_cases hw : 0 < w ∧ w < size
    · have hne : v ≠ w := fun e => hr (e ▸ hw)
      have : ([v] : List Int).count w = 0 := by
        simp [List.count_cons, List.count_nil]
        exact hne
      simp [List.count_append, this]
    · simp [hw]

theorem MppInv.foldl {size : Int} (value : List Int) :
    ∀ {seen : List Int} {s : MppState}, MppInv size seen s →
      MppInv size (seen ++ value) (value.foldl (findMppStep size) s) := by
  induction value with
  | nil => intro seen s h; simpa using h
  | cons v vs ih =>
    intro seen s h
    have := ih (h.step v)
    simpa [List.append_assoc] using this

theorem findMpp_inv (size : Int) (value : List Int) :
    MppInv size value (findMpp size value) := by
  have := MppInv.foldl value (MppInv.init size)
  simpa [findMpp] using this

/-- A value of `(0, size)` that occurs strictly more often than every other value is the
`mpp` found by the loop. -/
theorem findMpp_strict_mode {size : Int} {value : List Int} {m : Int}
    (h0 : 0 < m) (hs : m < size) (hm : ∀ v, v ≠ m → value.count v < value.count m) :
    (findMpp size value).mpp = m := by
  have inv := findMpp_inv size value
  by_contra hne
  have hcount : 0 < value.count m := by
    have := hm (m + 1) (by omega)
    omega
  have hfm : (findMpp size value).freq m = (value.count m : Int) := by
    rw [inv.freq_eq, if_pos ⟨h0, hs⟩]
  have hle := inv.freq_le m
  rcases inv.mpp_max with ⟨hz, _⟩ | ⟨hp, hge⟩
  · omega
  · have hlt := hm _ hne
    have hfe := inv.freq_eq (findMpp size value).mpp
    by_cases hr : 0 < (findMpp size value).mpp ∧ (findMpp size value).mpp < size
    · rw [if_pos hr] at hfe
      omega
    · rw [if_neg hr] at hfe
      omega

/-! ## Control flow of a calibration run -/

theorem Flow.forEach_result {σ : Type} (step : σ → Nat → Flow σ) (f : σ → Nat → σ)
    (idx : List Nat) (h : ∀ s i, i ∈ idx → (step s i).result = some (f s i)) (s : σ) :
    (Flow.forEach step idx s).result = some (idx.foldl f s) := by
  induction idx generalizing s with
  | nil => rfl
  | cons i idx ih =>
    have h1 := h s i (List.mem_cons_self _ _)
    have h2 := ih (fun s j hj => h s j (List.mem_cons_of_mem _ hj)) (f s i)
    simp only [Flow.forEach, List.foldl_cons]
    cases hs : step s i with
    | quit e c => rw [hs] at h1; simp [Flow.result] at h1
    | next a c =>
      rw [hs] at h1
      simp only [Flow.result, Option.some.injEq] at h1
      subst h1
      simp only [Flow.andThen]
      cases hf : Flow.forEach step idx (f s i) with
      | quit e c2 => rw [hf] at h2; simp [Flow.result] at h2
      | next b c2 => rw [hf] at h2; simpa [Flow.result] using h2

theorem acqStep_result (dev : CalibrationDevice) (WDcfg : WaveDumpConfig_t)
    (BoardInfo : CAEN_DGTZ_BoardInfo_t) (p : Nat) (value : Nat → Nat → Int) (acq : Nat)
    (h : dev.succeeds) :
    (acqStep dev WDcfg BoardInfo p value acq).result =
      some (if dev.BufferSize p acq = 0 then value
        else storeObservations dev WDcfg BoardInfo p value acq) := by
  obtain ⟨_, _, _, hr, hi, hd⟩ := h
  unfold acqStep
  simp only [hr p acq, hi p acq, hd p acq, ne_eq, not_true_eq_false, if_false]
  by_cases hb : dev.BufferSize p acq = 0 <;> simp [hb, Flow.result]

theorem pointStep_result (dev : CalibrationDevice) (NACQS : Nat) (WDcfg : WaveDumpConfig_t)
    (BoardInfo : CAEN_DGTZ_BoardInfo_t) (avg_value : Nat → Nat → CFloat) (p : Nat)
    (h : dev.succeeds) :
    (pointStep dev NACQS WDcfg BoardInfo avg_value p).result =
      some (fun q ch =>
        if q = p then cleanBaselines BoardInfo NACQS (observations dev WDcfg BoardInfo NACQS p) ch
        else avg_value q ch) := by
  have hloop := Flow.forEach_result (acqStep dev WDcfg BoardInfo p) _ (List.range NACQS)
    (fun s i _ => acqStep_result dev WDcfg BoardInfo p s i h) (fun _ _ => 0)
  obtain ⟨_, _, hs, _⟩ := h
  unfold pointStep
  simp only [hs p, ne_eq, not_true_eq_false, if_false]
  cases hf : Flow.forEach (acqStep dev WDcfg BoardInfo p) (List.range NACQS) (fun _ _ => 0) with
  | quit e c => rw [hf] at hloop; simp [Flow.result] at hloop
  | next value c =>
    rw [hf] at hloop
    simp only [Flow.result, Option.some.injEq] at hloop
    subst hloop
    simp [Flow.andThen, Flow.result, observations]

/-- The array `avg_value` after the two test points when no call fails. -/
theorem measurePoints_result (dev : CalibrationDevice) (NACQS : Nat) (WDcfg : WaveDumpConfig_t)
    (BoardInfo : CAEN_DGTZ_BoardInfo_t) (h : dev.succeeds) :
    (measurePoints dev NACQS WDcfg BoardInfo).result =
      some ((List.range NPOINTS).foldl
        (fun avg_value p q ch =>
          if q = p then
            cleanBaselines BoardInfo NACQS (observations dev WDcfg BoardInfo NACQS p) ch
          else avg_value q ch)
        (fun _ _ => some 0)) := by
  have hloop := Flow.forEach_result (pointStep dev NACQS WDcfg BoardInfo) _ (List.range NPOINTS)
    (fun s i _ => pointStep_result dev NACQS WDcfg BoardInfo s i h) (fun _ _ => some 0)
  obtain ⟨hm, ha, _⟩ := h
  unfold measurePoints
  simp only [hm, ha, ne_eq, not_true_eq_false, if_false]
  cases hf : Flow.forEach (pointStep dev NACQS WDcfg BoardInfo) (List.range NPOINTS)
      (fun _ _ => some 0) with
  | quit e c => rw [hf] at hloop; simp [Flow.result] at hloop
  | next avg c =>
    rw [hf] at hloop
    simp only [Flow.result, Option.some.injEq] at hloop
    simp [Flow.andThen, Flow.result, hloop]

theorem Calibrate_DC_Offset_of_result (dev : CalibrationDevice) (NACQS : Nat)
    (WDcfg : WaveDumpConfig_t) (BoardInfo : CAEN_DGTZ_BoardInfo_t)
    (avg_value : Nat → Nat → CFloat)
    (h : (measurePoints dev NACQS WDcfg BoardInfo).result = some avg_value) :
    (Calibrate_DC_Offset dev NACQS WDcfg BoardInfo).WDcfg =
        storeCalibration BoardInfo avg_value WDcfg ∧
      (Calibrate_DC_Offset dev NACQS WDcfg BoardInfo).ErrCode = .ERR_NONE ∧
      (Calibrate_DC_Offset dev NACQS WDcfg BoardInfo).calls.any HwCall.isSave = true := by
  unfold Calibrate_DC_Offset
  cases hf : measurePoints dev NACQS WDcfg BoardInfo with
  | quit e c => rw [hf] at h; simp [Flow.result] at h
  | next avg c =>
    rw [hf] at h
    simp only [Flow.result, Option.some.injEq] at h
    subst h
    simp [HwCall.isSave]

theorem Calibrate_XX740_DC_Offset_of_result (dev : CalibrationDevice) (NACQS : Nat)
    (WDcfg : WaveDumpConfig_t) (BoardInfo : CAEN_DGTZ_BoardInfo_t)
    (avg_value : Nat → Nat → CFloat)
    (h : (measurePointsXX740 dev NACQS BoardInfo).result = some avg_value) :
    (Calibrate_XX740_DC_Offset dev NACQS WDcfg BoardInfo).WDcfg =
        storeCalibration BoardInfo avg_value WDcfg ∧
      (Calibrate_XX740_DC_Offset dev NACQS WDcfg BoardInfo).ErrCode = .ERR_NONE ∧
      (Calibrate_XX740_DC_Offset dev NACQS WDcfg BoardInfo).calls.any HwCall.isSave = true := by
  unfold Calibrate_XX740_DC_Offset
  cases hf : measurePointsXX740 dev NACQS BoardInfo with
  | quit e c => rw [hf] at h; simp [Flow.result] at h
  | next avg c =>
    rw [hf] at h
    simp only [Flow.result, Option.some.injEq] at h
    subst h
    simp [HwCall.isSave]

/-! ## The store loop -/

theorem storeCalibration_foldl (avg_value : Nat → Nat → CFloat) (n : Nat) (WDcfg : WaveDumpConfig_t) :
    (List.range n).foldl (storeStep avg_value) WDcfg =
      { WDcfg with
        DAC_Calib :=
          { cal := fun ch =>
              if ch < n then fitCal (avg_value 0 ch) (avg_value 1 ch) else WDcfg.DAC_Calib.cal ch
            offset := fun ch =>
              if ch < n then fitOffset (avg_value 0 ch) (avg_value 1 ch)
              else WDcfg.DAC_Calib.offset ch } } := by
  induction n with
  | zero => simp
  | succ n ih =>
    rw [List.range_succ, List.foldl_append, ih]
    simp only [List.foldl_cons, List.foldl_nil, storeStep]
    congr 2
    · funext ch
      by_cases h : ch = n
      · subst h; simp
      · rw [Function.update_noteq h]
        have : ch < n + 1 ↔ ch < n := by omega
        simp [this]
    · funext ch
      by_cases h : ch = n
      · subst h; simp
      · rw [Function.update_noteq h]
        have : ch < n + 1 ↔ ch < n := by omega
        simp [this]

/-- The store loop writes the fitted model of every unit below `Channels` and nothing
else. -/
theorem storeCalibration_eq (BoardInfo : CAEN_DGTZ_BoardInfo_t) (avg_value : Nat → Nat → CFloat)
    (WDcfg : WaveDumpConfig_t) :
    storeCalibration BoardInfo avg_value WDcfg =
      { WDcfg with
        DAC_Calib :=
          { cal := fun ch =>
              if ch < BoardInfo.Channels then fitCal (avg_value 0 ch) (avg_value 1 ch)
              else WDcfg.DAC_Calib.cal ch
            offset := fun ch =>
              if ch < BoardInfo.Channels then fitOffset (avg_value 0 ch) (avg_value 1 ch)
              else WDcfg.DAC_Calib.offset ch } } :=
  storeCalibration_foldl avg_value BoardInfo.Channels WDcfg

theorem fitCal_some (y1 y2 : ℚ) : fitCal (some y1) (some y2) = some ((y2 - y1) / 50) := by
  simp [fitCal, CFloat.div, CFloat.sub, u32sub, dc]

theorem fitOffset_some (y1 y2 : ℚ) :
    fitOffset (some y1) (some y2) = some ((75 * y1 - 25 * y2) / 50) := by
  simp [fitOffset, CFloat.div, CFloat.sub, CFloat.mul, u32sub, dc]

theorem checkCleanBaseline_eq (ADC_NBits : Nat) (value : List Int) :
    checkCleanBaseline ADC_NBits value =
      CFloat.div (CFloat.mul (CFloat.div
        (some (((inBand (findMpp (adcSize ADC_NBits) value).mpp value).sum : Int) : ℚ))
        (some (((inBand (findMpp (adcSize ADC_NBits) value).mpp value).length : Int) : ℚ)))
        (some 100)) (some ((adcSize ADC_NBits : Int) : ℚ)) := by
  simp [checkCleanBaseline, discardFar, discardFar_foldl]

theorem adcSize_cast_ne_zero (ADC_NBits : Nat) : ((adcSize ADC_NBits : Int) : ℚ) ≠ 0 := by
  simp [adcSize]

theorem mem_inBand_self {m : Int} {value : List Int} (h : m ∈ value) : m ∈ inBand m value := by
  unfold inBand
  rw [List.mem_filter]
  refine ⟨h, ?_⟩
  simp

/-- When the loop found the mode `m` and some observation lies in `[m - 5, m + 5]`, the
estimator returns `100 / S` times the mean of the observations in that band. -/
theorem checkCleanBaseline_of_mpp {ADC_NBits : Nat} {value : List Int} {m : Int}
    (hmpp : (findMpp (adcSize ADC_NBits) value).mpp = m) (hpos : 0 < (inBand m value).length) :
    checkCleanBaseline ADC_NBits value =
      some (100 / (2 ^ ADC_NBits : ℚ) *
        ((((inBand m value).sum : Int) : ℚ) / ((inBand m value).length : ℚ))) := by
  have hne : (((inBand m value).length : Int) : ℚ) ≠ 0 := by
    have : (inBand m value).length ≠ 0 := by omega
    exact_mod_cast this
  rw [checkCleanBaseline_eq, hmpp]
  simp only [CFloat.div, CFloat.mul, Option.some_bind, if_neg hne,
    if_neg (adcSize_cast_ne_zero ADC_NBits)]
  simp only [adcSize, Option.some.injEq]
  push_cast
  ring

/-- Without any observation in `(0, size)` the loop leaves `mpp = 0`. -/
theorem findMpp_no_valid {size : Int} {value : List Int}
    (h : ∀ v ∈ value, ¬ (0 < v ∧ v < size)) : (findMpp size value).mpp = 0 := by
  have inv := findMpp_inv size value
  rcases inv.mpp_max with ⟨_, h0⟩ | ⟨hp, hge⟩
  · exact h0
  · exfalso
    have hfe := inv.freq_eq (findMpp size value).mpp
    by_cases hr : 0 < (findMpp size value).mpp ∧ (findMpp size value).mpp < size
    · rw [if_pos hr] at hfe
      have hc : value.count (findMpp size value).mpp = 0 :=
        List.count_eq_zero.mpr fun hmem => h _ hmem hr
      rw [hc] at hfe
      simp at hfe
      omega
    · rw [if_neg hr] at hfe
      omega

theorem discardFar_ok (mpp : Int) (value : List Int) :
    (discardFar mpp value).ok = ((inBand mpp value).length : Int) := by
  simp [discardFar, discardFar_foldl]

theorem constantDevice_succeeds (s : Nat) : (constantDevice s).succeeds := by
  simp [CalibrationDevice.succeeds, constantDevice]

/-! ## The applier -/

theorem targetPercent_positive (r : Int) {g : ℚ} (o : ℚ) (hg : g ≠ 0) :
    targetPercent .CAEN_DGTZ_PulsePolarityPositive r (some g) (some o) =
      some |((r : ℚ) - o) / g - 100| := by
  simp [targetPercent, CFloat.fabs, CFloat.sub, CFloat.div, hg]

theorem targetPercent_negative (r : Int) {g : ℚ} (o : ℚ) (hg : g ≠ 0) :
    targetPercent .CAEN_DGTZ_PulsePolarityNegative r (some g) (some o) =
      some |(|(r : ℚ) - 100| - o) / g - 100| := by
  simp [targetPercent, CFloat.fabs, CFloat.sub, CFloat.div, hg]

theorem calibratedCode_of_target {pol : CAEN_DGTZ_PulsePolarity_t} {r : Int} {cal offset : CFloat}
    {t : ℚ} (h : targetPercent pol r cal offset = some t) :
    calibratedCode pol r cal offset = some (toUInt32 (t * (65535 / 100))) := by
  simp [calibratedCode, h, CFloat.mul]

theorem clampDCoffset_eq (pol : CAEN_DGTZ_PulsePolarity_t) (d : Nat) :
    clampDCoffset pol d = min d 65535 := by
  cases pol <;> simp only [clampDCoffset, Nat.not_lt_zero, if_false] <;>
    (split_ifs <;> omega)

/-- The result of `Set_calibrated_DCO` for a unit that is not in Legacy mode, when the
converted code is `d`. -/
theorem Set_calibrated_DCO_of_code (dc_file : Nat → Int) (setRet : Int) (ch : Nat)
    (WDcfg : WaveDumpConfig_t) (BoardInfo : CAEN_DGTZ_BoardInfo_t) (d : Nat)
    (hv : WDcfg.Version_used ch ≠ 0)
    (hd : calibratedCode (WDcfg.PulsePolarity ch) (dc_file ch) (WDcfg.DAC_Calib.cal ch)
      (WDcfg.DAC_Calib.offset ch) = some d) :
    ∃ res, Set_calibrated_DCO dc_file setRet ch WDcfg BoardInfo = some res ∧
      res.WDcfg = { WDcfg with DCoffset := Function.update WDcfg.DCoffset ch (min d 65535) } ∧
      res.ret = setRet ∧
      (res.calls = [HwCall.SetChannelDCOffset ch (min d 65535)] ∨
        res.calls = [HwCall.SetGroupDCOffset ch (min d 65535)]) := by
  unfold Set_calibrated_DCO
  rw [if_neg hv, hd]
  by_cases hf : BoardInfo.FamilyCode = .CAEN_DGTZ_XX740_FAMILY_CODE
  · simp [hf, clampDCoffset_eq]
  · simp [hf, clampDCoffset_eq]

theorem toUInt32_of_floor {x : ℚ} {n : Nat} (hn : n < 2 ^ 32) (h1 : (n : ℚ) ≤ x)
    (h2 : x < (n : ℚ) + 1) : toUInt32 x = n := by
  have hf : ⌊x⌋ = (n : Int) := by
    rw [Int.floor_eq_iff]
    exact ⟨by exact_mod_cast h1, by exact_mod_cast h2⟩
  unfold toUInt32
  rw [hf, Int.toNat_natCast]
  exact Nat.mod_eq_of_lt hn

theorem testDCOffset_zero : testDCOffset 0 = 49151 := by
  have h : |u32ToInt (u32sub (dc 0) 100)| = 75 := by decide
  unfold testDCOffset
  rw [h]
  exact toUInt32_of_floor (by norm_num) (by norm_num) (by norm_num)

theorem testDCOffset_one : testDCOffset 1 = 16383 := by
  have h : |u32ToInt (u32sub (dc 1) 100)| = 25 := by decide
  unfold testDCOffset
  rw [h]
  exact toUInt32_of_floor (by norm_num) (by norm_num) (by norm_num)

/-- The model fitted from two different estimates sends `y1` back to 25 and `y2` to 75. -/
theorem fit_inverse {y1 y2 : ℚ} (hne : y1 ≠ y2) :
    (y1 - (75 * y1 - 25 * y2) / 50) / ((y2 - y1) / 50) = 25 ∧
      (y2 - (75 * y1 - 25 * y2) / 50) / ((y2 - y1) / 50) = 75 := by
  have h : y2 - y1 ≠ 0 := sub_ne_zero.mpr (Ne.symm hne)
  constructor
  · field_simp
    ring
  · field_simp
    ring

/-- The array `avg_value` after the two test points, entry by entry. -/
theorem avg_value_foldl (f : Nat → Nat → CFloat) :
    (List.range NPOINTS).foldl (fun avg_value p q ch => if q = p then f p ch else avg_value q ch)
        (fun _ _ => some 0) =
      fun q ch => if q = 1 then f 1 ch else if q = 0 then f 0 ch else some 0 := by
  simp [NPOINTS, List.range_succ]

/-- The estimator on a batch of `n + 1` equal observations `v` of `(0, S)`. -/
theorem checkCleanBaseline_replicate (ADC_NBits n : Nat) (v : Int) (h0 : 0 < v)
    (hs : v < 2 ^ ADC_NBits) :
    checkCleanBaseline ADC_NBits (List.replicate (n + 1) v) =
      some (100 / (2 ^ ADC_NBits : ℚ) * (v : ℚ)) := by
  have hm : ∀ w, w ≠ v →
      (List.replicate (n + 1) v).count w < (List.replicate (n + 1) v).count v := by
    intro w hw
    rw [List.count_replicate, List.count_replicate]
    have : ¬ (v = w) := fun e => hw e.symm
    simp [this]
  have hmpp : (findMpp (adcSize ADC_NBits) (List.replicate (n + 1) v)).mpp = v :=
    findMpp_strict_mode h0 (by simpa [adcSize] using hs) hm
  have hb : inBand v (List.replicate (n + 1) v) = List.replicate (n + 1) v := by
    unfold inBand
    rw [List.filter_eq_self]
    intro a ha
    rw [List.eq_of_mem_replicate ha]
    simp
  have hpos : 0 < (inBand v (List.replicate (n + 1) v)).length := by
    rw [hb]; simp
  rw [checkCleanBaseline_of_mpp hmpp hpos, hb]
  simp only [List.sum_replicate, List.length_replicate, smul_eq_mul]
  congr 2
  push_cast
  field_simp

theorem cleanBaselines_of_lt {BoardInfo : CAEN_DGTZ_BoardInfo_t} {ch : Nat}
    (hch : ch < BoardInfo.Channels) (NACQS : Nat) (value : Nat → Nat → Int) :
    cleanBaselines BoardInfo NACQS value ch =
      checkCleanBaseline BoardInfo.ADC_NBits (batchOf NACQS value ch) :=
  if_pos hch

/-- The clean baseline of a unit of the board `board730` whose 20 observations are all
`100`. -/
theorem cleanBaselines_constant (value : Nat → Nat → Int)
    (hb : batchOf 20 value 0 = List.replicate 20 100) :
    cleanBaselines board730 20 value 0 = some (100 / (2 ^ 14 : ℚ) * (100 : ℚ)) := by
  have h := checkCleanBaseline_replicate 14 19 100 (by norm_num) (by norm_num)
  have hch : (0 : Nat) < board730.Channels := by decide
  rw [cleanBaselines_of_lt hch, hb]
  exact_mod_cast h

/-! ## The threshold assignment -/

theorem u32add_int (b t : Int) (hb1 : -2 ^ 31 ≤ b) (hb2 : b < 2 ^ 31) (ht1 : -2 ^ 31 ≤ t)
    (ht2 : t < 2 ^ 31) (h : 0 ≤ b + t) :
    ((u32add (intToUInt32 b) (intToUInt32 t) : Nat) : Int) = b + t := by
  unfold u32add intToUInt32
  norm_num at hb1 hb2 ht1 ht2 ⊢
  omega

theorem u32sub_int (b t : Int) (hb1 : -2 ^ 31 ≤ b) (hb2 : b < 2 ^ 31) (ht1 : -2 ^ 31 ≤ t)
    (ht2 : t < 2 ^ 31) (h : 0 ≤ b - t) :
    ((u32sub (intToUInt32 b) (intToUInt32 t) : Nat) : Int) = b - t := by
  unfold u32sub intToUInt32
  norm_num at hb1 hb2 ht1 ht2 ⊢
  omega

theorem intToUInt32_adcSize {n : Nat} (hn : n ≤ 30) :
    ((intToUInt32 (adcSize n) : Nat) : Int) = 2 ^ n := by
  have h1 : (2 : Int) ^ n ≤ 2 ^ 30 := pow_le_pow_right₀ (by norm_num) hn
  have h2 : (0 : Int) < 2 ^ n := by positivity
  unfold intToUInt32 adcSize
  generalize (2 : Int) ^ n = s at h1 h2 ⊢
  norm_num at h1 ⊢
  omega

/-- The threshold left by `setThreshold`, through the two range checks. -/
theorem setThreshold_eq (thr_file : Nat → Int) (WDcfg : WaveDumpConfig_t)
    (BoardInfo : CAEN_DGTZ_BoardInfo_t) (baseline : Nat → Int) (ch : Nat) (t1 : Nat)
    (h : t1 = match WDcfg.PulsePolarity ch with
      | .CAEN_DGTZ_PulsePolarityPositive =>
        u32add (intToUInt32 (baseline ch)) (intToUInt32 (thr_file ch))
      | .CAEN_DGTZ_PulsePolarityNegative =>
        u32sub (intToUInt32 (baseline ch)) (intToUInt32 (thr_file ch))) :
    (setThreshold thr_file WDcfg BoardInfo baseline ch).1.Threshold ch =
        min t1 (intToUInt32 (adcSize BoardInfo.ADC_NBits)) ∧
      ((setThreshold thr_file WDcfg BoardInfo baseline ch).2 =
          [HwCall.SetChannelTriggerThreshold ch
            (min t1 (intToUInt32 (adcSize BoardInfo.ADC_NBits)))] ∨
        (setThreshold thr_file WDcfg BoardInfo baseline ch).2 =
          [HwCall.SetGroupTriggerThreshold ch
            (min t1 (intToUInt32 (adcSize BoardInfo.ADC_NBits)))]) := by
  have hmin : ∀ a b : Nat, (if a > b then b else a) = min a b := by
    intro a b
    split_ifs <;> omega
  unfold setThreshold
  simp only [← h, Nat.not_lt_zero, if_false, hmin]
  by_cases hf : BoardInfo.FamilyCode = .CAEN_DGTZ_XX740_FAMILY_CODE
  · simp [hf]
  · simp [hf]

/-! ## The claims -/

set_option maxRecDepth 1000000

/-- C1. Baseline estimator: when one value `m` of `(0, S)`, `S = 2 ^ ADC_NBits`, occurs
strictly more often in the batch than every other value, at least one observation lies in
`[m - 5, m + 5]`, the returned baseline percentage is `100 / S` times the arithmetic mean
of exactly the observations in `[m - 5, m + 5]`, and two such batches with the same
observations inside the band give the same result. -/
theorem checkCleanBaseline_strict_mode (ADC_NBits : Nat) (value : List Int) (m : Int)
    (h0 : 0 < m) (hs : m < 2 ^ ADC_NBits)
    (hm : ∀ v, v ≠ m → value.count v < value.count m) :
    0 < (inBand m value).length ∧
    checkCleanBaseline ADC_NBits value =
      some (100 / (2 ^ ADC_NBits : ℚ) *
        ((((inBand m value).sum : Int) : ℚ) / ((inBand m value).length : ℚ))) ∧
    ∀ value' : List Int, (∀ v, v ≠ m → value'.count v < value'.count m) →
      inBand m value' = inBand m value →
      checkCleanBaseline ADC_NBits value' = checkCleanBaseline ADC_NBits value := by
  have key : ∀ l : List Int, (∀ v, v ≠ m → l.count v < l.count m) →
      0 < (inBand m l).length ∧ checkCleanBaseline ADC_NBits l =
        some (100 / (2 ^ ADC_NBits : ℚ) *
          ((((inBand m l).sum : Int) : ℚ) / ((inBand m l).length : ℚ))) := by
    intro l hl
    have hmpp : (findMpp (adcSize ADC_NBits) l).mpp = m :=
      findMpp_strict_mode h0 (by simpa [adcSize] using hs) hl
    have hmem : m ∈ l := by
      have := hl (m + 1) (by omega)
      exact List.count_pos_iff.mp (by omega)
    have hpos : 0 < (inBand m l).length := List.length_pos_of_mem (mem_inBand_self hmem)
    exact ⟨hpos, checkCleanBaseline_of_mpp hmpp hpos⟩
  refine ⟨(key value hm).1, (key value hm).2, ?_⟩
  intro value' hm' hb
  rw [(key value hm).2, (key value' hm').2, hb]

/-- The scenario of C1: 18 observations `100`, then `500` and `3`, with `S = 16384`: the
mode is `100`, 18 observations are retained and the result is `100 / 16384 * 100`. -/
theorem checkCleanBaseline_strict_mode_witness :
    (findMpp (adcSize 14) (List.replicate 18 100 ++ [500, 3])).mpp = 100 ∧
    (inBand 100 (List.replicate 18 100 ++ [500, 3])).length = 18 ∧
    checkCleanBaseline 14 (List.replicate 18 100 ++ [500, 3]) = some (100 / 16384 * 100) := by
  have hm : ∀ v : Int, v ≠ 100 →
      (List.replicate 18 (100 : Int) ++ [500, 3]).count v <
        (List.replicate 18 (100 : Int) ++ [500, 3]).count 100 := by
    intro v hv
    rw [List.count_append, List.count_append, List.count_replicate, List.count_replicate]
    simp only [List.count_cons, List.count_nil]
    have h1 : ¬ (v = 100) := hv
    split_ifs <;> simp_all
  have h := checkCleanBaseline_strict_mode 14 (List.replicate 18 100 ++ [500, 3]) 100
    (by norm_num) (by norm_num) hm
  have hb : inBand 100 (List.replicate 18 100 ++ [500, 3]) = List.replicate 18 100 := by
    decide
  refine ⟨by decide, by rw [hb]; rfl, ?_⟩
  rw [h.2.1, hb]
  norm_num

/-- C3. Two-point fit: for a unit `ch` below `Channels` whose baseline estimates are `y1`
at test point 25 and `y2` at test point 75, the store loop of the Fitter leaves
`cal = (y2 - y1) / 50` and `offset = (75 * y1 - 25 * y2) / 50` in `WDcfg->DAC_Calib`, and
this is the model left by every run of `Calibrate_DC_Offset` and of
`Calibrate_XX740_DC_Offset` whose measurement ends with these estimates. -/
theorem storeCalibration_two_points (BoardInfo : CAEN_DGTZ_BoardInfo_t)
    (avg_value : Nat → Nat → CFloat) (WDcfg : WaveDumpConfig_t) (ch : Nat) (y1 y2 : ℚ)
    (hch : ch < BoardInfo.Channels) (h1 : avg_value 0 ch = some y1)
    (h2 : avg_value 1 ch = some y2) :
    (storeCalibration BoardInfo avg_value WDcfg).DAC_Calib.cal ch = some ((y2 - y1) / 50) ∧
      (storeCalibration BoardInfo avg_value WDcfg).DAC_Calib.offset ch =
        some ((75 * y1 - 25 * y2) / 50) ∧
      (∀ dev NACQS, (measurePoints dev NACQS WDcfg BoardInfo).result = some avg_value →
        (Calibrate_DC_Offset dev NACQS WDcfg BoardInfo).WDcfg =
          storeCalibration BoardInfo avg_value WDcfg) ∧
      (∀ dev NACQS, (measurePointsXX740 dev NACQS BoardInfo).result = some avg_value →
        (Calibrate_XX740_DC_Offset dev NACQS WDcfg BoardInfo).WDcfg =
          storeCalibration BoardInfo avg_value WDcfg) := by
  refine ⟨?_, ?_, ?_, ?_⟩
  · rw [storeCalibration_eq]
    simp only [if_pos hch, h1, h2, fitCal_some]
  · rw [storeCalibration_eq]
    simp only [if_pos hch, h1, h2, fitOffset_some]
  · intro dev NACQS h
    exact (Calibrate_DC_Offset_of_result dev NACQS WDcfg BoardInfo avg_value h).1
  · intro dev NACQS h
    exact (Calibrate_XX740_DC_Offset_of_result dev NACQS WDcfg BoardInfo avg_value h).1

/-- The scenario of C3: the estimates `y1 = 40` and `y2 = 60` give the gain `0.4` and the
offset `30`. -/
theorem storeCalibration_two_points_witness :
    (storeCalibration board730 (fun p _ => if p = 0 then some 40 else some 60)
        config730).DAC_Calib.cal 0 = some (4 / 10) ∧
      (storeCalibration board730 (fun p _ => if p = 0 then some 40 else some 60)
        config730).DAC_Calib.offset 0 = some 30 := by
  have h := storeCalibration_two_points board730 (fun p _ => if p = 0 then some 40 else some 60)
    config730 0 40 60 (by decide) rfl rfl
  refine ⟨?_, ?_⟩
  · rw [h.1]; norm_num
  · rw [h.2.1]; norm_num

/-- C5. Applier clamp: for a unit that is not in Legacy mode, every model with a non-zero
gain `g` and any offset `o`, every request and either polarity, the DAC code that
`Set_calibrated_DCO` stores in `WDcfg->DCoffset[ch]` lies in `[0, 65535]`, and it is the
code written to the device. -/
theorem Set_calibrated_DCO_clamped (dc_file : Nat → Int) (setRet : Int) (ch : Nat)
    (WDcfg : WaveDumpConfig_t) (BoardInfo : CAEN_DGTZ_BoardInfo_t) (g o : ℚ)
    (hv : WDcfg.Version_used ch ≠ 0) (hcal : WDcfg.DAC_Calib.cal ch = some g) (hg : g ≠ 0)
    (hoff : WDcfg.DAC_Calib.offset ch = some o) :
    ∃ res, Set_calibrated_DCO dc_file setRet ch WDcfg BoardInfo = some res ∧
      0 ≤ res.WDcfg.DCoffset ch ∧ res.WDcfg.DCoffset ch ≤ 65535 ∧
      (res.calls = [HwCall.SetChannelDCOffset ch (res.WDcfg.DCoffset ch)] ∨
        res.calls = [HwCall.SetGroupDCOffset ch (res.WDcfg.DCoffset ch)]) := by
  have ht : ∃ t, targetPercent (WDcfg.PulsePolarity ch) (dc_file ch) (WDcfg.DAC_Calib.cal ch)
      (WDcfg.DAC_Calib.offset ch) = some t := by
    rw [hcal, hoff]
    cases WDcfg.PulsePolarity ch
    · exact ⟨_, targetPercent_positive _ _ hg⟩
    · exact ⟨_, targetPercent_negative _ _ hg⟩
  obtain ⟨t, ht⟩ := ht
  obtain ⟨res, hres, hW, _, hcalls⟩ := Set_calibrated_DCO_of_code dc_file setRet ch
    WDcfg BoardInfo _ hv (calibratedCode_of_target ht)
  have hD : res.WDcfg.DCoffset ch = min (toUInt32 (t * (65535 / 100))) 65535 := by
    rw [hW]; simp
  refine ⟨res, hres, Nat.zero_le _, ?_, ?_⟩
  · rw [hD]; exact Nat.min_le_right _ _
  · rw [hD]; exact hcalls

/-- The clamp of C5 on a pathological model: with the gain `1 / 1000000` the request `50`
gives a target far out of range and the stored code is `65535`. -/
theorem Set_calibrated_DCO_clamped_witness :
    ((Set_calibrated_DCO (fun _ => 50) 0 0
        { config730 with
          DAC_Calib := { cal := fun _ => some (1 / 1000000), offset := fun _ => some 0 } }
        board730).map (fun res => decide (res.WDcfg.DCoffset 0 ≤ 65535))) = some true := by
  obtain ⟨res, hres, _, hle, _⟩ := Set_calibrated_DCO_clamped (fun _ => 50) 0 0
    { config730 with
      DAC_Calib := { cal := fun _ => some (1 / 1000000), offset := fun _ => some 0 } }
    board730 (1 / 1000000) 0 (by decide) rfl (by norm_num) rfl
  rw [hres, Option.map_some', decide_eq_true hle]

/-- C6, counterexample. Positive pulses on a 14-bit ADC (`S = 16384`). With the baseline
`100` and `thr_file = 20000` the stored and programmed threshold is `16384`, not
`clamp(20100, 0, S - 1) = 16383`; with the baseline `100` and `thr_file = -200` the
unsigned sum wraps and the threshold is `16384`, not `clamp(-100, 0, S - 1) = 0`. -/
theorem setThreshold_positive_not_clamp :
    (setThreshold (fun _ => 20000) config730 board730 (fun _ => 100) 0).1.Threshold 0 = 16384 ∧
      (setThreshold (fun _ => 20000) config730 board730 (fun _ => 100) 0).2 =
        [HwCall.SetChannelTriggerThreshold 0 16384] ∧
      max 0 (min ((100 : Int) + 20000) (2 ^ 14 - 1)) = 16383 ∧
      (setThreshold (fun _ => -200) config730 board730 (fun _ => 100) 0).1.Threshold 0 = 16384 ∧
      max 0 (min ((100 : Int) + -200) (2 ^ 14 - 1)) = 0 := by
  refine ⟨by decide, rfl, by decide, by decide, by decide⟩

/-- C6, amended. Threshold of a unit with positive pulses: for a measured baseline `B` and
a relative threshold `thr_file[ch] = T` (C `int` values) with `0 ≤ B + T`, on an ADC of at
most 30 bits, the threshold stored in `WDcfg->Threshold[ch]` and programmed to the device
is `min(B + T, S)` with `S = 2 ^ ADC_NBits`: the upper bound of the range check is `S`. -/
theorem setThreshold_positive (thr_file : Nat → Int) (WDcfg : WaveDumpConfig_t)
    (BoardInfo : CAEN_DGTZ_BoardInfo_t) (baseline : Nat → Int) (ch : Nat)
    (hp : WDcfg.PulsePolarity ch = .CAEN_DGTZ_PulsePolarityPositive)
    (hn : BoardInfo.ADC_NBits ≤ 30)
    (hb1 : -2 ^ 31 ≤ baseline ch) (hb2 : baseline ch < 2 ^ 31)
    (ht1 : -2 ^ 31 ≤ thr_file ch) (ht2 : thr_file ch < 2 ^ 31)
    (h : 0 ≤ baseline ch + thr_file ch) :
    (((setThreshold thr_file WDcfg BoardInfo baseline ch).1.Threshold ch : Nat) : Int) =
        min (baseline ch + thr_file ch) (2 ^ BoardInfo.ADC_NBits) ∧
      ((setThreshold thr_file WDcfg BoardInfo baseline ch).2 =
          [HwCall.SetChannelTriggerThreshold ch
            ((setThreshold thr_file WDcfg BoardInfo baseline ch).1.Threshold ch)] ∨
        (setThreshold thr_file WDcfg BoardInfo baseline ch).2 =
          [HwCall.SetGroupTriggerThreshold ch
            ((setThreshold thr_file WDcfg BoardInfo baseline ch).1.Threshold ch)]) := by
  obtain ⟨hT, hc⟩ := setThreshold_eq thr_file WDcfg BoardInfo baseline ch
    (u32add (intToUInt32 (baseline ch)) (intToUInt32 (thr_file ch))) (by rw [hp])
  refine ⟨?_, by rw [hT]; exact hc⟩
  rw [hT, Nat.cast_min, u32add_int _ _ hb1 hb2 ht1 ht2 h, intToUInt32_adcSize hn]

/-- The amended C6 on a 14-bit ADC: baseline `8000` and `thr_file = 100` give the
threshold `8100`. -/
theorem setThreshold_positive_witness :
    (((setThreshold (fun _ => 100) config730 board730 (fun _ => 8000) 0).1.Threshold 0 : Nat) :
      Int) = 8100 := by
  have h := (setThreshold_positive (fun _ => 100) config730 board730 (fun _ => 8000) 0 rfl
    (by decide) (by norm_num) (by norm_num) (by norm_num) (by norm_num) (by norm_num)).1
  rw [h]
  decide

/-- C7, counterexample. Negative pulses on a 14-bit ADC (`S = 16384`). With the baseline
`100` and `thr_file = 200 > 100` the unsigned difference wraps and the stored and
programmed threshold is `16384`, not `0`; with the baseline `100` and `thr_file = -20000`
the threshold is `16384`, not `clamp(20100, 0, S - 1) = 16383`. -/
theorem setThreshold_negative_not_clamp :
    (setThreshold (fun _ => 200) config730neg board730 (fun _ => 100) 0).1.Threshold 0 = 16384 ∧
      (setThreshold (fun _ => 200) config730neg board730 (fun _ => 100) 0).2 =
        [HwCall.SetChannelTriggerThreshold 0 16384] ∧
      max 0 (min ((100 : Int) - 200) (2 ^ 14 - 1)) = 0 ∧
      (setThreshold (fun _ => -20000) config730neg board730 (fun _ => 100) 0).1.Threshold 0 =
        16384 ∧
      max 0 (min ((100 : Int) - -20000) (2 ^ 14 - 1)) = 16383 := by
  refine ⟨by decide, rfl, by decide, by decide, by decide⟩

/-- C7, amended. Threshold of a unit with negative pulses: for a measured baseline `B` and
a relative threshold `thr_file[ch] = T` (C `int` values) with `T ≤ B`, on an ADC of at
most 30 bits, the threshold stored in `WDcfg->Threshold[ch]` and programmed to the device
is `min(B - T, S)` with `S = 2 ^ ADC_NBits`: the upper bound of the range check is `S`. -/
theorem setThreshold_negative (thr_file : Nat → Int) (WDcfg : WaveDumpConfig_t)
    (BoardInfo : CAEN_DGTZ_BoardInfo_t) (baseline : Nat → Int) (ch : Nat)
    (hp : WDcfg.PulsePolarity ch = .CAEN_DGTZ_PulsePolarityNegative)
    (hn : BoardInfo.ADC_NBits ≤ 30)
    (hb1 : -2 ^ 31 ≤ baseline ch) (hb2 : baseline ch < 2 ^ 31)
    (ht1 : -2 ^ 31 ≤ thr_file ch) (ht2 : thr_file ch < 2 ^ 31)
    (h : thr_file ch ≤ baseline ch) :
    (((setThreshold thr_file WDcfg BoardInfo baseline ch).1.Threshold ch : Nat) : Int) =
        min (baseline ch - thr_file ch) (2 ^ BoardInfo.ADC_NBits) ∧
      ((setThreshold thr_file WDcfg BoardInfo baseline ch).2 =
          [HwCall.SetChannelTriggerThreshold ch
            ((setThreshold thr_file WDcfg BoardInfo baseline ch).1.Threshold ch)] ∨
        (setThreshold thr_file WDcfg BoardInfo baseline ch).2 =
          [HwCall.SetGroupTriggerThreshold ch
            ((setThreshold thr_file WDcfg BoardInfo baseline ch).1.Threshold ch)]) := by
  obtain ⟨hT, hc⟩ := setThreshold_eq thr_file WDcfg BoardInfo baseline ch
    (u32sub (intToUInt32 (baseline ch)) (intToUInt32 (thr_file ch))) (by rw [hp])
  refine ⟨?_, by rw [hT]; exact hc⟩
  rw [hT, Nat.cast_min, u32sub_int _ _ hb1 hb2 ht1 ht2 (by omega), intToUInt32_adcSize hn]

/-- The amended C7 on a 14-bit ADC: baseline `8000` and `thr_file = 100` give the
threshold `7900`. -/
theorem setThreshold_negative_witness :
    (((setThreshold (fun _ => 100) config730neg board730 (fun _ => 8000) 0).1.Threshold 0 : Nat) :
      Int) = 7900 := by
  have h := (setThreshold_negative (fun _ => 100) config730neg board730 (fun _ => 8000) 0 rfl
    (by decide) (by norm_num) (by norm_num) (by norm_num) (by norm_num) (by norm_num)).1
  rw [h]
  decide

/-- C8, counterexample. With the model `cal = 1`, `offset = 0`, the request `75` and
positive pulses, `t = 25` and `t * 655.35 = 16383.75`: the nearest integer is `16384`, but
the code computed before the range checks, and stored by `Set_calibrated_DCO`, is
`16383`. -/
theorem calibratedCode_not_rounded :
    targetPercent .CAEN_DGTZ_PulsePolarityPositive 75 (some 1) (some 0) = some 25 ∧
      round ((25 : ℚ) * (65535 / 100)) = 16384 ∧
      calibratedCode .CAEN_DGTZ_PulsePolarityPositive 75 (some 1) (some 0) = some 16383 ∧
      (Set_calibrated_DCO (fun _ => 75) 0 0 config730 board730).map
        (fun res => res.WDcfg.DCoffset 0) = some 16383 := by
  have ht : targetPercent .CAEN_DGTZ_PulsePolarityPositive 75 (some 1) (some 0) = some 25 := by
    rw [targetPercent_positive 75 0 one_ne_zero]
    norm_num [abs_of_neg]
  have hc : calibratedCode .CAEN_DGTZ_PulsePolarityPositive 75 (some 1) (some 0) =
      some 16383 := by
    rw [calibratedCode_of_target ht]
    exact congrArg some (toUInt32_of_floor (by norm_num) (by norm_num) (by norm_num))
  refine ⟨ht, ?_, hc, ?_⟩
  · rw [round_eq, Int.floor_eq_iff]
    norm_num
  · obtain ⟨res, hres, hW, _, _⟩ := Set_calibrated_DCO_of_code (fun _ => 75) 0 0 config730 board730
      16383
      (by decide) hc
    rw [hres, Option.map_some', hW]
    simp

/-- C9. Applier scenario: for a unit that is not in Legacy mode, with positive pulses, the
model `cal = 0.4`, `offset = 30` and the request `dc_file[ch] = 50`, the target percentage
is `50` and `Set_calibrated_DCO` sets `WDcfg->DCoffset[ch]` to `32767`, within 1 of
`32768`. -/
theorem Set_calibrated_DCO_scenario (dc_file : Nat → Int) (setRet : Int) (ch : Nat)
    (WDcfg : WaveDumpConfig_t) (BoardInfo : CAEN_DGTZ_BoardInfo_t)
    (hv : WDcfg.Version_used ch ≠ 0)
    (hp : WDcfg.PulsePolarity ch = .CAEN_DGTZ_PulsePolarityPositive)
    (hcal : WDcfg.DAC_Calib.cal ch = some (4 / 10)) (hoff : WDcfg.DAC_Calib.offset ch = some 30)
    (hr : dc_file ch = 50) :
    targetPercent (WDcfg.PulsePolarity ch) (dc_file ch) (WDcfg.DAC_Calib.cal ch)
        (WDcfg.DAC_Calib.offset ch) = some 50 ∧
      ∃ res, Set_calibrated_DCO dc_file setRet ch WDcfg BoardInfo = some res ∧
        res.WDcfg.DCoffset ch = 32767 ∧
        |(res.WDcfg.DCoffset ch : Int) - 32768| ≤ 1 := by
  have ht : targetPercent (WDcfg.PulsePolarity ch) (dc_file ch) (WDcfg.DAC_Calib.cal ch)
      (WDcfg.DAC_Calib.offset ch) = some 50 := by
    rw [hp, hcal, hoff, hr, targetPercent_positive 50 30 (by norm_num)]
    norm_num [abs_of_neg]
  have hc : calibratedCode (WDcfg.PulsePolarity ch) (dc_file ch) (WDcfg.DAC_Calib.cal ch)
      (WDcfg.DAC_Calib.offset ch) = some 32767 := by
    rw [calibratedCode_of_target ht]
    exact congrArg some (toUInt32_of_floor (by norm_num) (by norm_num) (by norm_num))
  obtain ⟨res, hres, hW, _, _⟩ := Set_calibrated_DCO_of_code dc_file setRet ch
    WDcfg BoardInfo _ hv hc
  have hD : res.WDcfg.DCoffset ch = 32767 := by
    rw [hW]; simp
  refine ⟨ht, res, hres, hD, ?_⟩
  rw [hD]
  decide

/-- The scenario of C9 on a two-channel x730 board. -/
theorem Set_calibrated_DCO_scenario_witness :
    (Set_calibrated_DCO (fun _ => 50) 0 0
        { config730 with
          DAC_Calib := { cal := fun _ => some (4 / 10), offset := fun _ => some 30 } }
        board730).map (fun res => res.WDcfg.DCoffset 0) = some 32767 := by
  obtain ⟨_, res, hres, hD, _⟩ := Set_calibrated_DCO_scenario (fun _ => 50) 0 0
    { config730 with
      DAC_Calib := { cal := fun _ => some (4 / 10), offset := fun _ => some 30 } }
    board730 (by decide) rfl rfl rfl rfl
  rw [hres, Option.map_some', hD]

/-- C10, counterexample. A run of `Calibrate_DC_Offset` on a device whose samples are
always `100` (14-bit ADC, 20 acquisitions per point): both baseline estimates of channel 0
are equal, the run completes with `ERR_NONE`, the zero gain is stored in place of the
previous gain `1` and written to flash, and the channel stays in Calibrated mode
(`Version_used = 1`). -/
theorem Calibrate_DC_Offset_stores_zero_gain :
    config730.DAC_Calib.cal 0 = some 1 ∧
      cleanBaselines board730 20 (observations (constantDevice 100) config730 board730 20 0) 0 =
        cleanBaselines board730 20 (observations (constantDevice 100) config730 board730 20 1) 0 ∧
      (Calibrate_DC_Offset (constantDevice 100) 20 config730 board730).ErrCode = .ERR_NONE ∧
      (Calibrate_DC_Offset (constantDevice 100) 20 config730 board730).WDcfg.DAC_Calib.cal 0 =
        some 0 ∧
      (Calibrate_DC_Offset (constantDevice 100) 20 config730 board730).WDcfg.Version_used 0 = 1 ∧
      (Calibrate_DC_Offset (constantDevice 100) 20 config730 board730).calls.any
        HwCall.isSave = true := by
  have hrun := Calibrate_DC_Offset_of_result (constantDevice 100) 20 config730 board730 _
    (measurePoints_result (constantDevice 100) 20 config730 board730 (constantDevice_succeeds 100))
  have hb0 : batchOf 20 (observations (constantDevice 100) config730 board730 20 0) 0 =
      List.replicate 20 100 := by decide
  have hb1 : batchOf 20 (observations (constantDevice 100) config730 board730 20 1) 0 =
      List.replicate 20 100 := by decide
  have he0 := cleanBaselines_constant _ hb0
  have he1 := cleanBaselines_constant _ hb1
  refine ⟨rfl, by rw [he0, he1], hrun.2.1, ?_, ?_, hrun.2.2⟩
  · rw [hrun.1, avg_value_foldl, storeCalibration_eq]
    have hch : (0 : Nat) < board730.Channels := by decide
    simp only [if_pos hch]
    simp only [if_true, if_false, (by decide : ¬ (0 : Nat) = 1), he0, he1]
    rw [fitCal_some]
    norm_num
  · rw [hrun.1, storeCalibration_eq]
    rfl

/-! ## Control flow of a calibration run, continued -/

/-- C11. The fitted model passes through both calibration points: for a unit `ch` below
`Channels` with baseline estimates `y1` and `y2`, the stored gain and offset satisfy
`gain * 25 + offset = y1` and `gain * 75 + offset = y2` in exact arithmetic. -/
theorem storeCalibration_through_points (BoardInfo : CAEN_DGTZ_BoardInfo_t)
    (avg_value : Nat → Nat → CFloat) (WDcfg : WaveDumpConfig_t) (ch : Nat) (y1 y2 : ℚ)
    (hch : ch < BoardInfo.Channels) (h1 : avg_value 0 ch = some y1)
    (h2 : avg_value 1 ch = some y2) :
    CFloat.add
        (CFloat.mul ((storeCalibration BoardInfo avg_value WDcfg).DAC_Calib.cal ch) (some 25))
        ((storeCalibration BoardInfo avg_value WDcfg).DAC_Calib.offset ch) = some y1 ∧
      CFloat.add
        (CFloat.mul ((storeCalibration BoardInfo avg_value WDcfg).DAC_Calib.cal ch) (some 75))
        ((storeCalibration BoardInfo avg_value WDcfg).DAC_Calib.offset ch) = some y2 := by
  have hcal : (storeCalibration BoardInfo avg_value WDcfg).DAC_Calib.cal ch =
      some ((y2 - y1) / 50) := by
    rw [storeCalibration_eq]; simp only [if_pos hch, h1, h2, fitCal_some]
  have hoff : (storeCalibration BoardInfo avg_value WDcfg).DAC_Calib.offset ch =
      some ((75 * y1 - 25 * y2) / 50) := by
    rw [storeCalibration_eq]; simp only [if_pos hch, h1, h2, fitOffset_some]
  rw [hcal, hoff]
  simp only [CFloat.add, CFloat.mul, Option.some_bind, Option.some.injEq]
  constructor <;> ring

/-- The model of C11 fitted from `y1 = 40` and `y2 = 60` gives back `40` at 25 and `60`
at 75. -/
theorem storeCalibration_through_points_witness :
    CFloat.add
        (CFloat.mul ((storeCalibration board730 (fun p _ => if p = 0 then some 40 else some 60)
          config730).DAC_Calib.cal 0) (some 25))
        ((storeCalibration board730 (fun p _ => if p = 0 then some 40 else some 60)
          config730).DAC_Calib.offset 0) = some 40 ∧
      CFloat.add
        (CFloat.mul ((storeCalibration board730 (fun p _ => if p = 0 then some 40 else some 60)
          config730).DAC_Calib.cal 0) (some 75))
        ((storeCalibration board730 (fun p _ => if p = 0 then some 40 else some 60)
          config730).DAC_Calib.offset 0) = some 60 :=
  storeCalibration_through_points board730 (fun p _ => if p = 0 then some 40 else some 60)
    config730 0 40 60 (by decide) rfl rfl

/-- C13, the code at a failing input. A run of `Calibrate_DC_Offset` on a two-channel x730
board with only channel 0 enabled, whose first data read fails: the run jumps to
`QuitProgram` with `ERR_READOUT` right after the read, so the calls of `reset settings` are
never made. The external trigger stays disabled, the maximum number of events stays 1, both
channels stay enabled, the self trigger of channel 0 stays disabled and the acquisition
stays started, while the configuration asks for `ACQ_ONLY`, `1023`, the mask `1` and
`ACQ_ONLY`. On the same board a run without failure restores these four settings. -/
theorem Calibrate_DC_Offset_quit_skips_reset :
    (Calibrate_DC_Offset readFailDevice 20 config730one board730).ErrCode = .ERR_READOUT ∧
      (Calibrate_DC_Offset readFailDevice 20 config730one board730).calls =
        calibrationSetup board730 ++
          [.MallocReadoutBuffer, .AllocateEvent, .SetChannelDCOffset 0 (testDCOffset 0),
            .SetChannelDCOffset 1 (testDCOffset 0), .ClearData, .SWStartAcquisition,
            .SendSWtrigger, .ReadData] ∧
      (settingsAfter (programmedSettings config730one .CAEN_DGTZ_SW_CONTROLLED)
        (Calibrate_DC_Offset readFailDevice 20 config730one board730).calls).ExtTriggerInputMode
          = .CAEN_DGTZ_TRGMODE_DISABLED ∧
      config730one.ExtTriggerMode = .CAEN_DGTZ_TRGMODE_ACQ_ONLY ∧
      (settingsAfter (programmedSettings config730one .CAEN_DGTZ_SW_CONTROLLED)
        (Calibrate_DC_Offset readFailDevice 20 config730one board730).calls).MaxNumEventsBLT
          = 1 ∧
      config730one.NumEvents = 1023 ∧
      (settingsAfter (programmedSettings config730one .CAEN_DGTZ_SW_CONTROLLED)
        (Calibrate_DC_Offset readFailDevice 20 config730one board730).calls).EnableMask = 3 ∧
      config730one.EnableMask = 1 ∧
      (settingsAfter (programmedSettings config730one .CAEN_DGTZ_SW_CONTROLLED)
        (Calibrate_DC_Offset readFailDevice 20 config730one board730).calls).SelfTrigger 0
          = .CAEN_DGTZ_TRGMODE_DISABLED ∧
      config730one.ChannelTriggerMode 0 = .CAEN_DGTZ_TRGMODE_ACQ_ONLY ∧
      (settingsAfter (programmedSettings config730one .CAEN_DGTZ_SW_CONTROLLED)
        (Calibrate_DC_Offset readFailDevice 20 config730one board730).calls).acquiring = true ∧
      (settingsAfter (programmedSettings config730one .CAEN_DGTZ_SW_CONTROLLED)
        (Calibrate_DC_Offset (constantDevice 100) 20 config730one board730).calls).ExtTriggerInputMode
          = .CAEN_DGTZ_TRGMODE_ACQ_ONLY ∧
      (settingsAfter (programmedSettings config730one .CAEN_DGTZ_SW_CONTROLLED)
        (Calibrate_DC_Offset (constantDevice 100) 20 config730one board730).calls).MaxNumEventsBLT
          = 1023 ∧
      (settingsAfter (programmedSettings config730one .CAEN_DGTZ_SW_CONTROLLED)
        (Calibrate_DC_Offset (constantDevice 100) 20 config730one board730).calls).EnableMask
          = 1 ∧
      (settingsAfter (programmedSettings config730one .CAEN_DGTZ_SW_CONTROLLED)
        (Calibrate_DC_Offset (constantDevice 100) 20 config730one board730).calls).SelfTrigger 0
          = .CAEN_DGTZ_TRGMODE_ACQ_ONLY := by
  refine ⟨by decide, rfl, by decide, rfl, by decide, rfl, by decide, rfl, by decide, rfl,
    by decide, by decide, by decide, by decide, by decide⟩

/-- C14, counterexample. On an x742 board, group 0 is in Legacy mode (`Version_used = 0`)
with the configured code `WDcfg->DCoffset[0] = 32767`, and the code `1000` is configured
for its channel 0 in `DCoffsetGrpCh[0][0]`. `Set_calibrated_DCO` does nothing, but
`ProgramDigitizer` writes `1000` to channel 0 and `32767` to channel 1: the DAC code of
channel 0 is not `WDcfg->DCoffset[0]`. -/
theorem programDCOffset_group_channel_code :
    config742legacy.Version_used 0 = 0 ∧
      config742legacy.DCoffset 0 = 32767 ∧
      (Set_calibrated_DCO (fun _ => 50) 0 0 config742legacy board742).map
        (fun r => r.calls.length) = some 0 ∧
      (programDCOffset (fun _ => 50) 0 0 config742legacy board742).map
        (fun r => (settingsAfter (programmedSettings config742legacy .CAEN_DGTZ_SW_CONTROLLED)
          r.calls).DCOffset 0) = some 1000 ∧
      (programDCOffset (fun _ => 50) 0 0 config742legacy board742).map
        (fun r => (settingsAfter (programmedSettings config742legacy .CAEN_DGTZ_SW_CONTROLLED)
          r.calls).DCOffset 1) = some 32767 := by
  refine ⟨rfl, rfl, rfl, ?_, ?_⟩ <;> decide

/-- C14, amended. Legacy bypass: for a unit with `Version_used[ch] == 0`, whatever the
stored model, the request and the polarity, `Set_calibrated_DCO` returns
`CAEN_DGTZ_Success` with the configuration unchanged and without any library call.
`ProgramDigitizer` leaves the configuration as it is; on every board but the x742 ones it
programs the unit by one write of the directly configured `WDcfg->DCoffset[ch]`, which is
then the DAC code of the device; on an x742 board, where `Version_used` is not read, it
writes to each of the eight channels of the group its configured code
`DCoffsetGrpCh[ch][j]`, or `WDcfg->DCoffset[ch]` when that is `-1`. -/
theorem Set_calibrated_DCO_legacy (dc_file : Nat → Int) (setRet : Int) (ch : Nat)
    (WDcfg : WaveDumpConfig_t) (BoardInfo : CAEN_DGTZ_BoardInfo_t) (d : DeviceSettings)
    (hv : WDcfg.Version_used ch = 0) :
    Set_calibrated_DCO dc_file setRet ch WDcfg BoardInfo =
        some { WDcfg := WDcfg, calls := [], ret := 0 } ∧
      (programDCOffset dc_file setRet ch WDcfg BoardInfo).map (fun r => r.WDcfg) = some WDcfg ∧
      (BoardInfo.FamilyCode ≠ .CAEN_DGTZ_XX742_FAMILY_CODE →
        (programDCOffset dc_file setRet ch WDcfg BoardInfo).map
          (fun r => (settingsAfter d r.calls).DCOffset ch) = some (WDcfg.DCoffset ch) ∧
        ((programDCOffset dc_file setRet ch WDcfg BoardInfo).map (fun r => r.calls) =
            some [HwCall.SetChannelDCOffset ch (WDcfg.DCoffset ch)] ∨
          (programDCOffset dc_file setRet ch WDcfg BoardInfo).map (fun r => r.calls) =
            some [HwCall.SetGroupDCOffset ch (WDcfg.DCoffset ch)])) ∧
      (BoardInfo.FamilyCode = .CAEN_DGTZ_XX742_FAMILY_CODE →
        (programDCOffset dc_file setRet ch WDcfg BoardInfo).map (fun r => r.calls) =
          some ((List.range 8).map fun j =>
            HwCall.SetChannelDCOffset (ch * 8 + j)
              (if WDcfg.DCoffsetGrpCh ch j ≠ -1 then intToUInt32 (WDcfg.DCoffsetGrpCh ch j)
                else WDcfg.DCoffset ch))) := by
  have h1 : ¬ WDcfg.Version_used ch = 1 := by omega
  refine ⟨?_, ?_, ?_, ?_⟩
  · unfold Set_calibrated_DCO
    rw [if_pos hv]
  · unfold programDCOffset
    rw [if_neg h1]
    split_ifs <;> rfl
  · intro hf
    unfold programDCOffset
    rw [if_neg hf, if_neg h1]
    constructor
    · split_ifs <;> simp [settingsAfter, DeviceSettings.after]
    · split_ifs
      · exact Or.inr rfl
      · exact Or.inl rfl
  · intro hf
    unfold programDCOffset
    rw [if_pos hf, Option.map_some']
    congr 1
    apply List.map_congr_left
    intro j _
    split_ifs <;> rfl

/-- The amended C14 on a two-channel x730 board in Legacy mode with the configured code
`32767`, whatever the request; on an x742 board the eight channels of group 0 are
written. -/
theorem Set_calibrated_DCO_legacy_witness :
    (Set_calibrated_DCO (fun _ => 50) 0 0 { config730 with Version_used := fun _ => 0 }
        board730).map (fun r => (r.WDcfg.DCoffset 0, r.calls.length, r.ret)) =
        some (32767, 0, 0) ∧
      (programDCOffset (fun _ => 50) 0 0 { config730 with Version_used := fun _ => 0 }
        board730).map (fun r => (settingsAfter (programmedSettings config730
          .CAEN_DGTZ_SW_CONTROLLED) r.calls).DCOffset 0) = some 32767 ∧
      (programDCOffset (fun _ => 50) 0 0 { config730 with Version_used := fun _ => 0 }
        { board730 with FamilyCode := .CAEN_DGTZ_XX742_FAMILY_CODE }).map
          (fun r => r.calls.length) = some 8 := by
  have h := Set_calibrated_DCO_legacy (fun _ => 50) 0 0
    { config730 with Version_used := fun _ => 0 } board730
    (programmedSettings config730 .CAEN_DGTZ_SW_CONTROLLED) rfl
  have h2 := Set_calibrated_DCO_legacy (fun _ => 50) 0 0
    { config730 with Version_used := fun _ => 0 }
    { board730 with FamilyCode := .CAEN_DGTZ_XX742_FAMILY_CODE }
    (programmedSettings config730 .CAEN_DGTZ_SW_CONTROLLED) rfl
  refine ⟨?_, ?_, ?_⟩
  · rw [h.1]; rfl
  · rw [(h.2.2.1 (by decide)).1]; rfl
  · have h3 := congrArg (Option.map List.length) (h2.2.2.2 rfl)
    rw [Option.map_map] at h3
    rw [show (fun r : DCOResult => r.calls.length) = List.length ∘ (fun r => r.calls) from rfl, h3]
    rfl

/-- C15, the code at a failing input. On a two-channel x730 board with no self triggered
event and a software triggered event of samples `8000`, with `thr_file = 50`: the threshold
assignment of the software trigger pass is outside the test on the unit, so channel 1,
which is disabled (`EnableMask = 1`), gets `WDcfg->Threshold[1] = 0 + 50` in place of the
configured `100` and a threshold write to the device; the same happens to channel 1 when
it is enabled but in Legacy mode. After a self triggered event, where the assignment is
inside the test, channel 1 keeps its threshold and gets no write. -/
theorem Set_relative_Threshold_touches_other_units :
    usesBaselineShift config730one 1 = false ∧ config730one.Threshold 1 = 100 ∧
      (Set_relative_Threshold (thresholdDevice 0 1 8000) (fun _ => 50) config730one
        board730).map (fun r => r.WDcfg.Threshold 1) = some 50 ∧
      (Set_relative_Threshold (thresholdDevice 0 1 8000) (fun _ => 50) config730one
        board730).map (fun r => r.calls.any (HwCall.isThresholdWrite 1)) = some true ∧
      (Set_relative_Threshold (thresholdDevice 0 1 8000) (fun _ => 50) config730one
        board730).map (fun r => (settingsAfter
          (programmedSettings config730one .CAEN_DGTZ_SW_CONTROLLED) r.calls).TriggerThreshold 1)
        = some 50 ∧
      usesBaselineShift config730legacy 1 = false ∧
      (Set_relative_Threshold (thresholdDevice 0 1 8000) (fun _ => 50) config730legacy
        board730).map (fun r => r.WDcfg.Threshold 1) = some 50 ∧
      (Set_relative_Threshold (thresholdDevice 0 1 8000) (fun _ => 50) config730legacy
        board730).map (fun r => r.calls.any (HwCall.isThresholdWrite 1)) = some true ∧
      (Set_relative_Threshold (thresholdDevice 1 1 8000) (fun _ => 50) config730one
        board730).map (fun r => r.WDcfg.Threshold 1) = some 100 ∧
      (Set_relative_Threshold (thresholdDevice 1 1 8000) (fun _ => 50) config730one
        board730).map (fun r => r.calls.any (HwCall.isThresholdWrite 1)) = some false := by
  refine ⟨by decide, rfl, by decide, by decide, by decide, by decide, by decide, by decide,
    by decide, by decide⟩

theorem shouldStart_eq_false {WDcfg : WaveDumpConfig_t} {BoardInfo : CAEN_DGTZ_BoardInfo_t}
    (h : ∀ ch, ch < BoardInfo.Channels →
      ¬ (WDcfg.EnableMask &&& (1 <<< ch) ≠ 0 ∧ WDcfg.Version_used ch = 1)) :
    shouldStart WDcfg BoardInfo = false := by
  unfold shouldStart
  rw [List.any_eq_false]
  intro ch hch
  have := h ch (List.mem_range.mp hch)
  unfold usesBaselineShift
  simpa using this

/-- C16. Resolver precondition: when no unit below `BoardInfo.Channels` is both enabled in
`EnableMask` and in Calibrated mode, `Set_relative_Threshold` returns at once: it makes no
library call and leaves the configuration unchanged. -/
theorem Set_relative_Threshold_skips (dev : ThresholdDevice) (thr_file : Nat → Int)
    (WDcfg : WaveDumpConfig_t) (BoardInfo : CAEN_DGTZ_BoardInfo_t)
    (h : ∀ ch, ch < BoardInfo.Channels →
      ¬ (WDcfg.EnableMask &&& (1 <<< ch) ≠ 0 ∧ WDcfg.Version_used ch = 1)) :
    Set_relative_Threshold dev thr_file WDcfg BoardInfo =
      some { WDcfg := WDcfg, calls := [], ErrCode := .ERR_NONE } := by
  unfold Set_relative_Threshold
  rw [if_pos (shouldStart_eq_false h)]

/-- The precondition of C16 on a two-channel board whose units are all in Legacy mode: no
call is made and the thresholds are those of the configuration. -/
theorem Set_relative_Threshold_skips_witness :
    (Set_relative_Threshold (thresholdDevice 1 1 8000) (fun _ => 50)
        { config730 with Version_used := fun _ => 0 } board730).map
      (fun r => (r.calls.length, r.WDcfg.Threshold 0, r.WDcfg.Threshold 1)) =
      some (0, 100, 100) := by
  rw [Set_relative_Threshold_skips (thresholdDevice 1 1 8000) (fun _ => 50)
    { config730 with Version_used := fun _ => 0 } board730 (by decide)]
  rfl

/-- C17, the code at a failing input. On a two-channel x730 board configured with the post
trigger size `80`: when neither the self triggered read nor the software triggered read
returns data, `Set_relative_Threshold` returns right after the second read, and when the
first read fails it jumps to `QuitProgram` with `ERR_READOUT`; on both paths the post
trigger size of the device is left at `50` and the acquisition is left started. The run
that completes restores `80` and stops the acquisition. -/
theorem Set_relative_Threshold_exit_skips_restore :
    (Set_relative_Threshold (thresholdDevice 0 0 8000) (fun _ => 50) config730post
        board730).map (fun r => r.ErrCode) = some .ERR_NONE ∧
      (Set_relative_Threshold (thresholdDevice 0 0 8000) (fun _ => 50) config730post
        board730).map (fun r => (settingsAfter
          (programmedSettings config730post .CAEN_DGTZ_SW_CONTROLLED) r.calls).PostTriggerSize)
        = some 50 ∧
      (Set_relative_Threshold (thresholdDevice 0 0 8000) (fun _ => 50) config730post
        board730).map (fun r => (settingsAfter
          (programmedSettings config730post .CAEN_DGTZ_SW_CONTROLLED) r.calls).acquiring)
        = some true ∧
      (Set_relative_Threshold { thresholdDevice 0 0 8000 with ReadData := fun _ => -2 }
        (fun _ => 50) config730post board730).map (fun r => r.ErrCode) = some .ERR_READOUT ∧
      (Set_relative_Threshold { thresholdDevice 0 0 8000 with ReadData := fun _ => -2 }
        (fun _ => 50) config730post board730).map (fun r => (settingsAfter
          (programmedSettings config730post .CAEN_DGTZ_SW_CONTROLLED) r.calls).PostTriggerSize)
        = some 50 ∧
      (Set_relative_Threshold { thresholdDevice 0 0 8000 with ReadData := fun _ => -2 }
        (fun _ => 50) config730post board730).map (fun r => (settingsAfter
          (programmedSettings config730post .CAEN_DGTZ_SW_CONTROLLED) r.calls).acquiring)
        = some true ∧
      config730post.PostTrigger = 80 ∧
      (Set_relative_Threshold (thresholdDevice 1 1 8000) (fun _ => 50) config730post
        board730).map (fun r => (settingsAfter
          (programmedSettings config730post .CAEN_DGTZ_SW_CONTROLLED) r.calls).PostTriggerSize)
        = some 80 ∧
      (Set_relative_Threshold (thresholdDevice 1 1 8000) (fun _ => 50) config730post
        board730).map (fun r => (settingsAfter
          (programmedSettings config730post .CAEN_DGTZ_SW_CONTROLLED) r.calls).acquiring)
        = some false := by
  refine ⟨by decide, by decide, by decide, by decide, by decide, by decide, rfl, by decide,
    by decide⟩

/-! ## The passes of `Set_relative_Threshold` -/

theorem settingsAfter_append (d : DeviceSettings) (a b : List HwCall) :
    settingsAfter d (a ++ b) = settingsAfter (settingsAfter d a) b := by
  simp [settingsAfter, List.foldl_append]

theorem settingsAfter_nil (d : DeviceSettings) : settingsAfter d [] = d := rfl

theorem settingsAfter_cons (d : DeviceSettings) (c : HwCall) (l : List HwCall) :
    settingsAfter d (c :: l) = settingsAfter (d.after c) l := rfl

theorem sameButThreshold.same (W : WaveDumpConfig_t) : sameButThreshold W W := rfl

theorem sameButThreshold.chain {W W1 W2 : WaveDumpConfig_t} (h1 : sameButThreshold W W1)
    (h2 : sameButThreshold W1 W2) : sameButThreshold W W2 := by
  unfold sameButThreshold at *
  rw [h2, h1]

theorem sameButThreshold.uses {W W1 : WaveDumpConfig_t} (h : sameButThreshold W W1) (c : Nat) :
    usesBaselineShift W1 c = usesBaselineShift W c := by
  unfold sameButThreshold at h
  unfold usesBaselineShift
  rw [h]

theorem sameButThreshold.polarity {W W1 : WaveDumpConfig_t} (h : sameButThreshold W W1)
    (c : Nat) : W1.PulsePolarity c = W.PulsePolarity c := by
  unfold sameButThreshold at h
  rw [h]

theorem sameButThreshold.nbit {W W1 : WaveDumpConfig_t} (h : sameButThreshold W W1) :
    W1.Nbit = W.Nbit := by
  unfold sameButThreshold at h
  rw [h]

theorem sameButThreshold.postTrigger {W W1 : WaveDumpConfig_t} (h : sameButThreshold W W1) :
    W1.PostTrigger = W.PostTrigger := by
  unfold sameButThreshold at h
  rw [h]

/-- The threshold assignment changes the entry `ch` of `Threshold` and nothing else of the
configuration, and makes one threshold write, for unit `ch`. -/
theorem setThreshold_frame (thr_file : Nat → Int) (WDcfg : WaveDumpConfig_t)
    (BoardInfo : CAEN_DGTZ_BoardInfo_t) (baseline : Nat → Int) (ch : Nat) :
    sameButThreshold WDcfg (setThreshold thr_file WDcfg BoardInfo baseline ch).1 ∧
      (∀ c, c ≠ ch →
        (setThreshold thr_file WDcfg BoardInfo baseline ch).1.Threshold c = WDcfg.Threshold c) ∧
      (∀ d : DeviceSettings,
        (settingsAfter d (setThreshold thr_file WDcfg BoardInfo baseline ch).2).TriggerThreshold =
          Function.update d.TriggerThreshold ch
            ((setThreshold thr_file WDcfg BoardInfo baseline ch).1.Threshold ch)) := by
  unfold setThreshold
  by_cases hf : BoardInfo.FamilyCode = .CAEN_DGTZ_XX740_FAMILY_CODE
  · simp only [hf, if_true]
    refine ⟨rfl, ?_, ?_⟩
    · intro c hc
      simp [Function.update_noteq hc]
    · intro d
      simp [settingsAfter, DeviceSettings.after]
  · simp only [hf, if_false]
    refine ⟨rfl, ?_, ?_⟩
    · intro c hc
      simp [Function.update_noteq hc]
    · intro d
      simp [settingsAfter, DeviceSettings.after]

/-- The threshold given to unit `ch` depends on the configuration only through the polarity
of the unit, and on the baselines only through `baseline[ch]`. -/
theorem setThreshold_congr (thr_file : Nat → Int) (W W1 : WaveDumpConfig_t)
    (BoardInfo : CAEN_DGTZ_BoardInfo_t) (b b1 : Nat → Int) (ch : Nat)
    (hp : W1.PulsePolarity ch = W.PulsePolarity ch) (hb : b1 ch = b ch) :
    (setThreshold thr_file W1 BoardInfo b1 ch).1.Threshold ch =
      (setThreshold thr_file W BoardInfo b ch).1.Threshold ch := by
  rw [(setThreshold_eq thr_file W1 BoardInfo b1 ch _ rfl).1,
    (setThreshold_eq thr_file W BoardInfo b ch _ rfl).1, hp, hb]

theorem keepsUnit.self (ch : Nat) (s : ResolverState) : keepsUnit ch s s :=
  ⟨rfl, rfl, rfl, id, id, fun _ => rfl⟩

theorem keepsUnit.compose {ch : Nat} {s s1 s2 : ResolverState} (h1 : keepsUnit ch s s1)
    (h2 : keepsUnit ch s1 s2) : keepsUnit ch s s2 :=
  ⟨h1.1.chain h2.1, h2.2.1.trans h1.2.1, h2.2.2.1.trans h1.2.2.1,
    fun h => h2.2.2.2.1 (h1.2.2.2.1 h), fun h => h2.2.2.2.2.1 (h1.2.2.2.2.1 h),
    fun d => (h2.2.2.2.2.2 d).trans (h1.2.2.2.2.2 d)⟩

/-- The loop over the exploratory thresholds completes when its calls succeed, and leaves
the device with the exploratory threshold of every unit it handles. -/
theorem customThreshold_loop (dev : ThresholdDevice) (WDcfg : WaveDumpConfig_t)
    (BoardInfo : CAEN_DGTZ_BoardInfo_t) (idx : List Nat)
    (h : ∀ c ∈ idx, usesBaselineShift WDcfg c = true →
      dev.GetDCOffset c = 0 ∧ dev.SetTriggerThreshold c = 0) :
    ∃ calls, Flow.forEach (customThresholdStep dev WDcfg BoardInfo) idx () = .next () calls ∧
      ∀ (d : DeviceSettings) (c : Nat), (settingsAfter d calls).TriggerThreshold c =
        if c ∈ idx ∧ usesBaselineShift WDcfg c = true then customThreshold dev WDcfg BoardInfo c
        else d.TriggerThreshold c := by
  induction idx with
  | nil => exact ⟨[], rfl, by intro d c; simp [settingsAfter]⟩
  | cons i idx ih =>
    obtain ⟨calls, hc, hthr⟩ := ih (fun c hc => h c (List.mem_cons_of_mem _ hc))
    by_cases hu : usesBaselineShift WDcfg i = true
    · obtain ⟨hg, hs⟩ := h i (List.mem_cons_self _ _) hu
      have hstep : ∃ c1, customThresholdStep dev WDcfg BoardInfo () i = .next () c1 ∧
          ∀ d : DeviceSettings, (settingsAfter d c1).TriggerThreshold =
            Function.update d.TriggerThreshold i (customThreshold dev WDcfg BoardInfo i) := by
        unfold customThresholdStep
        simp only [hu, if_true, hg, hs, ne_eq, not_true_eq_false, if_false]
        refine ⟨_, rfl, ?_⟩
        intro d
        by_cases hf : BoardInfo.FamilyCode = .CAEN_DGTZ_XX740_FAMILY_CODE
        · simp [hf, settingsAfter, DeviceSettings.after]
        · simp [hf, settingsAfter, DeviceSettings.after]
      obtain ⟨c1, hc1, hd1⟩ := hstep
      refine ⟨c1 ++ calls, ?_, ?_⟩
      · simp only [Flow.forEach, hc1, Flow.andThen, hc]
      · intro d c
        rw [settingsAfter_append, hthr, hd1]
        by_cases hci : c = i
        · subst hci
          simp [hu]
        · simp [hci, Function.update_noteq hci]
    · have hstep : customThresholdStep dev WDcfg BoardInfo () i = .next () [] := by
        unfold customThresholdStep
        simp only [hu]
        rfl
      refine ⟨calls, ?_, ?_⟩
      · simp only [Flow.forEach, hstep, Flow.andThen, hc, List.nil_append]
      · intro d c
        rw [hthr]
        by_cases hci : c = i
        · subst hci
          simp [hu]
        · simp [hci]

/-- One pass of the self triggered loop leaves a unit without samples as it was, and flags
it for the software trigger when the pass is its own. -/
theorem selfTriggerStep_keeps (dev : ThresholdDevice) (thr_file : Nat → Int)
    (BoardInfo : CAEN_DGTZ_BoardInfo_t) (s : ResolverState) (c ch : Nat)
    (hdiv : usesBaselineShift s.WDcfg c = true →
      u32ToInt (dev.ChSize 0 (eventChannel BoardInfo c)) ≠ 0 →
        preTriggerSamples (u32ToInt (dev.ChSize 0 (eventChannel BoardInfo c))) ≠ 0)
    (hch : c = ch → usesBaselineShift s.WDcfg c = true ∧
      u32ToInt (dev.ChSize 0 (eventChannel BoardInfo c)) = 0) :
    ∃ s1, selfTriggerStep dev thr_file BoardInfo s c = some s1 ∧ keepsUnit ch s s1 ∧
      (c = ch → s1.no_self_triggered_event ch ≠ 0 ∧ s1.sw_trigger_needed ≠ 0) := by
  unfold selfTriggerStep
  by_cases hu : usesBaselineShift s.WDcfg c = true
  · simp only [hu, if_true]
    by_cases hz : u32ToInt (dev.ChSize 0 (eventChannel BoardInfo c)) = 0
    · simp only [hz, if_true]
      refine ⟨_, rfl, ⟨rfl, rfl, rfl, ?_, ?_, fun d => rfl⟩, ?_⟩
      · intro h
        by_cases hc : ch = c
        · subst hc
          simp
        · simpa [Function.update_noteq hc] using h
      · intro _
        simp
      · intro hc
        subst hc
        simp
    · have hc : ch ≠ c := fun h => hz (hch h.symm).2
      obtain ⟨hf, ho, hd⟩ := setThreshold_frame thr_file s.WDcfg BoardInfo
        (Function.update s.baseline c
          (Int.tdiv ((List.range (preTriggerSamples
            (u32ToInt (dev.ChSize 0 (eventChannel BoardInfo c)))).toNat).foldl
              (fun acc i => acc + sampleInt s.WDcfg.Nbit
                (dev.DataChannel 0 (eventChannel BoardInfo c) i)) (s.baseline c))
            (preTriggerSamples (u32ToInt (dev.ChSize 0 (eventChannel BoardInfo c)))))) c
      simp only [hz, if_false, hdiv hu hz]
      refine ⟨_, rfl, ⟨hf, ho ch hc, ?_, id, id, ?_⟩, fun h => absurd h.symm hc⟩
      · simp [Function.update_noteq hc]
      · intro d
        simp only [settingsAfter_append, hd]
        simp [Function.update_noteq hc]
  · simp only [hu]
    exact ⟨s, rfl, keepsUnit.self ch s, fun h => absurd (hch h).1 hu⟩

/-- The self triggered loop over a list of units completes when it divides by no zero,
leaves a unit without samples as it was, and flags it when it is in the list. -/
theorem selfTriggerLoop_keeps (dev : ThresholdDevice) (thr_file : Nat → Int)
    (WDcfg : WaveDumpConfig_t) (BoardInfo : CAEN_DGTZ_BoardInfo_t) (ch : Nat)
    (hu : usesBaselineShift WDcfg ch = true)
    (hz : u32ToInt (dev.ChSize 0 (eventChannel BoardInfo ch)) = 0) (idx : List Nat)
    (hdiv : ∀ c ∈ idx, usesBaselineShift WDcfg c = true →
      u32ToInt (dev.ChSize 0 (eventChannel BoardInfo c)) ≠ 0 →
        preTriggerSamples (u32ToInt (dev.ChSize 0 (eventChannel BoardInfo c))) ≠ 0)
    (s : ResolverState) (hs : sameButThreshold WDcfg s.WDcfg) :
    ∃ s1, idx.foldlM (selfTriggerStep dev thr_file BoardInfo) s = some s1 ∧ keepsUnit ch s s1 ∧
      (ch ∈ idx → s1.no_self_triggered_event ch ≠ 0 ∧ s1.sw_trigger_needed ≠ 0) := by
  induction idx generalizing s with
  | nil => exact ⟨s, rfl, keepsUnit.self ch s, by simp⟩
  | cons c idx ih =>
    obtain ⟨s1, h1, hk1, hf1⟩ := selfTriggerStep_keeps dev thr_file BoardInfo s c ch
      (by rw [hs.uses]; exact hdiv c (List.mem_cons_self _ _))
      (by
        intro hc
        subst hc
        rw [hs.uses]
        exact ⟨hu, hz⟩)
    obtain ⟨s2, h2, hk2, hf2⟩ := ih (fun c hc => hdiv c (List.mem_cons_of_mem _ hc)) s1
      (hs.chain hk1.1)
    refine ⟨s2, ?_, hk1.compose hk2, ?_⟩
    · simp only [List.foldlM_cons, h1, Option.bind_eq_bind, Option.some_bind, h2]
    · intro hmem
      rcases List.mem_cons.1 hmem with hc | hc
      · obtain ⟨ha, hb⟩ := hf1 hc.symm
        exact ⟨hk2.2.2.2.1 ha, hk2.2.2.2.2.1 hb⟩
      · exact hf2 hc

/-- The part of the function after the first read completes for a unit without samples in
the self triggered event, leaves the unit as it was, and flags it for the software
trigger. -/
theorem selfTriggerPass_keeps (dev : ThresholdDevice) (thr_file : Nat → Int)
    (WDcfg : WaveDumpConfig_t) (BoardInfo : CAEN_DGTZ_BoardInfo_t) (ch : Nat)
    (hch : ch < BoardInfo.Channels) (hu : usesBaselineShift WDcfg ch = true)
    (hn : noSelfTriggeredSamples dev BoardInfo ch)
    (hdiv : selfTriggerDefined dev WDcfg BoardInfo)
    (s : ResolverState) (hs : sameButThreshold WDcfg s.WDcfg) :
    ∃ s1, selfTriggerPass dev thr_file BoardInfo s = some (.next s1) ∧ keepsUnit ch s s1 ∧
      s1.no_self_triggered_event ch ≠ 0 ∧ s1.sw_trigger_needed ≠ 0 := by
  unfold selfTriggerPass
  by_cases hb : dev.BufferSize 0 > 0
  · rcases hn with h0 | ⟨hg, hd, hz⟩
    · omega
    · simp only [hb, if_true, hg, hd, ne_eq, not_true_eq_false, if_false]
      have hk0 : keepsUnit ch s { s with calls := s.calls ++ [.GetEventInfo, .DecodeEvent] } :=
        ⟨rfl, rfl, rfl, id, id, fun d => by simp [settingsAfter, DeviceSettings.after]⟩
      obtain ⟨s1, h1, hk1, hf1⟩ := selfTriggerLoop_keeps dev thr_file WDcfg BoardInfo ch hu hz
        (List.range BoardInfo.Channels)
        (fun c hc => hdiv c (List.mem_range.1 hc))
        { s with calls := s.calls ++ [.GetEventInfo, .DecodeEvent] } hs
      obtain ⟨ha, hb⟩ := hf1 (List.mem_range.2 hch)
      exact ⟨s1, by rw [h1]; rfl, hk0.compose hk1, ha, hb⟩
  · simp only [hb, if_false]
    refine ⟨_, rfl, ⟨rfl, rfl, rfl, ?_, ?_, fun d => rfl⟩, ?_, ?_⟩
    · intro _
      simp [hch]
    · intro _
      simp
    · simp [hch]
    · simp

/-- One pass of the software triggered loop over another unit leaves unit `ch` as it
was. -/
theorem swTriggerStep_keeps (dev : ThresholdDevice) (thr_file : Nat → Int)
    (BoardInfo : CAEN_DGTZ_BoardInfo_t) (s : ResolverState) (c ch : Nat) (hc : ch ≠ c) :
    keepsUnit ch s (swTriggerStep dev thr_file BoardInfo s c) := by
  unfold swTriggerStep
  by_cases h : usesBaselineShift s.WDcfg c = true ∧ s.no_self_triggered_event c = 0
  · simp only [h, and_self, if_true]
    exact keepsUnit.self ch s
  · simp only [h, if_false]
    by_cases hu : usesBaselineShift s.WDcfg c = true
    · simp only [hu, if_true]
      obtain ⟨hf, ho, hd⟩ := setThreshold_frame thr_file s.WDcfg BoardInfo
        (Function.update s.baseline c
          (meanOver10 (s.baseline c) fun i =>
            sampleInt s.WDcfg.Nbit (dev.DataChannel 1 (eventChannel BoardInfo c) i))) c
      refine ⟨hf, ho ch hc, ?_, id, id, ?_⟩
      · simp [Function.update_noteq hc]
      · intro d
        simp only [settingsAfter_append, hd]
        simp [Function.update_noteq hc]
    · simp only [hu, Bool.false_eq_true, if_false]
      obtain ⟨hf, ho, hd⟩ := setThreshold_frame thr_file s.WDcfg BoardInfo s.baseline c
      refine ⟨hf, ho ch hc, rfl, id, id, ?_⟩
      intro d
      simp only [settingsAfter_append]
      rw [hd]
      simp [Function.update_noteq hc]

/-- The pass of the software triggered loop over a flagged unit assigns its threshold
from the mean over 10 samples. -/
theorem swTriggerStep_sets (dev : ThresholdDevice) (thr_file : Nat → Int)
    (BoardInfo : CAEN_DGTZ_BoardInfo_t) (s : ResolverState) (ch : Nat)
    (hu : usesBaselineShift s.WDcfg ch = true) (hf : s.no_self_triggered_event ch ≠ 0) :
    sameButThreshold s.WDcfg (swTriggerStep dev thr_file BoardInfo s ch).WDcfg ∧
      (swTriggerStep dev thr_file BoardInfo s ch).WDcfg.Threshold ch =
        thresholdFor thr_file s.WDcfg BoardInfo
          (meanOver10 (s.baseline ch) fun i =>
            sampleInt s.WDcfg.Nbit (dev.DataChannel 1 (eventChannel BoardInfo ch) i)) ch ∧
      ∀ d : DeviceSettings,
        (settingsAfter d (swTriggerStep dev thr_file BoardInfo s ch).calls).TriggerThreshold ch =
          thresholdFor thr_file s.WDcfg BoardInfo
            (meanOver10 (s.baseline ch) fun i =>
              sampleInt s.WDcfg.Nbit (dev.DataChannel 1 (eventChannel BoardInfo ch) i)) ch := by
  have hT := setThreshold_congr thr_file s.WDcfg s.WDcfg BoardInfo
    (fun _ => meanOver10 (s.baseline ch) fun i =>
      sampleInt s.WDcfg.Nbit (dev.DataChannel 1 (eventChannel BoardInfo ch) i))
    (Function.update s.baseline ch
      (meanOver10 (s.baseline ch) fun i =>
        sampleInt s.WDcfg.Nbit (dev.DataChannel 1 (eventChannel BoardInfo ch) i))) ch rfl
    (by simp)
  obtain ⟨hfr, _, hd⟩ := setThreshold_frame thr_file s.WDcfg BoardInfo
    (Function.update s.baseline ch
      (meanOver10 (s.baseline ch) fun i =>
        sampleInt s.WDcfg.Nbit (dev.DataChannel 1 (eventChannel BoardInfo ch) i))) ch
  unfold swTriggerStep thresholdFor
  simp only [hu, hf, and_false, if_false, if_true, true_and]
  refine ⟨hfr, hT, ?_⟩
  intro d
  simp only [settingsAfter_append, hd, Function.update_same]
  exact hT

/-- The software triggered loop over units other than `ch` leaves unit `ch` as it was. -/
theorem swTriggerLoop_keeps (dev : ThresholdDevice) (thr_file : Nat → Int)
    (BoardInfo : CAEN_DGTZ_BoardInfo_t) (ch : Nat) (idx : List Nat) (hmem : ch ∉ idx)
    (s : ResolverState) :
    keepsUnit ch s (idx.foldl (swTriggerStep dev thr_file BoardInfo) s) := by
  induction idx generalizing s with
  | nil => exact keepsUnit.self ch s
  | cons c idx ih =>
    simp only [List.mem_cons, not_or] at hmem
    exact (swTriggerStep_keeps dev thr_file BoardInfo s c ch hmem.1).compose
      (ih hmem.2 (swTriggerStep dev thr_file BoardInfo s c))

/-- The software triggered loop assigns the threshold of a flagged unit from the mean over
10 samples of its buffer. -/
theorem swTriggerLoop_sets (dev : ThresholdDevice) (thr_file : Nat → Int)
    (WDcfg : WaveDumpConfig_t) (BoardInfo : CAEN_DGTZ_BoardInfo_t) (ch : Nat) (b0 : Int)
    (hu : usesBaselineShift WDcfg ch = true) (idx : List Nat) (hnd : idx.Nodup)
    (hmem : ch ∈ idx) (s : ResolverState) (hs : sameButThreshold WDcfg s.WDcfg)
    (hf : s.no_self_triggered_event ch ≠ 0) (hb : s.baseline ch = b0) :
    (idx.foldl (swTriggerStep dev thr_file BoardInfo) s).WDcfg.Threshold ch =
        thresholdFor thr_file WDcfg BoardInfo
          (meanOver10 b0 fun i =>
            sampleInt WDcfg.Nbit (dev.DataChannel 1 (eventChannel BoardInfo ch) i)) ch ∧
      ∀ d : DeviceSettings,
        (settingsAfter d
            (idx.foldl (swTriggerStep dev thr_file BoardInfo) s).calls).TriggerThreshold ch =
          thresholdFor thr_file WDcfg BoardInfo
            (meanOver10 b0 fun i =>
              sampleInt WDcfg.Nbit (dev.DataChannel 1 (eventChannel BoardInfo ch) i)) ch := by
  induction idx generalizing s with
  | nil => simp at hmem
  | cons c idx ih =>
    have hnd2 := List.nodup_cons.1 hnd
    by_cases hc : ch = c
    · subst hc
      obtain ⟨_, hT, hd⟩ := swTriggerStep_sets dev thr_file BoardInfo s ch
        (by rw [hs.uses]; exact hu) hf
      have hk := swTriggerLoop_keeps dev thr_file BoardInfo ch idx hnd2.1
        (swTriggerStep dev thr_file BoardInfo s ch)
      have hcong : thresholdFor thr_file s.WDcfg BoardInfo
          (meanOver10 (s.baseline ch) fun i =>
            sampleInt s.WDcfg.Nbit (dev.DataChannel 1 (eventChannel BoardInfo ch) i)) ch =
          thresholdFor thr_file WDcfg BoardInfo
            (meanOver10 b0 fun i =>
              sampleInt WDcfg.Nbit (dev.DataChannel 1 (eventChannel BoardInfo ch) i)) ch := by
        unfold thresholdFor
        apply setThreshold_congr
        · exact hs.polarity ch
        · simp only [hb, hs.nbit]
      refine ⟨?_, ?_⟩
      · rw [List.foldl_cons, hk.2.1, hT, hcong]
      · intro d
        rw [List.foldl_cons, hk.2.2.2.2.2 d, hd d, hcong]
    · have hk := swTriggerStep_keeps dev thr_file BoardInfo s c ch hc
      have hmem2 : ch ∈ idx := by
        rcases List.mem_cons.1 hmem with h | h
        · exact absurd h hc
        · exact h
      rw [List.foldl_cons]
      exact ih hnd2.2 hmem2 (swTriggerStep dev thr_file BoardInfo s c) (hs.chain hk.1)
        (hk.2.2.2.1 hf) (hk.2.2.1.trans hb)

theorem shouldStart_of_unit (WDcfg : WaveDumpConfig_t) (BoardInfo : CAEN_DGTZ_BoardInfo_t)
    (ch : Nat) (hch : ch < BoardInfo.Channels) (hu : usesBaselineShift WDcfg ch = true) :
    shouldStart WDcfg BoardInfo = true := by
  unfold shouldStart
  rw [List.any_eq_true]
  exact ⟨ch, List.mem_range.2 hch, hu⟩

/-- A run of `Set_relative_Threshold` for an enabled unit in Calibrated mode without
samples in the self triggered event, when the software triggered read succeeds. With an
empty software triggered buffer the function returns, the entry `Threshold[ch]` is the one
of the entry and the device holds the exploratory threshold of the unit. With a decoded
software triggered event the threshold of the unit, in the configuration and on the
device, is the one assigned for the mean over 10 samples of its buffer. -/
theorem Set_relative_Threshold_fallback_run (dev : ThresholdDevice) (thr_file : Nat → Int)
    (WDcfg : WaveDumpConfig_t) (BoardInfo : CAEN_DGTZ_BoardInfo_t) (ch : Nat)
    (d : DeviceSettings) (hch : ch < BoardInfo.Channels)
    (hu : usesBaselineShift WDcfg ch = true) (hr : dev.reachesReadout WDcfg BoardInfo)
    (hn : noSelfTriggeredSamples dev BoardInfo ch)
    (hdiv : selfTriggerDefined dev WDcfg BoardInfo) (hr1 : dev.ReadData 1 = 0) :
    (dev.BufferSize 1 = 0 →
        ∃ r, Set_relative_Threshold dev thr_file WDcfg BoardInfo = some r ∧
          r.ErrCode = .ERR_NONE ∧ r.WDcfg.Threshold ch = WDcfg.Threshold ch ∧
          (settingsAfter d r.calls).TriggerThreshold ch =
            customThreshold dev WDcfg BoardInfo ch) ∧
      (dev.BufferSize 1 ≠ 0 → dev.GetEventInfo 1 = 0 → dev.DecodeEvent 1 = 0 →
        ∃ r, Set_relative_Threshold dev thr_file WDcfg BoardInfo = some r ∧
          r.ErrCode = .ERR_NONE ∧
          r.WDcfg.Threshold ch =
            thresholdFor thr_file WDcfg BoardInfo (fallbackBaseline dev WDcfg BoardInfo ch) ch ∧
          (settingsAfter d r.calls).TriggerThreshold ch =
            thresholdFor thr_file WDcfg BoardInfo
              (fallbackBaseline dev WDcfg BoardInfo ch) ch) := by
  obtain ⟨hm, ha, hp, hc, hr0⟩ := hr
  obtain ⟨calls, hloop, hthr⟩ := customThreshold_loop dev WDcfg BoardInfo
    (List.range BoardInfo.Channels) (fun c hc1 => hc c (List.mem_range.1 hc1))
  obtain ⟨s1, h1, hk, hf, hsw⟩ := selfTriggerPass_keeps dev thr_file WDcfg BoardInfo ch hch hu
    hn hdiv
    { WDcfg := WDcfg, baseline := fun _ => 0, no_self_triggered_event := fun _ => 0,
      sw_trigger_needed := 0,
      calls := resolverSetup ++ calls ++ [.SWStartAcquisition, .ReadData] } rfl
  have hstart := shouldStart_of_unit WDcfg BoardInfo ch hch hu
  have hdev1 : ∀ d : DeviceSettings, (settingsAfter d s1.calls).TriggerThreshold ch =
      customThreshold dev WDcfg BoardInfo ch := by
    intro d
    rw [hk.2.2.2.2.2 d]
    simp only [settingsAfter_append]
    have h2 : ∀ e : DeviceSettings,
        (settingsAfter e [HwCall.SWStartAcquisition, HwCall.ReadData]).TriggerThreshold =
          e.TriggerThreshold := fun e => rfl
    rw [h2, hthr]
    simp [hch, hu]
  constructor
  · intro hb
    have hpass : swTriggerPass dev thr_file BoardInfo
        { s1 with calls := s1.calls ++ [.ClearData] } =
        .quit
          { WDcfg := s1.WDcfg
            calls := s1.calls ++ [.ClearData] ++ [.SendSWtrigger, .ReadData]
            ErrCode := .ERR_NONE } := by
      unfold swTriggerPass
      simp only [hsw, ne_eq, not_false_eq_true, if_true, hr1, not_true_eq_false, if_false, hb]
    unfold Set_relative_Threshold
    simp only [hstart, Bool.true_eq_false, if_false, hm, ha, hp, ne_eq, not_true_eq_false, hloop,
      hr0, h1, Option.map_some', hpass]
    refine ⟨_, rfl, rfl, hk.2.1, ?_⟩
    simp only [settingsAfter_append]
    have h2 : ∀ e : DeviceSettings,
        (settingsAfter (settingsAfter e [HwCall.ClearData])
          [HwCall.SendSWtrigger, HwCall.ReadData]).TriggerThreshold =
          e.TriggerThreshold := fun e => rfl
    rw [h2, hdev1]
  · intro hb hg hd
    have hpass : swTriggerPass dev thr_file BoardInfo
        { s1 with calls := s1.calls ++ [.ClearData] } =
        .next ((List.range BoardInfo.Channels).foldl (swTriggerStep dev thr_file BoardInfo)
          { s1 with
            calls := s1.calls ++ [.ClearData] ++
              [.SendSWtrigger, .ReadData, .GetEventInfo, .DecodeEvent] }) := by
      unfold swTriggerPass
      simp only [hsw, ne_eq, not_false_eq_true, if_true, hr1, not_true_eq_false, if_false, hb,
        hg, hd]
    obtain ⟨hT, hD⟩ := swTriggerLoop_sets dev thr_file WDcfg BoardInfo ch 0 hu
      (List.range BoardInfo.Channels) (List.nodup_range _) (List.mem_range.2 hch)
      { s1 with
        calls := s1.calls ++ [.ClearData] ++
          [.SendSWtrigger, .ReadData, .GetEventInfo, .DecodeEvent] }
      hk.1 hf hk.2.2.1
    unfold Set_relative_Threshold
    simp only [hstart, Bool.true_eq_false, if_false, hm, ha, hp, ne_eq, not_true_eq_false, hloop,
      hr0, h1, Option.map_some', hpass]
    refine ⟨_, rfl, rfl, hT, ?_⟩
    simp only [settingsAfter_append]
    have h2 : ∀ (e : DeviceSettings) (n : Nat),
        (settingsAfter e [HwCall.SWStopAcquisition, HwCall.SetPostTriggerSize n,
          HwCall.ClearData, HwCall.FreeReadoutBuffer, HwCall.FreeEvent]).TriggerThreshold =
          e.TriggerThreshold := fun e n => rfl
    rw [h2]
    have hD2 := hD d
    simp only [settingsAfter_append] at hD2
    exact hD2

/-- The mean over 10 samples from the entry `0` is `0` when the ten values read are `0`. -/
theorem meanOver10_zero (sample : Nat → Int) (h : ∀ i, 1 ≤ i → i ≤ 10 → sample i = 0) :
    meanOver10 0 sample = 0 := by
  unfold meanOver10
  simp [List.range_succ, h]

/-- The threshold assigned for the baseline `0`: `min(T, S)` for positive pulses and
`0 ≤ T`, `min(-T, S)` for negative pulses and `T ≤ 0`, with `T = thr_file[ch]` and
`S = 2 ^ ADC_NBits`. -/
theorem thresholdFor_zero (thr_file : Nat → Int) (WDcfg : WaveDumpConfig_t)
    (BoardInfo : CAEN_DGTZ_BoardInfo_t) (ch : Nat) (hn : BoardInfo.ADC_NBits ≤ 30)
    (ht1 : -2 ^ 31 ≤ thr_file ch) (ht2 : thr_file ch < 2 ^ 31) :
    (WDcfg.PulsePolarity ch = .CAEN_DGTZ_PulsePolarityPositive → 0 ≤ thr_file ch →
        ((thresholdFor thr_file WDcfg BoardInfo 0 ch : Nat) : Int) =
          min (thr_file ch) (2 ^ BoardInfo.ADC_NBits)) ∧
      (WDcfg.PulsePolarity ch = .CAEN_DGTZ_PulsePolarityNegative → thr_file ch ≤ 0 →
        ((thresholdFor thr_file WDcfg BoardInfo 0 ch : Nat) : Int) =
          min (-thr_file ch) (2 ^ BoardInfo.ADC_NBits)) := by
  unfold thresholdFor
  constructor
  · intro hp h0
    rw [(setThreshold_eq thr_file WDcfg BoardInfo (fun _ => 0) ch
      (u32add (intToUInt32 0) (intToUInt32 (thr_file ch))) (by rw [hp])).1, Nat.cast_min,
      u32add_int 0 (thr_file ch) (by norm_num) (by norm_num) ht1 ht2 (by omega),
      intToUInt32_adcSize hn, zero_add]
  · intro hp h0
    rw [(setThreshold_eq thr_file WDcfg BoardInfo (fun _ => 0) ch
      (u32sub (intToUInt32 0) (intToUInt32 (thr_file ch))) (by rw [hp])).1, Nat.cast_min,
      u32sub_int 0 (thr_file ch) (by norm_num) (by norm_num) ht1 ht2 (by omega),
      intToUInt32_adcSize hn, zero_sub]

theorem thresholdDevice_reachesReadout (size0 size1 sample : Nat) (WDcfg : WaveDumpConfig_t)
    (BoardInfo : CAEN_DGTZ_BoardInfo_t) :
    (thresholdDevice size0 size1 sample).reachesReadout WDcfg BoardInfo :=
  ⟨rfl, rfl, rfl, fun _ _ _ => ⟨rfl, rfl⟩, rfl⟩

theorem thresholdDevice_selfTriggerDefined (size0 size1 sample : Nat)
    (WDcfg : WaveDumpConfig_t) (BoardInfo : CAEN_DGTZ_BoardInfo_t) :
    selfTriggerDefined (thresholdDevice size0 size1 sample) WDcfg BoardInfo := by
  intro c _ _ _
  show preTriggerSamples (u32ToInt 1024) ≠ 0
  decide

/-- The exploratory threshold for the DC offset code `32767` on a 14-bit ADC with positive
pulses: `dco_percent` is `65535 / 131072` as a `float`, `expected_baseline` is `8192.125`
and the threshold is `8192 + 100`. -/
theorem customThreshold_thresholdDevice (size0 size1 sample : Nat) :
    customThreshold (thresholdDevice size0 size1 sample) config730one board730 0 = 8292 := by
  have h1 : roundBinary 24 (-126) (((32767 % 2 ^ 32 : Nat) : ℚ)) = (32767 : ℚ) := by
    rw [show (((32767 % 2 ^ 32 : Nat) : ℚ)) = (32767 : ℚ) from by norm_num]
    refine (roundBinary_of_near 24 (-126) _ 14 16776704 (1 / 512 : ℚ) (by norm_num) (by norm_num)
      ?_ ?_ ?_).trans (by norm_num) <;> norm_num [abs_of_pos, abs_of_neg, abs_lt]
  have h2 : roundBinary 53 (-1022) ((32767 : ℚ) / 65535) = (281470681677823 / 562949953421312 : ℚ) := by
    rw [show ((32767 : ℚ) / 65535) = (32767 / 65535 : ℚ) from by norm_num]
    refine (roundBinary_of_near 53 (-1022) _ (-2) 9007061813690336 (1 / 18014398509481984 : ℚ) (by norm_num) (by norm_num)
      ?_ ?_ ?_).trans (by norm_num) <;> norm_num [abs_of_pos, abs_of_neg, abs_lt]
  have h3 : roundBinary 24 (-126) ((281470681677823 / 562949953421312 : ℚ)) = (65535 / 131072 : ℚ) := by
    rw [show ((281470681677823 / 562949953421312 : ℚ)) = (281470681677823 / 562949953421312 : ℚ) from by norm_num]
    refine (roundBinary_of_near 24 (-126) _ (-2) 16776960 (1 / 33554432 : ℚ) (by norm_num) (by norm_num)
      ?_ ?_ ?_).trans (by norm_num) <;> norm_num [abs_of_pos, abs_of_neg, abs_lt]
  have h4 : roundBinary 53 (-1022) (1 - (65535 / 131072 : ℚ)) = (65537 / 131072 : ℚ) := by
    rw [show (1 - (65535 / 131072 : ℚ)) = (65537 / 131072 : ℚ) from by norm_num]
    refine (roundBinary_of_near 53 (-1022) _ (-1) 4503668346847232 (1 / 9007199254740992 : ℚ) (by norm_num) (by norm_num)
      ?_ ?_ ?_).trans (by norm_num) <;> norm_num [abs_of_pos, abs_of_neg, abs_lt]
  have h5 : roundBinary 53 (-1022) ((2 : ℚ) ^ 14 * (65537 / 131072 : ℚ)) = (65537 / 8 : ℚ) := by
    rw [show ((2 : ℚ) ^ 14 * (65537 / 131072 : ℚ)) = (65537 / 8 : ℚ) from by norm_num]
    refine (roundBinary_of_near 53 (-1022) _ 13 4503668346847232 (1 / 549755813888 : ℚ) (by norm_num) (by norm_num)
      ?_ ?_ ?_).trans (by norm_num) <;> norm_num [abs_of_pos, abs_of_neg, abs_lt]
  have h6 : roundBinary 24 (-126) ((65537 / 8 : ℚ)) = (65537 / 8 : ℚ) := by
    rw [show ((65537 / 8 : ℚ)) = (65537 / 8 : ℚ) from by norm_num]
    refine (roundBinary_of_near 24 (-126) _ 13 8388736 (1 / 1024 : ℚ) (by norm_num) (by norm_num)
      ?_ ?_ ?_).trans (by norm_num) <;> norm_num [abs_of_pos, abs_of_neg, abs_lt]
  have h : toUInt32 (65537 / 8 : ℚ) = 8192 := by
    apply toUInt32_of_floor
    · norm_num
    · norm_num
    · norm_num
  show u32add (toUInt32 (roundBinary 24 (-126) (roundBinary 53 (-1022)
    ((2 : ℚ) ^ 14 * roundBinary 53 (-1022) (1 - roundBinary 24 (-126) (roundBinary 53 (-1022)
      (roundBinary 24 (-126) ((32767 % 2 ^ 32 : Nat) : ℚ) / 65535))))))) 100 = 8292
  rw [h1, h2, h3, h4, h5, h6, h]
  decide

/-- C18, counterexample. On a two-channel x730 board with channel 0 enabled, in Calibrated
mode, with positive pulses, the configured threshold `100` and `thr_file = 50`. When
neither read returns data, `Set_relative_Threshold` returns after the software triggered
read with `WDcfg->Threshold[0]` still `100` and the exploratory threshold `8292` as the
value last programmed to the device. When the software triggered event is decoded with
`ChSize == 0` for the unit, the loop does not test `size`: with the values read all `0` the
baseline is `0` and the threshold, in the configuration and on the device, is `0 + 50`. In
neither case is it `0`. -/
theorem Set_relative_Threshold_no_samples_not_zero :
    usesBaselineShift config730one 0 = true ∧ config730one.Threshold 0 = 100 ∧
      (Set_relative_Threshold (thresholdDevice 0 0 0) (fun _ => 50) config730one
        board730).map (fun r => r.ErrCode) = some .ERR_NONE ∧
      (Set_relative_Threshold (thresholdDevice 0 0 0) (fun _ => 50) config730one
        board730).map (fun r => r.WDcfg.Threshold 0) = some 100 ∧
      (Set_relative_Threshold (thresholdDevice 0 0 0) (fun _ => 50) config730one
        board730).map (fun r => (settingsAfter
          (programmedSettings config730one .CAEN_DGTZ_SW_CONTROLLED) r.calls).TriggerThreshold 0)
        = some 8292 ∧
      (Set_relative_Threshold { thresholdDevice 0 1 0 with ChSize := fun _ _ => 0 }
        (fun _ => 50) config730one board730).map (fun r => r.WDcfg.Threshold 0) = some 50 ∧
      (Set_relative_Threshold { thresholdDevice 0 1 0 with ChSize := fun _ _ => 0 }
        (fun _ => 50) config730one board730).map (fun r => (settingsAfter
          (programmedSettings config730one .CAEN_DGTZ_SW_CONTROLLED) r.calls).TriggerThreshold 0)
        = some 50 := by
  refine ⟨by decide, rfl, by decide, by decide, ?_, by decide, by decide⟩
  obtain ⟨r, hrun, _, _, hdev⟩ := (Set_relative_Threshold_fallback_run (thresholdDevice 0 0 0)
    (fun _ => 50) config730one board730 0
    (programmedSettings config730one .CAEN_DGTZ_SW_CONTROLLED) (by decide) (by decide)
    (thresholdDevice_reachesReadout 0 0 0 config730one board730) (Or.inl rfl)
    (thresholdDevice_selfTriggerDefined 0 0 0 config730one board730) rfl).1 rfl
  rw [hrun, Option.map_some', hdev, customThreshold_thresholdDevice]

/-- C18, amended. Never-triggering unit: for an enabled unit `ch` in Calibrated mode that
yields no samples in the self triggered event, on a run whose calls up to the software
triggered read succeed (`thr_file[ch] = T` a C `int`, ADC of at most 30 bits). When the
software triggered read returns an empty buffer, `Set_relative_Threshold` returns without
assigning the threshold: `WDcfg->Threshold[ch]` is the one of the entry. When the software
triggered event is decoded and the ten values read at the offsets `1 .. 10` of the buffer
of the unit are `0`, the baseline is `0` and the threshold stored in `WDcfg->Threshold[ch]`
is also the value last programmed to the device: it is `min(T, S)` for positive pulses and
`0 ≤ T`, and `min(-T, S)` for negative pulses and `T ≤ 0`, with `S = 2 ^ ADC_NBits`. -/
theorem Set_relative_Threshold_never_triggering (dev : ThresholdDevice)
    (thr_file : Nat → Int) (WDcfg : WaveDumpConfig_t) (BoardInfo : CAEN_DGTZ_BoardInfo_t)
    (ch : Nat) (d : DeviceSettings) (hch : ch < BoardInfo.Channels)
    (hu : usesBaselineShift WDcfg ch = true) (hr : dev.reachesReadout WDcfg BoardInfo)
    (hn : noSelfTriggeredSamples dev BoardInfo ch)
    (hdiv : selfTriggerDefined dev WDcfg BoardInfo) (hr1 : dev.ReadData 1 = 0)
    (hbits : BoardInfo.ADC_NBits ≤ 30)
    (ht1 : -2 ^ 31 ≤ thr_file ch) (ht2 : thr_file ch < 2 ^ 31) :
    (dev.BufferSize 1 = 0 →
        ∃ r, Set_relative_Threshold dev thr_file WDcfg BoardInfo = some r ∧
          r.ErrCode = .ERR_NONE ∧ r.WDcfg.Threshold ch = WDcfg.Threshold ch) ∧
      (dev.BufferSize 1 ≠ 0 → dev.GetEventInfo 1 = 0 → dev.DecodeEvent 1 = 0 →
        (∀ i, 1 ≤ i → i ≤ 10 →
          sampleInt WDcfg.Nbit (dev.DataChannel 1 (eventChannel BoardInfo ch) i) = 0) →
        ∃ r, Set_relative_Threshold dev thr_file WDcfg BoardInfo = some r ∧
          r.ErrCode = .ERR_NONE ∧
          (settingsAfter d r.calls).TriggerThreshold ch = r.WDcfg.Threshold ch ∧
          (WDcfg.PulsePolarity ch = .CAEN_DGTZ_PulsePolarityPositive → 0 ≤ thr_file ch →
            ((r.WDcfg.Threshold ch : Nat) : Int) =
              min (thr_file ch) (2 ^ BoardInfo.ADC_NBits)) ∧
          (WDcfg.PulsePolarity ch = .CAEN_DGTZ_PulsePolarityNegative → thr_file ch ≤ 0 →
            ((r.WDcfg.Threshold ch : Nat) : Int) =
              min (-thr_file ch) (2 ^ BoardInfo.ADC_NBits))) := by
  obtain ⟨hA, hB⟩ := Set_relative_Threshold_fallback_run dev thr_file WDcfg BoardInfo ch d hch
    hu hr hn hdiv hr1
  constructor
  · intro hb
    obtain ⟨r, hrun, he, hT, _⟩ := hA hb
    exact ⟨r, hrun, he, hT⟩
  · intro hb hg hd hz
    obtain ⟨r, hrun, he, hT, hD⟩ := hB hb hg hd
    have h0 : fallbackBaseline dev WDcfg BoardInfo ch = 0 := meanOver10_zero _ hz
    rw [h0] at hT hD
    obtain ⟨hpos, hneg⟩ := thresholdFor_zero thr_file WDcfg BoardInfo ch hbits ht1 ht2
    refine ⟨r, hrun, he, hD.trans hT.symm, ?_, ?_⟩
    · intro hp h
      rw [hT]
      exact hpos hp h
    · intro hp h
      rw [hT]
      exact hneg hp h

/-- The amended C18 on a two-channel x730 board with channel 0 enabled, `thr_file = 50` and
the configured threshold `100`: with two empty reads the threshold stays `100`; with a
decoded software triggered event of values `0` it is `50`. -/
theorem Set_relative_Threshold_never_triggering_witness :
    (Set_relative_Threshold (thresholdDevice 0 0 0) (fun _ => 50) config730one
        board730).map (fun r => r.WDcfg.Threshold 0) = some 100 ∧
      (Set_relative_Threshold (thresholdDevice 0 1 0) (fun _ => 50) config730one
        board730).map (fun r => ((r.WDcfg.Threshold 0 : Nat) : Int)) = some 50 := by
  obtain ⟨r, hrun, _, hT⟩ := (Set_relative_Threshold_never_triggering (thresholdDevice 0 0 0)
    (fun _ => 50) config730one board730 0
    (programmedSettings config730one .CAEN_DGTZ_SW_CONTROLLED) (by decide) (by decide)
    (thresholdDevice_reachesReadout 0 0 0 config730one board730) (Or.inl rfl)
    (thresholdDevice_selfTriggerDefined 0 0 0 config730one board730) rfl (by decide)
    (by norm_num) (by norm_num)).1 rfl
  obtain ⟨r2, hrun2, _, _, hT2, _⟩ := (Set_relative_Threshold_never_triggering
    (thresholdDevice 0 1 0) (fun _ => 50) config730one board730 0
    (programmedSettings config730one .CAEN_DGTZ_SW_CONTROLLED) (by decide) (by decide)
    (thresholdDevice_reachesReadout 0 1 0 config730one board730) (Or.inl rfl)
    (thresholdDevice_selfTriggerDefined 0 1 0 config730one board730) rfl (by decide)
    (by norm_num) (by norm_num)).2 (by decide) rfl rfl (fun _ _ _ => rfl)
  refine ⟨?_, ?_⟩
  · rw [hrun, Option.map_some', hT]
    rfl
  · rw [hrun2, Option.map_some', hT2 rfl (by norm_num)]
    rfl

/-- C19, counterexample. On the restart path of `main` with `Restart = 1` and `AcqRun = 1`
(a restart asked while the acquisition is flagged as running), `Set_relative_Threshold` is
invoked with `WDrun.AcqRun = 1`. -/
theorem mainRestart_invokes_with_AcqRun :
    (mainRestart (thresholdDevice 1 1 8000) (fun _ => 50)
        { AcqRun := 1, Restart := 1, GroupPlotSwitch := 0 } config730 board730).map
      (fun r => r.invoked) = some [(Routine.Set_relative_Threshold, 1)] := by
  decide

/-- C19, amended. The keyboard commands invoke the calibration and the threshold
resolution only with `WDrun->AcqRun == 0`: with `AcqRun != 0` the command `s` only stops
the acquisition and the command `D` changes neither the device nor the configuration, and
every invocation they make is made with `AcqRun = 0`. The restart path of `main` invokes
`Set_relative_Threshold` exactly when `WDrun.Restart` and `WDrun.AcqRun` are both non-zero
(on every board family but x742), that is with the flag set, and then starts the
acquisition; otherwise it invokes nothing. -/
theorem commands_gate_on_AcqRun (tdev : ThresholdDevice) (cdev : CalibrationDevice)
    (NACQS : Nat) (dc_file thr_file : Nat → Int) (setRet : Nat → Int) (WDrun : WaveDumpRun_t)
    (WDcfg : WaveDumpConfig_t) (BoardInfo : CAEN_DGTZ_BoardInfo_t) :
    (WDrun.AcqRun ≠ 0 →
        keyStartStop tdev thr_file WDrun WDcfg BoardInfo =
          some { WDrun := { WDrun with AcqRun := 0 }, WDcfg := WDcfg,
                 calls := [.SWStopAcquisition], invoked := [] } ∧
        keyDACCalibration cdev NACQS dc_file setRet WDrun WDcfg BoardInfo =
          some { WDrun := WDrun, WDcfg := WDcfg, calls := [], invoked := [] }) ∧
      (∀ r, keyStartStop tdev thr_file WDrun WDcfg BoardInfo = some r →
        ∀ x, x ∈ r.invoked → x.2 = 0) ∧
      (∀ r, keyDACCalibration cdev NACQS dc_file setRet WDrun WDcfg BoardInfo = some r →
        ∀ x, x ∈ r.invoked → x.2 = 0) ∧
      (¬ (WDrun.Restart ≠ 0 ∧ WDrun.AcqRun ≠ 0) →
        mainRestart tdev thr_file WDrun WDcfg BoardInfo =
          some { WDrun := { WDrun with Restart := 0 }, WDcfg := WDcfg, calls := [],
                 invoked := [] }) ∧
      (WDrun.Restart ≠ 0 ∧ WDrun.AcqRun ≠ 0 →
        BoardInfo.FamilyCode ≠ .CAEN_DGTZ_XX742_FAMILY_CODE →
        mainRestart tdev thr_file WDrun WDcfg BoardInfo =
          (Set_relative_Threshold tdev thr_file WDcfg BoardInfo).map fun r =>
            { WDrun := { WDrun with Restart := 0 }, WDcfg := r.WDcfg,
              calls := r.calls ++ [.SWStartAcquisition],
              invoked := [(Routine.Set_relative_Threshold, WDrun.AcqRun)] }) ∧
      (∀ r, mainRestart tdev thr_file WDrun WDcfg BoardInfo = some r →
        ∀ x, x ∈ r.invoked → x.1 = Routine.Set_relative_Threshold ∧ x.2 ≠ 0) := by
  have hinv : ∀ (a : Int) (p : RunResult × List (Routine × Int)),
      invokeThreshold tdev thr_file a WDcfg BoardInfo = some p →
      ∀ x, x ∈ p.2 → x.1 = Routine.Set_relative_Threshold ∧ x.2 = a := by
    intro a p hp x hx
    unfold invokeThreshold at hp
    by_cases hf : BoardInfo.FamilyCode ≠ .CAEN_DGTZ_XX742_FAMILY_CODE
    · rw [if_pos hf] at hp
      cases hs : Set_relative_Threshold tdev thr_file WDcfg BoardInfo with
      | none => rw [hs] at hp; cases hp
      | some r =>
        rw [hs, Option.map_some', Option.some.injEq] at hp
        subst hp
        rw [List.mem_singleton] at hx
        subst hx
        exact ⟨rfl, rfl⟩
    · rw [if_neg hf, Option.some.injEq] at hp
      subst hp
      cases hx
  refine ⟨?_, ?_, ?_, ?_, ?_, ?_⟩
  · intro h
    constructor
    · unfold keyStartStop
      rw [if_neg h]
    · unfold keyDACCalibration
      rw [if_neg h]
  · intro r hr x hx
    unfold keyStartStop at hr
    by_cases h : WDrun.AcqRun = 0
    · rw [if_pos h] at hr
      cases hp : invokeThreshold tdev thr_file WDrun.AcqRun WDcfg BoardInfo with
      | none => rw [hp] at hr; cases hr
      | some p =>
        rw [hp, Option.map_some', Option.some.injEq] at hr
        subst hr
        rw [(hinv _ p hp x hx).2, h]
    · rw [if_neg h, Option.some.injEq] at hr
      subst hr
      cases hx
  · intro r hr x hx
    unfold keyDACCalibration at hr
    by_cases h : WDrun.AcqRun = 0
    · rw [if_pos h] at hr
      simp only [Option.map_eq_some'] at hr
      obtain ⟨s, _, hs⟩ := hr
      subst hs
      simp only at hx
      split_ifs at hx
      · rw [List.mem_singleton] at hx
        subst hx
        exact h
      · rw [List.mem_singleton] at hx
        subst hx
        exact h
      · cases hx
    · rw [if_neg h, Option.some.injEq] at hr
      subst hr
      cases hx
  · intro h
    unfold mainRestart
    rw [if_neg h]
  · intro h hf
    unfold mainRestart invokeThreshold
    rw [if_pos h, if_pos hf]
    cases Set_relative_Threshold tdev thr_file WDcfg BoardInfo <;> rfl
  · intro r hr x hx
    unfold mainRestart at hr
    by_cases h : WDrun.Restart ≠ 0 ∧ WDrun.AcqRun ≠ 0
    · rw [if_pos h] at hr
      cases hp : invokeThreshold tdev thr_file WDrun.AcqRun WDcfg BoardInfo with
      | none => rw [hp] at hr; cases hr
      | some p =>
        rw [hp, Option.map_some', Option.some.injEq] at hr
        subst hr
        have := hinv _ p hp x hx
        exact ⟨this.1, by rw [this.2]; exact h.2⟩
    · rw [if_neg h, Option.some.injEq] at hr
      subst hr
      cases hx

/-- The gate of C19 on a two-channel x730 board with the acquisition flagged as running:
the command `D` makes no call and invokes nothing, the command `s` only stops the
acquisition. -/
theorem commands_gate_on_AcqRun_witness :
    (keyDACCalibration (constantDevice 100) 20 (fun _ => 50) (fun _ => 0)
        { AcqRun := 1, Restart := 0, GroupPlotSwitch := 0 } config730 board730).map
      (fun r => (r.calls.length, r.invoked, r.WDcfg.DCoffset 0)) = some (0, [], 32767) ∧
      (keyStartStop (thresholdDevice 1 1 8000) (fun _ => 50)
        { AcqRun := 1, Restart := 0, GroupPlotSwitch := 0 } config730 board730).map
      (fun r => (r.calls.length, r.invoked, r.WDrun.AcqRun)) = some (1, [], 0) := by
  have h := (commands_gate_on_AcqRun (thresholdDevice 1 1 8000) (constantDevice 100) 20
    (fun _ => 50) (fun _ => 50) (fun _ => 0) { AcqRun := 1, Restart := 0, GroupPlotSwitch := 0 }
    config730 board730).1 (by decide)
  rw [h.1, h.2]
  exact ⟨rfl, rfl⟩

theorem u32not_testBit (x i : Nat) (hi : i < 32) : (u32not x).testBit i = !x.testBit i := by
  have hx : x % 2 ^ 32 < 2 ^ 32 := Nat.mod_lt _ (by norm_num)
  have e : u32not x = 2 ^ 32 - (x % 2 ^ 32 + 1) := by
    unfold u32not
    omega
  rw [e, Nat.testBit_two_pow_sub_succ hx, Nat.testBit_mod_two_pow]
  simp [hi]

/-- C20. `WriteRegisterBitmask`: when the register read succeeds with the old value `v`,
the value written back is `(v AND NOT mask) OR (data AND mask)`: every bit of the first 32
selected by `mask` takes the bit of `data` and every other bit keeps the bit of `v`, and
the code of the write is returned; when the read fails nothing is written and the code of
the read is returned. -/
theorem WriteRegisterBitmask_spec (readRet : Int) (v : Nat) (writeRet : Int)
    (address data mask : Nat) :
    (readRet = 0 →
        (WriteRegisterBitmask readRet v writeRet address data mask).calls =
          [HwCall.ReadRegister address,
            HwCall.WriteRegister address ((v &&& u32not mask) ||| (data &&& mask))] ∧
        (WriteRegisterBitmask readRet v writeRet address data mask).ret = writeRet ∧
        ∀ i, i < 32 →
          ((v &&& u32not mask) ||| (data &&& mask)).testBit i =
            if mask.testBit i then data.testBit i else v.testBit i) ∧
      (readRet ≠ 0 →
        (WriteRegisterBitmask readRet v writeRet address data mask).calls =
          [HwCall.ReadRegister address] ∧
        (WriteRegisterBitmask readRet v writeRet address data mask).ret = readRet) := by
  constructor
  · intro h
    have h0 : ¬ readRet ≠ 0 := fun e => e h
    refine ⟨?_, ?_, ?_⟩
    · unfold WriteRegisterBitmask
      rw [if_neg h0]
    · unfold WriteRegisterBitmask
      rw [if_neg h0]
    · intro i hi
      rw [Nat.testBit_lor, Nat.testBit_land, Nat.testBit_land, u32not_testBit _ _ hi]
      cases mask.testBit i <;> simp
  · intro h
    unfold WriteRegisterBitmask
    rw [if_pos h]
    exact ⟨rfl, rfl⟩

/-- The register write of C20 on the old value `0xFFFF0000`, the data `0x00001234` and the
mask `0x0000FFFF`: the value written is `0xFFFF1234`. -/
theorem WriteRegisterBitmask_spec_witness :
    (WriteRegisterBitmask 0 0xFFFF0000 0 0x8000 0x00001234 0x0000FFFF).calls =
        [HwCall.ReadRegister 0x8000, HwCall.WriteRegister 0x8000 0xFFFF1234] ∧
      (WriteRegisterBitmask (-2) 0xFFFF0000 0 0x8000 0x00001234 0x0000FFFF).calls =
        [HwCall.ReadRegister 0x8000] := by
  have h := WriteRegisterBitmask_spec 0 0xFFFF0000 0 0x8000 0x00001234 0x0000FFFF
  have h2 := WriteRegisterBitmask_spec (-2) 0xFFFF0000 0 0x8000 0x00001234 0x0000FFFF
  refine ⟨?_, (h2.2 (by decide)).1⟩
  rw [(h.1 rfl).1]
  rfl

/-! ## The mode found by the estimator -/

/-- With an observation in `(0, size)` in the batch, the `mpp` found by the loop is an
observation of the batch and lies in `(0, size)`. -/
theorem findMpp_mem {size : Int} {value : List Int} (h : ∃ v ∈ value, 0 < v ∧ v < size) :
    (findMpp size value).mpp ∈ value ∧ 0 < (findMpp size value).mpp ∧
      (findMpp size value).mpp < size := by
  obtain ⟨v, hv, hr⟩ := h
  have inv := findMpp_inv size value
  have hfv : (findMpp size value).freq v = (value.count v : Int) := by
    rw [inv.freq_eq, if_pos hr]
  have hc : 0 < value.count v := List.count_pos_iff.mpr hv
  have hle := inv.freq_le v
  rcases inv.mpp_max with ⟨hz, _⟩ | ⟨hp, hge⟩
  · omega
  · have hfe := inv.freq_eq (findMpp size value).mpp
    by_cases hr2 : 0 < (findMpp size value).mpp ∧ (findMpp size value).mpp < size
    · rw [if_pos hr2] at hfe
      have hc2 : 0 < value.count (findMpp size value).mpp := by omega
      exact ⟨List.count_pos_iff.mp hc2, hr2⟩
    · rw [if_neg hr2] at hfe
      omega

/-- Once `max` is the highest count that any value of `(0, size)` reaches in the whole
batch, the rest of the loop leaves `mpp` as it is. -/
theorem findMpp_stays {size : Int} (rest : List Int) :
    ∀ (seen : List Int) (s : MppState), MppInv size seen s →
      (∀ v, 0 < v → v < size → ((seen ++ rest).count v : Int) ≤ s.max) →
      (rest.foldl (findMppStep size) s).mpp = s.mpp := by
  induction rest with
  | nil => intro seen s _ _; rfl
  | cons v rest ih =>
    intro seen s inv hmax
    have inv2 := inv.step v
    rw [List.foldl_cons]
    by_cases hr : 0 < v ∧ v < size
    · have hf : s.freq v = (seen.count v : Int) := by rw [inv.freq_eq, if_pos hr]
      have hcv := hmax v hr.1 hr.2
      rw [List.count_append, List.count_cons_self] at hcv
      have hnot : ¬ (Function.update s.freq v (s.freq v + 1) v > s.max) := by
        rw [Function.update_same, hf]
        push_cast at hcv
        omega
      have hstep : findMppStep size s v =
          { freq := Function.update s.freq v (s.freq v + 1), max := s.max, mpp := s.mpp } := by
        unfold findMppStep
        rw [if_pos hr]
        simp only [hnot, if_false]
      rw [hstep] at inv2 ⊢
      have := ih (seen ++ [v]) _ inv2 (by
        intro w hw1 hw2
        have := hmax w hw1 hw2
        simpa [List.append_assoc] using this)
      exact this
    · have hstep : findMppStep size s v = s := by
        unfold findMppStep
        rw [if_neg hr]
      rw [hstep] at inv2 ⊢
      exact ih (seen ++ [v]) s inv2 (by
        intro w hw1 hw2
        have := hmax w hw1 hw2
        simpa [List.append_assoc] using this)

/-- The sum of the observations of the band around `m` lies between `m - 5` and `m + 5`
times their number. -/
theorem inBand_sum_bounds (m : Int) (value : List Int) :
    (m - 5) * ((inBand m value).length : Int) ≤ (inBand m value).sum ∧
      (inBand m value).sum ≤ (m + 5) * ((inBand m value).length : Int) := by
  induction value with
  | nil => simp [inBand]
  | cons v vs ih =>
    by_cases h : m - 5 ≤ v ∧ v ≤ m + 5
    · rw [inBand_cons_pos vs h]
      simp only [List.sum_cons, List.length_cons, Nat.cast_add, Nat.cast_one]
      constructor <;> nlinarith [ih.1, ih.2, h.1, h.2]
    · rw [inBand_cons_neg vs h]
      exact ih

/-! ## The claims on the estimator, the test codes and the resolver -/

/-- C21, counterexample. On a 14-bit ADC the batch `100, 200, 200, 100` has the two values
`100` and `200` with the highest frequency `2`, and `100` occurs first; the loop selects
`mpp = 200`, the value whose count reaches `2` first, and the estimator returns
`100 / 16384 * 200`. -/
theorem findMpp_tie_not_first_seen :
    ([100, 200, 200, 100] : List Int).count 100 = 2 ∧
      ([100, 200, 200, 100] : List Int).count 200 = 2 ∧
      ([100, 200, 200, 100] : List Int).head? = some 100 ∧
      (findMpp (adcSize 14) [100, 200, 200, 100]).mpp = 200 ∧
      checkCleanBaseline 14 [100, 200, 200, 100] = some (100 / 16384 * 200) := by
  have hmpp : (findMpp (adcSize 14) [100, 200, 200, 100]).mpp = 200 := by decide
  have hb : inBand 200 [100, 200, 200, 100] = [200, 200] := by decide
  refine ⟨by decide, by decide, rfl, hmpp, ?_⟩
  rw [checkCleanBaseline_of_mpp hmpp (by rw [hb]; decide), hb]
  norm_num

/-- C21, amended. Mode tie-breaking: the mode found is the value of `(0, S)` whose count
is the first to reach the highest frequency. When `n` is the highest frequency of the
values of `(0, S)` in the batch and the occurrence of `m` after the observations `pre` is
its `n`-th one while every other value of `(0, S)` occurs less than `n` times in `pre`, the
loop selects `mpp = m`. -/
theorem findMpp_first_to_reach (size : Int) (pre post : List Int) (m : Int) (n : Nat)
    (h0 : 0 < m) (hs : m < size) (hn : pre.count m + 1 = n)
    (hmax : ∀ v, 0 < v → v < size → (pre ++ m :: post).count v ≤ n)
    (hfirst : ∀ v, v ≠ m → 0 < v → v < size → pre.count v < n) :
    (findMpp size (pre ++ m :: post)).mpp = m := by
  have inv1 := findMpp_inv size pre
  have hlt : (findMpp size pre).max < (n : Int) := by
    rcases inv1.mpp_max with ⟨hz, _⟩ | ⟨hp, hge⟩
    · omega
    · have hfe := inv1.freq_eq (findMpp size pre).mpp
      by_cases hr : 0 < (findMpp size pre).mpp ∧ (findMpp size pre).mpp < size
      · rw [if_pos hr] at hfe
        by_cases hm : (findMpp size pre).mpp = m
        · rw [hm] at hfe hge
          omega
        · have := hfirst _ hm hr.1 hr.2
          omega
      · rw [if_neg hr] at hfe
        omega
  have hfm : (findMpp size pre).freq m = (pre.count m : Int) := by
    rw [inv1.freq_eq, if_pos ⟨h0, hs⟩]
  have hgt : Function.update (findMpp size pre).freq m ((findMpp size pre).freq m + 1) m >
      (findMpp size pre).max := by
    rw [Function.update_same, hfm]
    omega
  have hstep : findMppStep size (findMpp size pre) m =
      { freq := Function.update (findMpp size pre).freq m ((findMpp size pre).freq m + 1),
        max := Function.update (findMpp size pre).freq m ((findMpp size pre).freq m + 1) m,
        mpp := m } := by
    unfold findMppStep
    rw [if_pos ⟨h0, hs⟩]
    simp only [hgt, if_true]
  have inv2 := inv1.step m
  rw [hstep] at inv2
  have hrun : findMpp size (pre ++ m :: post) =
      post.foldl (findMppStep size) (findMppStep size (findMpp size pre) m) := by
    simp [findMpp, List.foldl_append]
  rw [hrun, hstep]
  have := findMpp_stays post (pre ++ [m]) _ inv2 (by
    intro v hv1 hv2
    have h1 := hmax v hv1 hv2
    show ((pre ++ [m] ++ post).count v : Int) ≤
      Function.update (findMpp size pre).freq m ((findMpp size pre).freq m + 1) m
    rw [Function.update_same, hfm]
    have h2 : (pre ++ [m] ++ post).count v = (pre ++ m :: post).count v := by
      simp [List.append_assoc]
    rw [h2]
    omega)
  exact this

/-- The amended C21 on the batch `100, 200, 200, 100` of a 14-bit ADC: the second `200` is
the first occurrence that reaches the count `2`, and `mpp = 200`. -/
theorem findMpp_first_to_reach_witness :
    (findMpp (adcSize 14) ([100, 200] ++ 200 :: [100])).mpp = 200 := by
  refine findMpp_first_to_reach (adcSize 14) [100, 200] [100] 200 2 (by norm_num)
    (by decide) (by decide) ?_ ?_
  · intro v _ _
    simp only [List.cons_append, List.nil_append, List.count_cons, List.count_nil, beq_iff_eq]
    split_ifs <;> omega
  · intro v hv _ _
    simp only [List.count_cons, List.count_nil, beq_iff_eq]
    split_ifs <;> omega

/-- C22, counterexample. On a 14-bit ADC the batch `0, 0, 0, 8000` has `0` three times and
`8000` once, so `0` is the strictly most frequent value of `[0, S)`; the histogram does not
count `0` (`freq[0]` stays `0`), the loop selects `mpp = 8000` and the estimator returns
`100 / 16384 * 8000`, not `0`, which is `100 / S` times the mean of the observations in
`[-5, 5]`. -/
theorem findMpp_zero_not_counted :
    ([0, 0, 0, 8000] : List Int).count 0 = 3 ∧ ([0, 0, 0, 8000] : List Int).count 8000 = 1 ∧
      (findMpp (adcSize 14) [0, 0, 0, 8000]).freq 0 = 0 ∧
      (findMpp (adcSize 14) [0, 0, 0, 8000]).mpp = 8000 ∧
      checkCleanBaseline 14 [0, 0, 0, 8000] = some (100 / 16384 * 8000) ∧
      inBand 0 [0, 0, 0, 8000] = [0, 0, 0] := by
  have hmpp : (findMpp (adcSize 14) [0, 0, 0, 8000]).mpp = 8000 := by decide
  have hb : inBand 8000 [0, 0, 0, 8000] = [8000] := by decide
  refine ⟨by decide, by decide, by decide, hmpp, ?_, by decide⟩
  rw [checkCleanBaseline_of_mpp hmpp (by rw [hb]; decide), hb]
  norm_num

/-- C22, amended. Histogram range: the histogram counts the observations of `(0, S)`, and
never the value `0`. The mode found is `0` exactly when the batch has no observation in
`(0, S)`; in that case, when some observation lies in `[-5, 5]`, the result is `100 / S`
times the mean of the observations in `[-5, 5]`. With an observation in `(0, S)` the mode
found lies in `(0, S)`, however often `0` occurs. -/
theorem findMpp_excludes_zero (ADC_NBits : Nat) (value : List Int) :
    (findMpp (adcSize ADC_NBits) value).freq 0 = 0 ∧
      ((findMpp (adcSize ADC_NBits) value).mpp = 0 ↔
        ∀ v ∈ value, ¬ (0 < v ∧ v < 2 ^ ADC_NBits)) ∧
      ((∃ v ∈ value, 0 < v ∧ v < 2 ^ ADC_NBits) →
        0 < (findMpp (adcSize ADC_NBits) value).mpp ∧
          (findMpp (adcSize ADC_NBits) value).mpp < 2 ^ ADC_NBits) ∧
      ((∀ v ∈ value, ¬ (0 < v ∧ v < 2 ^ ADC_NBits)) → inBand 0 value ≠ [] →
        checkCleanBaseline ADC_NBits value =
          some (100 / (2 ^ ADC_NBits : ℚ) *
            ((((inBand 0 value).sum : Int) : ℚ) / ((inBand 0 value).length : ℚ)))) := by
  have inv := findMpp_inv (adcSize ADC_NBits) value
  have hno : (∀ v ∈ value, ¬ (0 < v ∧ v < 2 ^ ADC_NBits)) →
      (findMpp (adcSize ADC_NBits) value).mpp = 0 := fun h =>
    findMpp_no_valid (by simpa [adcSize] using h)
  have hyes : (∃ v ∈ value, 0 < v ∧ v < 2 ^ ADC_NBits) →
      0 < (findMpp (adcSize ADC_NBits) value).mpp ∧
        (findMpp (adcSize ADC_NBits) value).mpp < 2 ^ ADC_NBits := by
    intro h
    have := @findMpp_mem (adcSize ADC_NBits) value (by simpa [adcSize] using h)
    simpa [adcSize] using this.2
  refine ⟨?_, ⟨?_, hno⟩, hyes, ?_⟩
  · rw [inv.freq_eq]
    simp
  · intro hz v hv hr
    have := (hyes ⟨v, hv, hr⟩).1
    omega
  · intro h hne
    exact checkCleanBaseline_of_mpp (hno h) (List.length_pos.mpr hne)

/-- The amended C22 on the batch `0, 0, -2, 16384` of a 14-bit ADC: no observation lies in
`(0, 16384)`, the mode found is `0` and the result is `100 / 16384` times the mean `-2 / 3`
of the observations `0, 0, -2`. -/
theorem findMpp_excludes_zero_witness :
    (findMpp (adcSize 14) [0, 0, -2, 16384]).mpp = 0 ∧
      checkCleanBaseline 14 [0, 0, -2, 16384] = some (100 / 16384 * (-2 / 3)) := by
  have h := findMpp_excludes_zero 14 [0, 0, -2, 16384]
  have hno : ∀ v ∈ ([0, 0, -2, 16384] : List Int), ¬ (0 < v ∧ v < 2 ^ 14) := by decide
  have hb : inBand 0 [0, 0, -2, 16384] = [0, 0, -2] := by decide
  refine ⟨h.2.1.2 hno, ?_⟩
  rw [h.2.2.2 hno (by rw [hb]; simp), hb]
  norm_num

/-! ## The test codes of the calibration points -/

theorem Flow.andThen_next_calls {α β : Type} (a : α) (c : List HwCall) (f : α → Flow β) :
    ((Flow.next a c).andThen f).calls = c ++ (f a).calls := by
  cases h : f a <;> simp [Flow.andThen, h, Flow.calls]

/-- The calls of one test point start with the write of the test code to every channel. -/
theorem pointStep_calls_prefix (dev : CalibrationDevice) (NACQS : Nat)
    (WDcfg : WaveDumpConfig_t) (BoardInfo : CAEN_DGTZ_BoardInfo_t)
    (avg_value : Nat → Nat → CFloat) (p : Nat) :
    ∃ rest, (pointStep dev NACQS WDcfg BoardInfo avg_value p).calls =
      ((List.range BoardInfo.Channels).map fun ch =>
        HwCall.SetChannelDCOffset ch (testDCOffset p)) ++ rest := by
  simp only [pointStep]
  split_ifs with h
  · exact ⟨[HwCall.ClearData, HwCall.SWStartAcquisition], rfl⟩
  · simp only [Flow.andThen_next_calls, List.append_assoc]
    exact ⟨_, rfl⟩

/-- The calls of one test point of an x740 board start with the write of the test code to
every group. -/
theorem pointStepXX740_calls_prefix (dev : CalibrationDevice) (NACQS : Nat)
    (BoardInfo : CAEN_DGTZ_BoardInfo_t) (avg_value : Nat → Nat → CFloat) (p : Nat) :
    ∃ rest, (pointStepXX740 dev NACQS BoardInfo avg_value p).calls =
      ((List.range BoardInfo.Channels).map fun i =>
        HwCall.SetGroupDCOffset i (testDCOffset p)) ++ rest := by
  simp only [pointStepXX740]
  split_ifs with h
  · exact ⟨[HwCall.ClearData, HwCall.SWStartAcquisition], rfl⟩
  · simp only [Flow.andThen_next_calls, List.append_assoc]
    exact ⟨_, rfl⟩

/-- C23, counterexample. At the calibration point `75` the code programmed is
`(uint32_t)(25 * 655.35) = 16383`, the truncation of `16383.75`, and not the nearest
integer `16384`; it is the DAC code the device of a completed run on a two-channel x730
board is left with. -/
theorem testDCOffset_not_rounded :
    dc 1 = 75 ∧ testDCOffset 1 = 16383 ∧
      round ((100 - 75 : ℚ) * (65535 / 100)) = 16384 ∧
      (settingsAfter (programmedSettings config730 .CAEN_DGTZ_SW_CONTROLLED)
        (Calibrate_DC_Offset (constantDevice 100) 20 config730 board730).calls).DCOffset 0 =
        16383 := by
  refine ⟨rfl, testDCOffset_one, ?_, ?_⟩
  · rw [round_eq, Int.floor_eq_iff]
    norm_num
  · rw [← testDCOffset_one]
    rfl

/-- C23, amended. Test DAC code: at the calibration points `25` and `75` the DAC code that
`Calibrate_DC_Offset` programs on every channel, and `Calibrate_XX740_DC_Offset` on every
group, before the acquisitions of the point is `(100 - p) * 655.35` truncated to an
integer: `49151` for `p = 25` and `16383` for `p = 75`. -/
theorem testDCOffset_truncates (dev : CalibrationDevice) (NACQS : Nat)
    (WDcfg : WaveDumpConfig_t) (BoardInfo : CAEN_DGTZ_BoardInfo_t)
    (avg_value : Nat → Nat → CFloat) (p : Nat) :
    dc 0 = 25 ∧ dc 1 = 75 ∧
      ((testDCOffset 0 : Nat) : Int) = ⌊(100 - 25 : ℚ) * (65535 / 100)⌋ ∧
      testDCOffset 0 = 49151 ∧
      ((testDCOffset 1 : Nat) : Int) = ⌊(100 - 75 : ℚ) * (65535 / 100)⌋ ∧
      testDCOffset 1 = 16383 ∧
      (∃ rest, (pointStep dev NACQS WDcfg BoardInfo avg_value p).calls =
        ((List.range BoardInfo.Channels).map fun ch =>
          HwCall.SetChannelDCOffset ch (testDCOffset p)) ++ rest) ∧
      (∃ rest, (pointStepXX740 dev NACQS BoardInfo avg_value p).calls =
        ((List.range BoardInfo.Channels).map fun i =>
          HwCall.SetGroupDCOffset i (testDCOffset p)) ++ rest) := by
  refine ⟨rfl, rfl, ?_, testDCOffset_zero, ?_, testDCOffset_one,
    pointStep_calls_prefix dev NACQS WDcfg BoardInfo avg_value p,
    pointStepXX740_calls_prefix dev NACQS BoardInfo avg_value p⟩
  · rw [testDCOffset_zero, eq_comm, Int.floor_eq_iff]
    norm_num
  · rw [testDCOffset_one, eq_comm, Int.floor_eq_iff]
    norm_num

/-! ## The baselines of the resolver -/

theorem sampleInt_bounds (Nbit raw : Nat) :
    0 ≤ sampleInt Nbit raw ∧ sampleInt Nbit raw < 2 ^ 16 := by
  unfold sampleInt
  split_ifs <;> omega

/-- The mean over 10 samples from the entry `0`, for non-negative samples: the floor of
the tenth of `s[1] + ... + s[10]`. -/
theorem meanOver10_floor (sample : Nat → Int) (h : ∀ i, 0 ≤ sample i) :
    meanOver10 0 sample =
      ⌊(((sample 1 + sample 2 + sample 3 + sample 4 + sample 5 + sample 6 + sample 7 +
        sample 8 + sample 9 + sample 10 : Int) : ℚ)) / 10⌋ := by
  have h1 := h 1
  have h2 := h 2
  have h3 := h 3
  have h4 := h 4
  have h5 := h 5
  have h6 := h 6
  have h7 := h 7
  have h8 := h 8
  have h9 := h 9
  have h10 := h 10
  have e : meanOver10 0 sample =
      Int.tdiv (sample 1 + sample 2 + sample 3 + sample 4 + sample 5 + sample 6 + sample 7 +
        sample 8 + sample 9 + sample 10) 10 := by
    unfold meanOver10
    simp [List.range_succ]
  rw [e, Int.tdiv_eq_ediv (by omega) (by norm_num)]
  have hf := Rat.floor_intCast_div_natCast (sample 1 + sample 2 + sample 3 + sample 4 +
    sample 5 + sample 6 + sample 7 + sample 8 + sample 9 + sample 10) 10
  have hq : ((10 : Nat) : ℚ) = 10 := by norm_num
  have hz : ((10 : Nat) : Int) = 10 := by norm_num
  rw [hq, hz] at hf
  exact hf.symm

/-- The threshold assigned for a baseline `B`, when the unsigned sum or difference does
not wrap: `min(B + T, S)` for positive pulses and `0 ≤ B + T`, `min(B - T, S)` for
negative pulses and `T ≤ B`, with `T = thr_file[ch]` and `S = 2 ^ ADC_NBits`. -/
theorem thresholdFor_int (thr_file : Nat → Int) (WDcfg : WaveDumpConfig_t)
    (BoardInfo : CAEN_DGTZ_BoardInfo_t) (B : Int) (ch : Nat) (hn : BoardInfo.ADC_NBits ≤ 30)
    (hb1 : -2 ^ 31 ≤ B) (hb2 : B < 2 ^ 31)
    (ht1 : -2 ^ 31 ≤ thr_file ch) (ht2 : thr_file ch < 2 ^ 31) :
    (WDcfg.PulsePolarity ch = .CAEN_DGTZ_PulsePolarityPositive → 0 ≤ B + thr_file ch →
        ((thresholdFor thr_file WDcfg BoardInfo B ch : Nat) : Int) =
          min (B + thr_file ch) (2 ^ BoardInfo.ADC_NBits)) ∧
      (WDcfg.PulsePolarity ch = .CAEN_DGTZ_PulsePolarityNegative → thr_file ch ≤ B →
        ((thresholdFor thr_file WDcfg BoardInfo B ch : Nat) : Int) =
          min (B - thr_file ch) (2 ^ BoardInfo.ADC_NBits)) := by
  unfold thresholdFor
  constructor
  · intro hp h0
    rw [(setThreshold_eq thr_file WDcfg BoardInfo (fun _ => B) ch
      (u32add (intToUInt32 B) (intToUInt32 (thr_file ch))) (by rw [hp])).1, Nat.cast_min,
      u32add_int B (thr_file ch) hb1 hb2 ht1 ht2 h0, intToUInt32_adcSize hn]
  · intro hp h0
    rw [(setThreshold_eq thr_file WDcfg BoardInfo (fun _ => B) ch
      (u32sub (intToUInt32 B) (intToUInt32 (thr_file ch))) (by rw [hp])).1, Nat.cast_min,
      u32sub_int B (thr_file ch) hb1 hb2 ht1 ht2 (by omega), intToUInt32_adcSize hn]

/-- The baseline of the software trigger pass is the floor of the tenth of the sum of the
samples `1 .. 10`, and lies in `[0, 2 ^ 16)`. -/
theorem fallbackBaseline_eq (dev : ThresholdDevice) (WDcfg : WaveDumpConfig_t)
    (BoardInfo : CAEN_DGTZ_BoardInfo_t) (ch : Nat) :
    fallbackBaseline dev WDcfg BoardInfo ch =
        ⌊(((sampleInt WDcfg.Nbit (dev.DataChannel 1 (eventChannel BoardInfo ch) 1) +
          sampleInt WDcfg.Nbit (dev.DataChannel 1 (eventChannel BoardInfo ch) 2) +
          sampleInt WDcfg.Nbit (dev.DataChannel 1 (eventChannel BoardInfo ch) 3) +
          sampleInt WDcfg.Nbit (dev.DataChannel 1 (eventChannel BoardInfo ch) 4) +
          sampleInt WDcfg.Nbit (dev.DataChannel 1 (eventChannel BoardInfo ch) 5) +
          sampleInt WDcfg.Nbit (dev.DataChannel 1 (eventChannel BoardInfo ch) 6) +
          sampleInt WDcfg.Nbit (dev.DataChannel 1 (eventChannel BoardInfo ch) 7) +
          sampleInt WDcfg.Nbit (dev.DataChannel 1 (eventChannel BoardInfo ch) 8) +
          sampleInt WDcfg.Nbit (dev.DataChannel 1 (eventChannel BoardInfo ch) 9) +
          sampleInt WDcfg.Nbit (dev.DataChannel 1 (eventChannel BoardInfo ch) 10) : Int) : ℚ)) /
          10⌋ ∧
      0 ≤ fallbackBaseline dev WDcfg BoardInfo ch ∧
      fallbackBaseline dev WDcfg BoardInfo ch < 2 ^ 16 := by
  have hs := fun i => sampleInt_bounds WDcfg.Nbit (dev.DataChannel 1 (eventChannel BoardInfo ch) i)
  have hfl := meanOver10_floor
    (fun i => sampleInt WDcfg.Nbit (dev.DataChannel 1 (eventChannel BoardInfo ch) i))
    (fun i => (hs i).1)
  have e : fallbackBaseline dev WDcfg BoardInfo ch =
      Int.tdiv (sampleInt WDcfg.Nbit (dev.DataChannel 1 (eventChannel BoardInfo ch) 1) +
        sampleInt WDcfg.Nbit (dev.DataChannel 1 (eventChannel BoardInfo ch) 2) +
        sampleInt WDcfg.Nbit (dev.DataChannel 1 (eventChannel BoardInfo ch) 3) +
        sampleInt WDcfg.Nbit (dev.DataChannel 1 (eventChannel BoardInfo ch) 4) +
        sampleInt WDcfg.Nbit (dev.DataChannel 1 (eventChannel BoardInfo ch) 5) +
        sampleInt WDcfg.Nbit (dev.DataChannel 1 (eventChannel BoardInfo ch) 6) +
        sampleInt WDcfg.Nbit (dev.DataChannel 1 (eventChannel BoardInfo ch) 7) +
        sampleInt WDcfg.Nbit (dev.DataChannel 1 (eventChannel BoardInfo ch) 8) +
        sampleInt WDcfg.Nbit (dev.DataChannel 1 (eventChannel BoardInfo ch) 9) +
        sampleInt WDcfg.Nbit (dev.DataChannel 1 (eventChannel BoardInfo ch) 10)) 10 := by
    unfold fallbackBaseline meanOver10
    simp [List.range_succ]
  have h1 := hs 1
  have h2 := hs 2
  have h3 := hs 3
  have h4 := hs 4
  have h5 := hs 5
  have h6 := hs 6
  have h7 := hs 7
  have h8 := hs 8
  have h9 := hs 9
  have h10 := hs 10
  refine ⟨hfl, ?_, ?_⟩
  · rw [e, Int.tdiv_eq_ediv (by omega) (by norm_num)]
    omega
  · rw [e, Int.tdiv_eq_ediv (by omega) (by norm_num)]
    omega

/-- C24, counterexample. On a two-channel x730 board with a 14-bit ADC (`S = 16384`),
channel 0 enabled with positive pulses, no self triggered block. With software triggered
samples `100` the baseline is `100`, and with `thr_file = -200` the unsigned sum wraps and
the threshold stored and left on the device is `16384`, not `clamp(100 - 200, 0, S - 1) = 0`.
With samples `8000` and `thr_file = 20000` the threshold is `16384`, not
`clamp(28000, 0, S - 1) = 16383`. -/
theorem Set_relative_Threshold_fallback_not_clamped :
    fallbackBaseline (thresholdDevice 0 1 100) config730one board730 0 = 100 ∧
      (Set_relative_Threshold (thresholdDevice 0 1 100) (fun _ => -200) config730one
        board730).map (fun r => r.WDcfg.Threshold 0) = some 16384 ∧
      (Set_relative_Threshold (thresholdDevice 0 1 100) (fun _ => -200) config730one
        board730).map (fun r => (settingsAfter
          (programmedSettings config730one .CAEN_DGTZ_SW_CONTROLLED) r.calls).TriggerThreshold 0)
        = some 16384 ∧
      max 0 (min ((100 : Int) + -200) (2 ^ 14 - 1)) = 0 ∧
      fallbackBaseline (thresholdDevice 0 1 8000) config730one board730 0 = 8000 ∧
      (Set_relative_Threshold (thresholdDevice 0 1 8000) (fun _ => 20000) config730one
        board730).map (fun r => r.WDcfg.Threshold 0) = some 16384 ∧
      max 0 (min ((8000 : Int) + 20000) (2 ^ 14 - 1)) = 16383 := by
  refine ⟨by decide, by decide, by decide, by decide, by decide, by decide, by decide⟩

/-- C24, amended. Software trigger baseline: for an enabled unit `ch` in Calibrated mode
without samples in the self triggered event (no self triggered block at all, or a decoded
event with `size == 0` for the unit), on a run whose calls succeed, whose self triggered
pass divides by no zero and whose software triggered event is decoded, the baseline `B`
of the unit is the floor of `(s[1] + ... + s[10]) / 10` over the samples at the offsets
`1 .. 10` of its buffer in the software triggered event, and the threshold of the unit,
in `WDcfg->Threshold[ch]` and on the device, is the one the threshold assignment gives
for `B`: `min(B + T, S)` for positive pulses with `0 ≤ B + T` and `min(B - T, S)` for
negative pulses with `T ≤ B` (`T = thr_file[ch]` a C `int`, `S = 2 ^ ADC_NBits`, ADC of at
most 30 bits). -/
theorem Set_relative_Threshold_fallback_baseline (dev : ThresholdDevice)
    (thr_file : Nat → Int) (WDcfg : WaveDumpConfig_t) (BoardInfo : CAEN_DGTZ_BoardInfo_t)
    (ch : Nat) (d : DeviceSettings) (hch : ch < BoardInfo.Channels)
    (hu : usesBaselineShift WDcfg ch = true) (hr : dev.reachesReadout WDcfg BoardInfo)
    (hn : noSelfTriggeredSamples dev BoardInfo ch)
    (hdiv : selfTriggerDefined dev WDcfg BoardInfo) (hr1 : dev.ReadData 1 = 0)
    (hb : dev.BufferSize 1 ≠ 0) (hg : dev.GetEventInfo 1 = 0) (hd : dev.DecodeEvent 1 = 0)
    (hbits : BoardInfo.ADC_NBits ≤ 30)
    (ht1 : -2 ^ 31 ≤ thr_file ch) (ht2 : thr_file ch < 2 ^ 31) :
    fallbackBaseline dev WDcfg BoardInfo ch =
        ⌊(((sampleInt WDcfg.Nbit (dev.DataChannel 1 (eventChannel BoardInfo ch) 1) +
          sampleInt WDcfg.Nbit (dev.DataChannel 1 (eventChannel BoardInfo ch) 2) +
          sampleInt WDcfg.Nbit (dev.DataChannel 1 (eventChannel BoardInfo ch) 3) +
          sampleInt WDcfg.Nbit (dev.DataChannel 1 (eventChannel BoardInfo ch) 4) +
          sampleInt WDcfg.Nbit (dev.DataChannel 1 (eventChannel BoardInfo ch) 5) +
          sampleInt WDcfg.Nbit (dev.DataChannel 1 (eventChannel BoardInfo ch) 6) +
          sampleInt WDcfg.Nbit (dev.DataChannel 1 (eventChannel BoardInfo ch) 7) +
          sampleInt WDcfg.Nbit (dev.DataChannel 1 (eventChannel BoardInfo ch) 8) +
          sampleInt WDcfg.Nbit (dev.DataChannel 1 (eventChannel BoardInfo ch) 9) +
          sampleInt WDcfg.Nbit (dev.DataChannel 1 (eventChannel BoardInfo ch) 10) : Int) : ℚ)) /
          10⌋ ∧
      ∃ r, Set_relative_Threshold dev thr_file WDcfg BoardInfo = some r ∧
        r.ErrCode = .ERR_NONE ∧
        r.WDcfg.Threshold ch =
          thresholdFor thr_file WDcfg BoardInfo (fallbackBaseline dev WDcfg BoardInfo ch) ch ∧
        (settingsAfter d r.calls).TriggerThreshold ch = r.WDcfg.Threshold ch ∧
        (WDcfg.PulsePolarity ch = .CAEN_DGTZ_PulsePolarityPositive →
          0 ≤ fallbackBaseline dev WDcfg BoardInfo ch + thr_file ch →
          ((r.WDcfg.Threshold ch : Nat) : Int) =
            min (fallbackBaseline dev WDcfg BoardInfo ch + thr_file ch)
              (2 ^ BoardInfo.ADC_NBits)) ∧
        (WDcfg.PulsePolarity ch = .CAEN_DGTZ_PulsePolarityNegative →
          thr_file ch ≤ fallbackBaseline dev WDcfg BoardInfo ch →
          ((r.WDcfg.Threshold ch : Nat) : Int) =
            min (fallbackBaseline dev WDcfg BoardInfo ch - thr_file ch)
              (2 ^ BoardInfo.ADC_NBits)) := by
  obtain ⟨hfl, hB0, hB1⟩ := fallbackBaseline_eq dev WDcfg BoardInfo ch
  obtain ⟨r, hrun, he, hT, hD⟩ := (Set_relative_Threshold_fallback_run dev thr_file WDcfg
    BoardInfo ch d hch hu hr hn hdiv hr1).2 hb hg hd
  obtain ⟨hpos, hneg⟩ := thresholdFor_int thr_file WDcfg BoardInfo
    (fallbackBaseline dev WDcfg BoardInfo ch) ch hbits (by omega) (by omega) ht1 ht2
  refine ⟨hfl, r, hrun, he, hT, hD.trans hT.symm, ?_, ?_⟩
  · intro hp h
    rw [hT]
    exact hpos hp h
  · intro hp h
    rw [hT]
    exact hneg hp h

/-- The amended C24 on a two-channel x730 board with channel 0
enabled and `thr_file = 50`: no self triggered block arrives, the software triggered event
has the samples `8000`, the baseline is `8000` and the threshold `8050`. -/
theorem Set_relative_Threshold_fallback_baseline_witness :
    fallbackBaseline (thresholdDevice 0 1 8000) config730one board730 0 = 8000 ∧
      (Set_relative_Threshold (thresholdDevice 0 1 8000) (fun _ => 50) config730one
        board730).map (fun r => ((r.WDcfg.Threshold 0 : Nat) : Int)) = some 8050 := by
  have hB : fallbackBaseline (thresholdDevice 0 1 8000) config730one board730 0 = 8000 := by
    decide
  obtain ⟨_, r, hrun, _, _, _, hpos, _⟩ := Set_relative_Threshold_fallback_baseline
    (thresholdDevice 0 1 8000) (fun _ => 50) config730one board730 0
    (programmedSettings config730one .CAEN_DGTZ_SW_CONTROLLED) (by decide) (by decide)
    (thresholdDevice_reachesReadout 0 1 8000 config730one board730) (Or.inl rfl)
    (thresholdDevice_selfTriggerDefined 0 1 8000 config730one board730) rfl (by decide) rfl rfl
    (by decide) (by norm_num) (by norm_num)
  refine ⟨hB, ?_⟩
  rw [hrun, Option.map_some', hpos rfl (by rw [hB]; norm_num), hB]
  rfl

/-- The number of samples averaged in the self triggered pass is a quarter of `size`, as
long as `size * 25` fits the unsigned 32-bit arithmetic. -/
theorem preTriggerSamples_eq (size : Int) (h0 : 0 ≤ size) (h1 : size ≤ 171798691) :
    preTriggerSamples size = size / 4 := by
  lift size to Nat using h0 with n
  have hn : n ≤ 171798691 := by exact_mod_cast h1
  have e1 : intToUInt32 (n : Int) = n := by
    unfold intToUInt32
    have h : ((n : Int) % 2 ^ 32) = (n : Int) := Int.emod_eq_of_lt (by omega) (by omega)
    rw [h]
    simp
  have e2 : u32sub 100 50 / 2 = 25 := by decide
  unfold preTriggerSamples
  rw [e1, e2]
  unfold u32ToInt
  have e3 : n * 25 % 2 ^ 32 = n * 25 := Nat.mod_eq_of_lt (by omega)
  rw [e3]
  have e4 : n * 25 / 100 % 2 ^ 32 = n * 25 / 100 := Nat.mod_eq_of_lt (by omega)
  rw [e4, if_pos (by omega)]
  push_cast
  omega

/-- C25, the code at a failing input. A self triggered event of `size = 1024` samples on a
two-channel x730 board with channel 0 enabled and `thr_file = 50`. The code comments the
mean with `use only one tenth of the pre-trigger samples`, but
`samples = size * ((100 - 50) / 2) / 100 = 256`, a quarter of the record, and not
`1024 / 10 = 102`. With all samples `8000` the threshold is `8000 + 50`; with `8000` at
the offsets below `103` and `0` from there on, the mean over 256 samples is
`103 * 8000 / 256 = 3218` and the threshold is `3268`: the samples at the offsets
`103 .. 255` enter the baseline. -/
theorem selfTriggered_baseline_is_quarter :
    preTriggerSamples 1024 = 256 ∧ (1024 : Int) / 10 = 102 ∧
      (Set_relative_Threshold (thresholdDevice 1 1 8000) (fun _ => 50) config730one
        board730).map (fun r => r.WDcfg.Threshold 0) = some 8050 ∧
      (Set_relative_Threshold
        { thresholdDevice 1 1 8000 with DataChannel := fun _ _ i => if i < 103 then 8000 else 0 }
        (fun _ => 50) config730one board730).map (fun r => r.WDcfg.Threshold 0) = some 3268 ∧
      (103 * 8000 : Int) / 256 + 50 = 3268 := by
  refine ⟨by decide, by decide, by decide, by decide, by decide⟩

/-- C26. Estimator division: for every batch with an observation in `(0, S)` the `mpp`
found by the loop is one of the observations of the batch, the count `ok` of the
observations in `[mpp - 5, mpp + 5]` is at least 1, and the estimator has a value: the
division by `ok` is not a division by zero. -/
theorem checkCleanBaseline_defined (ADC_NBits : Nat) (value : List Int)
    (h : ∃ v ∈ value, 0 < v ∧ v < 2 ^ ADC_NBits) :
    (findMpp (adcSize ADC_NBits) value).mpp ∈ value ∧
      1 ≤ (discardFar (findMpp (adcSize ADC_NBits) value).mpp value).ok ∧
      checkCleanBaseline ADC_NBits value =
        some (100 / (2 ^ ADC_NBits : ℚ) *
          ((((inBand (findMpp (adcSize ADC_NBits) value).mpp value).sum : Int) : ℚ) /
            ((inBand (findMpp (adcSize ADC_NBits) value).mpp value).length : ℚ))) := by
  have hmem := (@findMpp_mem (adcSize ADC_NBits) value (by simpa [adcSize] using h)).1
  have hpos : 0 < (inBand (findMpp (adcSize ADC_NBits) value).mpp value).length :=
    List.length_pos_of_mem (mem_inBand_self hmem)
  refine ⟨hmem, ?_, checkCleanBaseline_of_mpp rfl hpos⟩
  rw [discardFar_ok]
  exact_mod_cast hpos

/-- The batch `100, 16384, 0, -7` of a 14-bit ADC has the observation `100` in `(0, S)`:
the mode is `100`, one observation is retained and the estimator returns
`100 / 16384 * 100`. -/
theorem checkCleanBaseline_defined_witness :
    (findMpp (adcSize 14) [100, 16384, 0, -7]).mpp ∈ ([100, 16384, 0, -7] : List Int) ∧
      1 ≤ (discardFar (findMpp (adcSize 14) [100, 16384, 0, -7]).mpp [100, 16384, 0, -7]).ok ∧
      checkCleanBaseline 14 [100, 16384, 0, -7] = some (100 / 16384 * 100) := by
  have h := checkCleanBaseline_defined 14 [100, 16384, 0, -7] ⟨100, by decide, by norm_num⟩
  have hb : inBand (findMpp (adcSize 14) [100, 16384, 0, -7]).mpp [100, 16384, 0, -7] =
      [100] := by decide
  refine ⟨h.1, h.2.1, ?_⟩
  rw [h.2.2, hb]
  norm_num

/-- C27. Estimator result within 5 counts of the mode: for every batch with an observation
in `(0, S)` the estimator returns a value `p` with
`100 * (m - 5) / S ≤ p ≤ 100 * (m + 5) / S`, where `m` is the `mpp` found, whatever the
other observations of the batch. -/
theorem checkCleanBaseline_near_mode (ADC_NBits : Nat) (value : List Int)
    (h : ∃ v ∈ value, 0 < v ∧ v < 2 ^ ADC_NBits) :
    ∃ p : ℚ, checkCleanBaseline ADC_NBits value = some p ∧
      100 * (((findMpp (adcSize ADC_NBits) value).mpp : ℚ) - 5) / 2 ^ ADC_NBits ≤ p ∧
      p ≤ 100 * (((findMpp (adcSize ADC_NBits) value).mpp : ℚ) + 5) / 2 ^ ADC_NBits := by
  have hmem := (@findMpp_mem (adcSize ADC_NBits) value (by simpa [adcSize] using h)).1
  have hpos : 0 < (inBand (findMpp (adcSize ADC_NBits) value).mpp value).length :=
    List.length_pos_of_mem (mem_inBand_self hmem)
  obtain ⟨hlo, hhi⟩ := inBand_sum_bounds (findMpp (adcSize ADC_NBits) value).mpp value
  refine ⟨_, checkCleanBaseline_of_mpp rfl hpos, ?_, ?_⟩
  · have hl : (0 : ℚ) < ((inBand (findMpp (adcSize ADC_NBits) value).mpp value).length : ℚ) := by
      exact_mod_cast hpos
    have hlo2 : (((findMpp (adcSize ADC_NBits) value).mpp : ℚ) - 5) ≤
        (((inBand (findMpp (adcSize ADC_NBits) value).mpp value).sum : Int) : ℚ) /
          ((inBand (findMpp (adcSize ADC_NBits) value).mpp value).length : ℚ) := by
      rw [le_div_iff₀ hl]
      exact_mod_cast hlo
    have e : 100 * (((findMpp (adcSize ADC_NBits) value).mpp : ℚ) - 5) / 2 ^ ADC_NBits =
        100 / 2 ^ ADC_NBits * (((findMpp (adcSize ADC_NBits) value).mpp : ℚ) - 5) := by ring
    rw [e]
    exact mul_le_mul_of_nonneg_left hlo2 (by positivity)
  · have hl : (0 : ℚ) < ((inBand (findMpp (adcSize ADC_NBits) value).mpp value).length : ℚ) := by
      exact_mod_cast hpos
    have hhi2 : (((inBand (findMpp (adcSize ADC_NBits) value).mpp value).sum : Int) : ℚ) /
          ((inBand (findMpp (adcSize ADC_NBits) value).mpp value).length : ℚ) ≤
        (((findMpp (adcSize ADC_NBits) value).mpp : ℚ) + 5) := by
      rw [div_le_iff₀ hl]
      exact_mod_cast hhi
    have e : 100 * (((findMpp (adcSize ADC_NBits) value).mpp : ℚ) + 5) / 2 ^ ADC_NBits =
        100 / 2 ^ ADC_NBits * (((findMpp (adcSize ADC_NBits) value).mpp : ℚ) + 5) := by ring
    rw [e]
    exact mul_le_mul_of_nonneg_left hhi2 (by positivity)

/-- The batch `100, 104, 100, 9000, 3` of a 14-bit ADC: the mode is `100`, the estimator
returns `100 / 16384 * (304 / 3)`, a value between `100 * 95 / 16384` and
`100 * 105 / 16384`. -/
theorem checkCleanBaseline_near_mode_witness :
    (findMpp (adcSize 14) [100, 104, 100, 9000, 3]).mpp = 100 ∧
      (checkCleanBaseline 14 [100, 104, 100, 9000, 3]).map
        (fun p => decide (100 * ((100 : ℚ) - 5) / 2 ^ 14 ≤ p ∧ p ≤ 100 * ((100 : ℚ) + 5) / 2 ^ 14))
        = some true := by
  have hmpp : (findMpp (adcSize 14) [100, 104, 100, 9000, 3]).mpp = 100 := by decide
  obtain ⟨p, hp, h1, h2⟩ := checkCleanBaseline_near_mode 14 [100, 104, 100, 9000, 3]
    ⟨100, by decide, by norm_num⟩
  rw [hmpp] at h1 h2
  refine ⟨hmpp, ?_⟩
  rw [hp, Option.map_some']
  simp only [Option.some.injEq, decide_eq_true_eq]
  push_cast at h1 h2
  exact ⟨h1, h2⟩

/-! ## The upper bound of the thresholds of the resolver -/

theorem intToUInt32_adcSize_le (n : Nat) : intToUInt32 (adcSize n) ≤ 2 ^ n := by
  unfold intToUInt32 adcSize
  have e : ((2 : Int) ^ n) % 2 ^ 32 = (((2 ^ n % 2 ^ 32 : Nat)) : Int) := by
    push_cast
    rfl
  rw [e, Int.toNat_natCast]
  exact Nat.mod_le _ _

/-- The threshold assignment stores a value that is at most `S = 2 ^ ADC_NBits`. -/
theorem setThreshold_le (thr_file : Nat → Int) (WDcfg : WaveDumpConfig_t)
    (BoardInfo : CAEN_DGTZ_BoardInfo_t) (baseline : Nat → Int) (ch : Nat) :
    (setThreshold thr_file WDcfg BoardInfo baseline ch).1.Threshold ch ≤
      2 ^ BoardInfo.ADC_NBits := by
  rw [(setThreshold_eq thr_file WDcfg BoardInfo baseline ch _ rfl).1]
  exact le_trans (min_le_right _ _) (intToUInt32_adcSize_le _)

theorem thresholdsWithin_self (W0 : WaveDumpConfig_t) (S : Nat) : thresholdsWithin W0 S W0 :=
  fun _ => Or.inl rfl

theorem setThreshold_within (thr_file : Nat → Int) (W0 WDcfg : WaveDumpConfig_t)
    (BoardInfo : CAEN_DGTZ_BoardInfo_t) (baseline : Nat → Int) (ch : Nat)
    (h : thresholdsWithin W0 (2 ^ BoardInfo.ADC_NBits) WDcfg) :
    thresholdsWithin W0 (2 ^ BoardInfo.ADC_NBits)
      (setThreshold thr_file WDcfg BoardInfo baseline ch).1 := by
  intro c
  by_cases hc : c = ch
  · subst hc
    exact Or.inr (setThreshold_le thr_file WDcfg BoardInfo baseline c)
  · rw [(setThreshold_frame thr_file WDcfg BoardInfo baseline ch).2.1 c hc]
    exact h c

theorem selfTriggerStep_within (dev : ThresholdDevice) (thr_file : Nat → Int)
    (W0 : WaveDumpConfig_t) (BoardInfo : CAEN_DGTZ_BoardInfo_t) (s s1 : ResolverState)
    (c : Nat) (hs : selfTriggerStep dev thr_file BoardInfo s c = some s1)
    (h : thresholdsWithin W0 (2 ^ BoardInfo.ADC_NBits) s.WDcfg) :
    thresholdsWithin W0 (2 ^ BoardInfo.ADC_NBits) s1.WDcfg := by
  simp only [selfTriggerStep] at hs
  by_cases h1 : usesBaselineShift s.WDcfg c = true
  · rw [if_pos h1] at hs
    by_cases h2 : u32ToInt (dev.ChSize 0 (eventChannel BoardInfo c)) = 0
    · rw [if_pos h2, Option.some.injEq] at hs
      subst hs
      exact h
    · rw [if_neg h2] at hs
      by_cases h3 : preTriggerSamples (u32ToInt (dev.ChSize 0 (eventChannel BoardInfo c))) = 0
      · rw [if_pos h3] at hs
        cases hs
      · rw [if_neg h3, Option.some.injEq] at hs
        subst hs
        exact setThreshold_within thr_file W0 s.WDcfg BoardInfo _ c h
  · rw [if_neg h1, Option.some.injEq] at hs
    subst hs
    exact h

theorem selfTriggerLoop_within (dev : ThresholdDevice) (thr_file : Nat → Int)
    (W0 : WaveDumpConfig_t) (BoardInfo : CAEN_DGTZ_BoardInfo_t) (idx : List Nat) :
    ∀ s s1 : ResolverState, idx.foldlM (selfTriggerStep dev thr_file BoardInfo) s = some s1 →
      thresholdsWithin W0 (2 ^ BoardInfo.ADC_NBits) s.WDcfg →
      thresholdsWithin W0 (2 ^ BoardInfo.ADC_NBits) s1.WDcfg := by
  induction idx with
  | nil =>
    intro s s1 hs h
    simp only [List.foldlM_nil, Option.pure_def, Option.some.injEq] at hs
    subst hs
    exact h
  | cons c idx ih =>
    intro s s1 hs h
    simp only [List.foldlM_cons, Option.bind_eq_bind, Option.bind_eq_some] at hs
    obtain ⟨s2, h2, h3⟩ := hs
    exact ih s2 s1 h3 (selfTriggerStep_within dev thr_file W0 BoardInfo s s2 c h2 h)

theorem selfTriggerPass_within (dev : ThresholdDevice) (thr_file : Nat → Int)
    (W0 : WaveDumpConfig_t) (BoardInfo : CAEN_DGTZ_BoardInfo_t) (s : ResolverState) (p : Pass)
    (hp : selfTriggerPass dev thr_file BoardInfo s = some p)
    (h : thresholdsWithin W0 (2 ^ BoardInfo.ADC_NBits) s.WDcfg) :
    thresholdsWithin W0 (2 ^ BoardInfo.ADC_NBits) p.config := by
  simp only [selfTriggerPass] at hp
  by_cases h1 : dev.BufferSize 0 > 0
  · rw [if_pos h1] at hp
    by_cases h2 : dev.GetEventInfo 0 ≠ 0
    · rw [if_pos h2, Option.some.injEq] at hp
      subst hp
      exact h
    · rw [if_neg h2] at hp
      by_cases h3 : dev.DecodeEvent 0 ≠ 0
      · rw [if_pos h3, Option.some.injEq] at hp
        subst hp
        exact h
      · rw [if_neg h3, Option.map_eq_some'] at hp
        obtain ⟨s1, h4, h5⟩ := hp
        subst h5
        exact selfTriggerLoop_within dev thr_file W0 BoardInfo _ _ s1 h4 h
  · rw [if_neg h1, Option.some.injEq] at hp
    subst hp
    exact h

theorem swTriggerStep_within (dev : ThresholdDevice) (thr_file : Nat → Int)
    (W0 : WaveDumpConfig_t) (BoardInfo : CAEN_DGTZ_BoardInfo_t) (s : ResolverState) (c : Nat)
    (h : thresholdsWithin W0 (2 ^ BoardInfo.ADC_NBits) s.WDcfg) :
    thresholdsWithin W0 (2 ^ BoardInfo.ADC_NBits)
      (swTriggerStep dev thr_file BoardInfo s c).WDcfg := by
  simp only [swTriggerStep]
  by_cases h1 : usesBaselineShift s.WDcfg c = true ∧ s.no_self_triggered_event c = 0
  · rw [if_pos h1]
    exact h
  · rw [if_neg h1]
    exact setThreshold_within thr_file W0 s.WDcfg BoardInfo _ c h

theorem swTriggerLoop_within (dev : ThresholdDevice) (thr_file : Nat → Int)
    (W0 : WaveDumpConfig_t) (BoardInfo : CAEN_DGTZ_BoardInfo_t) (idx : List Nat) :
    ∀ s : ResolverState, thresholdsWithin W0 (2 ^ BoardInfo.ADC_NBits) s.WDcfg →
      thresholdsWithin W0 (2 ^ BoardInfo.ADC_NBits)
        (idx.foldl (swTriggerStep dev thr_file BoardInfo) s).WDcfg := by
  induction idx with
  | nil => intro s h; exact h
  | cons c idx ih =>
    intro s h
    exact ih _ (swTriggerStep_within dev thr_file W0 BoardInfo s c h)

theorem swTriggerPass_within (dev : ThresholdDevice) (thr_file : Nat → Int)
    (W0 : WaveDumpConfig_t) (BoardInfo : CAEN_DGTZ_BoardInfo_t) (s : ResolverState)
    (h : thresholdsWithin W0 (2 ^ BoardInfo.ADC_NBits) s.WDcfg) :
    thresholdsWithin W0 (2 ^ BoardInfo.ADC_NBits)
      (swTriggerPass dev thr_file BoardInfo s).config := by
  simp only [swTriggerPass]
  split_ifs
  · exact h
  · exact h
  · exact h
  · exact h
  · exact swTriggerLoop_within dev thr_file W0 BoardInfo _ _ h
  · exact h

/-- Every run of `Set_relative_Threshold` leaves each entry of `Threshold` as it was or at
most `S = 2 ^ ADC_NBits`. -/
theorem Set_relative_Threshold_within (dev : ThresholdDevice) (thr_file : Nat → Int)
    (WDcfg : WaveDumpConfig_t) (BoardInfo : CAEN_DGTZ_BoardInfo_t) (r : RunResult)
    (hrun : Set_relative_Threshold dev thr_file WDcfg BoardInfo = some r) :
    thresholdsWithin WDcfg (2 ^ BoardInfo.ADC_NBits) r.WDcfg := by
  unfold Set_relative_Threshold at hrun
  by_cases h1 : shouldStart WDcfg BoardInfo = false
  · rw [if_pos h1, Option.some.injEq] at hrun
    subst hrun
    exact thresholdsWithin_self _ _
  rw [if_neg h1] at hrun
  by_cases h2 : dev.MallocReadoutBuffer ≠ 0
  · rw [if_pos h2, Option.some.injEq] at hrun
    subst hrun
    exact thresholdsWithin_self _ _
  rw [if_neg h2] at hrun
  by_cases h3 : dev.AllocateEvent ≠ 0
  · rw [if_pos h3, Option.some.injEq] at hrun
    subst hrun
    exact thresholdsWithin_self _ _
  rw [if_neg h3] at hrun
  by_cases h4 : dev.SetPostTriggerSize ≠ 0
  · rw [if_pos h4, Option.some.injEq] at hrun
    subst hrun
    exact thresholdsWithin_self _ _
  rw [if_neg h4] at hrun
  cases hloop : Flow.forEach (customThresholdStep dev WDcfg BoardInfo)
      (List.range BoardInfo.Channels) () with
  | quit e calls =>
    rw [hloop] at hrun
    simp only [Option.some.injEq] at hrun
    subst hrun
    exact thresholdsWithin_self _ _
  | next u calls =>
    rw [hloop] at hrun
    simp only at hrun
    by_cases h5 : dev.ReadData 0 ≠ 0
    · rw [if_pos h5, Option.some.injEq] at hrun
      subst hrun
      exact thresholdsWithin_self _ _
    · rw [if_neg h5, Option.map_eq_some'] at hrun
      obtain ⟨p, hp, hr⟩ := hrun
      have hw := selfTriggerPass_within dev thr_file WDcfg BoardInfo _ p hp
        (thresholdsWithin_self _ _)
      cases p with
      | quit r1 =>
        simp only at hr
        subst hr
        exact hw
      | next s =>
        have hw2 := swTriggerPass_within dev thr_file WDcfg BoardInfo
          { s with calls := s.calls ++ [.ClearData] } hw
        simp only at hr
        cases hq : swTriggerPass dev thr_file BoardInfo
            { s with calls := s.calls ++ [.ClearData] } with
        | quit r2 =>
          rw [hq] at hr hw2
          simp only at hr
          subst hr
          exact hw2
        | next s2 =>
          rw [hq] at hr hw2
          simp only at hr
          subst hr
          exact hw2

/-- C28. Resolver threshold upper bound: for every measured baseline, every `thr_file`
value and either polarity, the value that the threshold assignment of
`Set_relative_Threshold` stores into `WDcfg->Threshold[ch]` is at most
`S = 2 ^ ADC_NBits` and is the value it writes to the device; every run of
`Set_relative_Threshold` leaves each entry of `WDcfg->Threshold` either as it was at the
entry or at most `S`. The `uint32_t` arithmetic is taken modulo `2 ^ 32`. -/
theorem Set_relative_Threshold_threshold_le (dev : ThresholdDevice) (thr_file : Nat → Int)
    (WDcfg : WaveDumpConfig_t) (BoardInfo : CAEN_DGTZ_BoardInfo_t) (baseline : Nat → Int)
    (ch : Nat) (r : RunResult)
    (hrun : Set_relative_Threshold dev thr_file WDcfg BoardInfo = some r) :
    (setThreshold thr_file WDcfg BoardInfo baseline ch).1.Threshold ch ≤
        2 ^ BoardInfo.ADC_NBits ∧
      ((setThreshold thr_file WDcfg BoardInfo baseline ch).2 =
          [HwCall.SetChannelTriggerThreshold ch
            ((setThreshold thr_file WDcfg BoardInfo baseline ch).1.Threshold ch)] ∨
        (setThreshold thr_file WDcfg BoardInfo baseline ch).2 =
          [HwCall.SetGroupTriggerThreshold ch
            ((setThreshold thr_file WDcfg BoardInfo baseline ch).1.Threshold ch)]) ∧
      ∀ c, r.WDcfg.Threshold c = WDcfg.Threshold c ∨
        r.WDcfg.Threshold c ≤ 2 ^ BoardInfo.ADC_NBits := by
  obtain ⟨hT, hc⟩ := setThreshold_eq thr_file WDcfg BoardInfo baseline ch _ rfl
  refine ⟨setThreshold_le thr_file WDcfg BoardInfo baseline ch, ?_,
    Set_relative_Threshold_within dev thr_file WDcfg BoardInfo r hrun⟩
  rw [hT]
  exact hc

/-- The bound of C28 on a two-channel x730 board with a 14-bit ADC: a self triggered
baseline `8000` with `thr_file = 20000` gives the threshold `16384 = S`. -/
theorem Set_relative_Threshold_threshold_le_witness :
    (Set_relative_Threshold (thresholdDevice 1 1 8000) (fun _ => 20000) config730one
        board730).map (fun r => r.WDcfg.Threshold 0) = some 16384 ∧
      (16384 : Nat) ≤ 2 ^ board730.ADC_NBits ∧
      (setThreshold (fun _ => 20000) config730one board730 (fun _ => 8000) 0).1.Threshold 0 ≤
        2 ^ board730.ADC_NBits := by
  have hv : (Set_relative_Threshold (thresholdDevice 1 1 8000) (fun _ => 20000) config730one
      board730).map (fun r => r.WDcfg.Threshold 0) = some 16384 := by decide
  obtain ⟨r, hrun, hr⟩ := Option.map_eq_some'.1 hv
  have h := Set_relative_Threshold_threshold_le (thresholdDevice 1 1 8000) (fun _ => 20000)
    config730one board730 (fun _ => 8000) 0 r hrun
  refine ⟨hv, ?_, h.1⟩
  rcases h.2.2 0 with h0 | h0
  · rw [hr] at h0
    exact absurd h0 (by decide)
  · rw [hr] at h0
    exact h0

/-- C29, the code at a failing input. For a unit that reports `size = 1`, `2` or `3` in
the self triggered event, `samples = size * 25 / 100 = 0` (and `1` only from `size = 4`):
the statement `baseline[ch] = (baseline[ch] / samples)` divides by zero, and the run of
`Set_relative_Threshold` on a two-channel x730 board whose self triggered event has
`size = 3` has no result. -/
theorem preTriggerSamples_zero_for_small :
    preTriggerSamples 1 = 0 ∧ preTriggerSamples 2 = 0 ∧ preTriggerSamples 3 = 0 ∧
      preTriggerSamples 4 = 1 ∧
      (selfTriggerStep { thresholdDevice 1 1 8000 with ChSize := fun _ _ => 3 } (fun _ => 50)
        board730
        { WDcfg := config730one, baseline := fun _ => 0, no_self_triggered_event := fun _ => 0,
          sw_trigger_needed := 0, calls := [] } 0).isNone = true ∧
      (Set_relative_Threshold { thresholdDevice 1 1 8000 with ChSize := fun _ _ => 3 }
        (fun _ => 50) config730one board730).isNone = true ∧
      (Set_relative_Threshold { thresholdDevice 1 1 8000 with ChSize := fun _ _ => 4 }
        (fun _ => 50) config730one board730).map (fun r => r.WDcfg.Threshold 0) =
        some 8050 := by
  refine ⟨by decide, by decide, by decide, by decide, by decide, by decide, by decide⟩

/-! ## Monotonicity of the applier -/

/-- The conversion `(uint32_t)x` is monotone on `[0, 2 ^ 32)`. -/
theorem toUInt32_mono {x y : ℚ} (hx : 0 ≤ x) (hxy : x ≤ y) (hy : y < 2 ^ 32) :
    toUInt32 x ≤ toUInt32 y := by
  have key : ∀ z : ℚ, 0 ≤ z → z < 2 ^ 32 → toUInt32 z = Int.toNat ⌊z⌋ := by
    intro z hz0 hz1
    unfold toUInt32
    apply Nat.mod_eq_of_lt
    have h1 : ⌊z⌋ < 2 ^ 32 := by
      rw [Int.floor_lt]
      exact_mod_cast hz1
    have h2 : 0 ≤ ⌊z⌋ := Int.floor_nonneg.mpr hz0
    omega
  rw [key x hx (lt_of_le_of_lt hxy hy), key y (le_trans hx hxy) hy]
  exact Int.toNat_le_toNat (Int.floor_le_floor hxy)

/-- C30. Applier is order-reversing: for a unit `ch` in Calibrated mode with positive
pulses and a model with gain `g > 0` and offset `o`, and two requests `r1 ≤ r2` with
`(r2 - o) / g ≤ 100` (hence also for `r1`) and the unclamped code of `r1` below `2 ^ 32`
(hence also the one of `r2`), `Set_calibrated_DCO` returns for both, and the DAC code it
stores and writes for `r1` is at least the one for `r2`, before the clamp at `65535` and
after it. -/
theorem Set_calibrated_DCO_antitone (dc1 dc2 : Nat → Int) (setRet : Int) (ch : Nat)
    (WDcfg : WaveDumpConfig_t) (BoardInfo : CAEN_DGTZ_BoardInfo_t) (g o : ℚ)
    (hv : WDcfg.Version_used ch ≠ 0)
    (hp : WDcfg.PulsePolarity ch = .CAEN_DGTZ_PulsePolarityPositive)
    (hcal : WDcfg.DAC_Calib.cal ch = some g) (hoff : WDcfg.DAC_Calib.offset ch = some o)
    (hg : 0 < g) (hr : dc1 ch ≤ dc2 ch)
    (h2 : ((dc2 ch : ℚ) - o) / g ≤ 100)
    (hu1 : (100 - ((dc1 ch : ℚ) - o) / g) * (65535 / 100) < 2 ^ 32) :
    ∃ c1 c2 res1 res2,
      calibratedCode (WDcfg.PulsePolarity ch) (dc1 ch) (WDcfg.DAC_Calib.cal ch)
        (WDcfg.DAC_Calib.offset ch) = some c1 ∧
      calibratedCode (WDcfg.PulsePolarity ch) (dc2 ch) (WDcfg.DAC_Calib.cal ch)
        (WDcfg.DAC_Calib.offset ch) = some c2 ∧
      c2 ≤ c1 ∧
      Set_calibrated_DCO dc1 setRet ch WDcfg BoardInfo = some res1 ∧
      Set_calibrated_DCO dc2 setRet ch WDcfg BoardInfo = some res2 ∧
      res1.WDcfg.DCoffset ch = min c1 65535 ∧ res2.WDcfg.DCoffset ch = min c2 65535 ∧
      res2.WDcfg.DCoffset ch ≤ res1.WDcfg.DCoffset ch ∧
      (res1.calls = [HwCall.SetChannelDCOffset ch (res1.WDcfg.DCoffset ch)] ∨
        res1.calls = [HwCall.SetGroupDCOffset ch (res1.WDcfg.DCoffset ch)]) ∧
      (res2.calls = [HwCall.SetChannelDCOffset ch (res2.WDcfg.DCoffset ch)] ∨
        res2.calls = [HwCall.SetGroupDCOffset ch (res2.WDcfg.DCoffset ch)]) := by
  have hgne : g ≠ 0 := ne_of_gt hg
  have habs : ∀ r : Int, ((r : ℚ) - o) / g ≤ 100 →
      |((r : ℚ) - o) / g - 100| = 100 - ((r : ℚ) - o) / g := by
    intro r h
    rw [abs_of_nonpos (by linarith)]
    ring
  have hcode : ∀ r : Int, ((r : ℚ) - o) / g ≤ 100 →
      calibratedCode (WDcfg.PulsePolarity ch) r (WDcfg.DAC_Calib.cal ch)
        (WDcfg.DAC_Calib.offset ch) =
        some (toUInt32 ((100 - ((r : ℚ) - o) / g) * (65535 / 100))) := by
    intro r h
    rw [hp, hcal, hoff, calibratedCode_of_target (targetPercent_positive r o hgne), habs r h]
  have hle : ((dc1 ch : ℚ) - o) / g ≤ ((dc2 ch : ℚ) - o) / g := by
    apply div_le_div_of_nonneg_right _ (le_of_lt hg)
    have : (dc1 ch : ℚ) ≤ (dc2 ch : ℚ) := by exact_mod_cast hr
    linarith
  have h1 : ((dc1 ch : ℚ) - o) / g ≤ 100 := le_trans hle h2
  have hmono : toUInt32 ((100 - ((dc2 ch : ℚ) - o) / g) * (65535 / 100)) ≤
      toUInt32 ((100 - ((dc1 ch : ℚ) - o) / g) * (65535 / 100)) := by
    apply toUInt32_mono _ _ hu1
    · apply mul_nonneg
      · linarith
      · norm_num
    · apply mul_le_mul_of_nonneg_right
      · linarith
      · norm_num
  obtain ⟨res1, e1, w1, _, k1⟩ := Set_calibrated_DCO_of_code dc1 setRet ch WDcfg BoardInfo _ hv
    (hcode (dc1 ch) h1)
  obtain ⟨res2, e2, w2, _, k2⟩ := Set_calibrated_DCO_of_code dc2 setRet ch WDcfg BoardInfo _ hv
    (hcode (dc2 ch) h2)
  have d1 : res1.WDcfg.DCoffset ch =
      min (toUInt32 ((100 - ((dc1 ch : ℚ) - o) / g) * (65535 / 100))) 65535 := by
    rw [w1]
    simp
  have d2 : res2.WDcfg.DCoffset ch =
      min (toUInt32 ((100 - ((dc2 ch : ℚ) - o) / g) * (65535 / 100))) 65535 := by
    rw [w2]
    simp
  refine ⟨_, _, res1, res2, hcode (dc1 ch) h1, hcode (dc2 ch) h2, hmono, e1, e2, d1, d2, ?_,
    ?_, ?_⟩
  · rw [d1, d2]
    exact min_le_min hmono (le_refl _)
  · rw [d1]
    exact k1
  · rw [d2]
    exact k2

/-- The order reversal of C30 on the model `cal = 1`, `offset = 0` of a two-channel x730
board: the request `25` gives a code that is at least the code of the request `75`. -/
theorem Set_calibrated_DCO_antitone_witness :
    (Set_calibrated_DCO (fun _ => 75) 0 0 config730 board730).bind (fun r2 =>
      (Set_calibrated_DCO (fun _ => 25) 0 0 config730 board730).map (fun r1 =>
        decide (r2.WDcfg.DCoffset 0 ≤ r1.WDcfg.DCoffset 0))) = some true := by
  obtain ⟨c1, c2, res1, res2, _, _, _, e1, e2, _, _, hle, _, _⟩ :=
    Set_calibrated_DCO_antitone (fun _ => 25) (fun _ => 75) 0 0 config730 board730 1 0
      (by decide) rfl rfl rfl (by norm_num) (by norm_num) (by norm_num) (by norm_num)
  rw [e2, e1]
  simp [hle]

/-! ## The floating point expressions of the Fitter and of the Applier -/

theorem fitCalFloat_some {a0 a1 s f c : ℚ} (h1 : toFloat (a1 - a0) = some s)
    (h2 : toFloat 50 = some f) (hf : f ≠ 0) (h3 : toFloat (s / f) = some c) :
    fitCalFloat (some a0) (some a1) = some c := by
  have e : ((u32sub (dc 1) (dc 0) : Nat) : ℚ) = 50 := by norm_num [u32sub, dc]
  unfold fitCalFloat CFloat.divF CFloat.subF CFloat.sub CFloat.div
  rw [e, h2]
  simp only [Option.some_bind, h1, if_neg hf, h3]

theorem fitOffsetFloat_some {a0 a1 f75 f25 m0 m1 s f c : ℚ} (h75 : toFloat 75 = some f75)
    (h25 : toFloat 25 = some f25) (hm0 : toFloat (f75 * a0) = some m0)
    (hm1 : toFloat (f25 * a1) = some m1) (h1 : toFloat (m0 - m1) = some s)
    (h2 : toFloat 50 = some f) (hf : f ≠ 0) (h3 : toFloat (s / f) = some c) :
    fitOffsetFloat (some a0) (some a1) = some c := by
  have e : ((u32sub (dc 1) (dc 0) : Nat) : ℚ) = 50 := by norm_num [u32sub, dc]
  have e1 : ((dc 1 : Nat) : ℚ) = 75 := by norm_num [dc]
  have e0 : ((dc 0 : Nat) : ℚ) = 25 := by norm_num [dc]
  unfold fitOffsetFloat CFloat.divF CFloat.subF CFloat.mulF CFloat.sub CFloat.div CFloat.mul
  rw [e, e1, e0, h2, h75, h25]
  simp only [Option.some_bind, hm0, hm1, h1, if_neg hf, h3]

theorem calibratedCodeFloat_positive {r : Int} {g o rf s q d t c x : ℚ}
    (h0 : toFloat (r : ℚ) = some rf) (h1 : toFloat (rf - o) = some s) (hg : g ≠ 0)
    (h2 : toFloat (s / g) = some q) (h3 : toDouble (q - 100) = some d)
    (h4 : toFloat |d| = some t) (h5 : toDouble (65535 / 100) = some c)
    (h6 : toDouble (t * c) = some x) :
    calibratedCodeFloat .CAEN_DGTZ_PulsePolarityPositive r (some g) (some o) =
      some (toUInt32 x) := by
  unfold calibratedCodeFloat targetPercentFloat CFloat.mulD CFloat.subD CFloat.divF CFloat.subF
    CFloat.sub CFloat.div CFloat.mul CFloat.fabs
  rw [h0, h5]
  simp only [Option.some_bind, h1, if_neg hg, h2, h3, Option.map_some', h4, h6]

theorem calibratedCodeFloat_negative {r : Int} {g o a s q d t c x : ℚ}
    (h0 : toDouble ((r : ℚ) - 100) = some a) (h1 : toDouble (|a| - o) = some s) (hg : g ≠ 0)
    (h2 : toDouble (s / g) = some q) (h3 : toDouble (q - 100) = some d)
    (h4 : toFloat |d| = some t) (h5 : toDouble (65535 / 100) = some c)
    (h6 : toDouble (t * c) = some x) :
    calibratedCodeFloat .CAEN_DGTZ_PulsePolarityNegative r (some g) (some o) =
      some (toUInt32 x) := by
  unfold calibratedCodeFloat targetPercentFloat CFloat.mulD CFloat.subD CFloat.divD
    CFloat.sub CFloat.div CFloat.mul CFloat.fabs
  rw [h5]
  simp only [Option.some_bind, h0, Option.map_some', h1, if_neg hg, h2, h3, h4, h6]

/-- The `double` product converted by `(uint32_t)` in `Set_calibrated_DCO`, for positive
pulses, from the results of the operations. -/
theorem scaledTargetFloat_positive {r : Int} {g o rf s q d t c x : ℚ}
    (h0 : toFloat (r : ℚ) = some rf) (h1 : toFloat (rf - o) = some s) (hg : g ≠ 0)
    (h2 : toFloat (s / g) = some q) (h3 : toDouble (q - 100) = some d)
    (h4 : toFloat |d| = some t) (h5 : toDouble (65535 / 100) = some c)
    (h6 : toDouble (t * c) = some x) :
    CFloat.mulD (targetPercentFloat .CAEN_DGTZ_PulsePolarityPositive r (some g) (some o))
      (toDouble (65535 / 100)) = some x := by
  unfold targetPercentFloat CFloat.mulD CFloat.subD CFloat.divF CFloat.subF
    CFloat.sub CFloat.div CFloat.mul CFloat.fabs
  rw [h0, h5]
  simp only [Option.some_bind, h1, if_neg hg, h2, h3, Option.map_some', h4, h6]

/-- The `double` product converted by `(uint32_t)` in `Set_calibrated_DCO`, for negative
pulses, from the results of the operations. -/
theorem scaledTargetFloat_negative {r : Int} {g o a s q d t c x : ℚ}
    (h0 : toDouble ((r : ℚ) - 100) = some a) (h1 : toDouble (|a| - o) = some s) (hg : g ≠ 0)
    (h2 : toDouble (s / g) = some q) (h3 : toDouble (q - 100) = some d)
    (h4 : toFloat |d| = some t) (h5 : toDouble (65535 / 100) = some c)
    (h6 : toDouble (t * c) = some x) :
    CFloat.mulD (targetPercentFloat .CAEN_DGTZ_PulsePolarityNegative r (some g) (some o))
      (toDouble (65535 / 100)) = some x := by
  unfold targetPercentFloat CFloat.mulD CFloat.subD CFloat.divD
    CFloat.sub CFloat.div CFloat.mul CFloat.fabs
  rw [h5]
  simp only [Option.some_bind, h0, Option.map_some', h1, if_neg hg, h2, h3, h4, h6]

/-! ## Error bounds of the applier in the arithmetic of the code -/

/-- A conversion to `double` is at least as accurate as a conversion to `float`. -/
theorem toDouble_error_le {x y : ℚ} (h : toDouble x = some y) :
    |y - x| ≤ |x| / 2 ^ 24 + 1 / 2 ^ 150 := by
  have e := toDouble_error h
  have h1 : |x| / 2 ^ 53 ≤ |x| / 2 ^ 24 :=
    div_le_div_of_nonneg_left (abs_nonneg x) (by norm_num) (by norm_num)
  have h2 : (1 : ℚ) / 2 ^ 1075 ≤ 1 / 2 ^ 150 := by norm_num
  linarith

/-- The rounded quotient `(A - o) / g` of the applier, for a rounding `rnd` that is
`float` or `double`: both operations have a result, within `402 / 2 ^ 24` of the exact
quotient when that is at most `200` in absolute value. -/
theorem quotient_error (rnd : ℚ → CFloat) (hex : ∀ x, |x| ≤ 2 ^ 100 → ∃ y, rnd x = some y)
    (herr : ∀ x y, rnd x = some y → |y - x| ≤ |x| / 2 ^ 24 + 1 / 2 ^ 150)
    (A g o : ℚ) (hg1 : 1 / 2 ^ 20 ≤ |g|) (hg2 : |g| ≤ 2 ^ 20) (hQ : |(A - o) / g| ≤ 200) :
    ∃ s q, rnd (A - o) = some s ∧ rnd (s / g) = some q ∧
      |q - (A - o) / g| ≤ 402 / 2 ^ 24 := by
  have hgpos : 0 < |g| := lt_of_lt_of_le (by norm_num) hg1
  have hA : |A - o| ≤ 200 * |g| := by
    rw [abs_div, div_le_iff₀ hgpos] at hQ
    exact hQ
  have hA2 : |A - o| ≤ 2 ^ 100 := by
    have : (200 : ℚ) * 2 ^ 20 ≤ 2 ^ 100 := by norm_num
    nlinarith
  obtain ⟨s, hs⟩ := hex _ hA2
  have es := herr _ _ hs
  have h1 : |s / g - (A - o) / g| ≤ 200 / 2 ^ 24 + 1 / 2 ^ 130 := by
    rw [← sub_div, abs_div, div_le_iff₀ hgpos]
    have h3 : (1 : ℚ) / 2 ^ 150 ≤ 1 / 2 ^ 130 * |g| := by
      have : (1 : ℚ) / 2 ^ 150 = 1 / 2 ^ 130 * (1 / 2 ^ 20) := by norm_num
      rw [this]
      exact mul_le_mul_of_nonneg_left hg1 (by norm_num)
    have h4 : |A - o| / 2 ^ 24 ≤ 200 / 2 ^ 24 * |g| := by
      rw [div_mul_eq_mul_div]
      exact div_le_div_of_nonneg_right hA (by norm_num)
    linarith
  have h2 : |s / g| ≤ 201 := by
    have := abs_sub_abs_le_abs_sub (s / g) ((A - o) / g)
    have h5 : (200 : ℚ) / 2 ^ 24 + 1 / 2 ^ 130 ≤ 1 := by norm_num
    linarith
  obtain ⟨q, hq⟩ := hex (s / g) (le_trans h2 (by norm_num))
  have eq := herr _ _ hq
  refine ⟨s, q, hs, hq, ?_⟩
  have h6 := abs_sub_le q (s / g) ((A - o) / g)
  have h7 : |s / g| / 2 ^ 24 ≤ 201 / 2 ^ 24 :=
    div_le_div_of_nonneg_right h2 (by norm_num)
  have h8 : (201 : ℚ) / 2 ^ 24 + 1 / 2 ^ 150 + (200 / 2 ^ 24 + 1 / 2 ^ 130) ≤ 402 / 2 ^ 24 := by
    norm_num
  linarith

/-- The `double` constant `655.35`. -/
theorem toDouble_scale :
    toDouble (65535 / 100) = some (5764519562104013 / 8796093022208) := by
  refine toDouble_of_near _ _ 9 5764519562104013 (1 / 8796093022208) (by norm_num) (by norm_num)
    ?_ ?_ ?_ ?_ ?_ <;> norm_num [abs_of_pos, abs_of_neg, abs_lt]

/-- The last operations of the applier, from the quotient `q`: the subtraction of `100.` and
`fabs` in `double`, the cast to `float` and the `double` product with `655.35`. When `q` is
within `ε` of a value `Q` with `|Q| ≤ 200`, all of them have a result and the product `x`
is within `656 * ε + 1 / 64` of `|Q - 100| * 655.35`. -/
theorem scaled_error (q Q ε : ℚ) (hq : |q - Q| ≤ ε) (hQ : |Q| ≤ 200) (hε : ε ≤ 1) :
    ∃ d t x, toDouble (q - 100) = some d ∧ toFloat |d| = some t ∧
      toDouble (t * (5764519562104013 / 8796093022208)) = some x ∧
      0 ≤ x ∧ x < 2 ^ 32 ∧ |x - |Q - 100| * (65535 / 100)| ≤ 656 * ε + 1 / 64 := by
  have hε0 : 0 ≤ ε := le_trans (abs_nonneg _) hq
  have hqa : |q| ≤ 201 := by
    have := abs_sub_abs_le_abs_sub q Q
    linarith
  have hq100 : |q - 100| ≤ 301 := by
    have := abs_sub q 100
    have h100 : |(100 : ℚ)| = 100 := abs_of_pos (by norm_num)
    linarith
  obtain ⟨d, hd⟩ := toDouble_exists (q - 100) (le_trans hq100 (by norm_num))
  have ed := toDouble_error hd
  have ed2 : |d - (q - 100)| ≤ 1 / 2 ^ 44 := by
    have h1 : |q - 100| / 2 ^ 53 ≤ 301 / 2 ^ 53 :=
      div_le_div_of_nonneg_right hq100 (by norm_num)
    have h2 : (301 : ℚ) / 2 ^ 53 + 1 / 2 ^ 1075 ≤ 1 / 2 ^ 44 := by norm_num
    linarith
  have hda : |d| ≤ 302 := by
    have := abs_sub_abs_le_abs_sub d (q - 100)
    have h2 : (1 : ℚ) / 2 ^ 44 ≤ 1 := by norm_num
    linarith
  have hdd : |(|d|)| ≤ 2 ^ 100 := by
    rw [abs_abs]
    exact le_trans hda (by norm_num)
  obtain ⟨t, ht⟩ := toFloat_exists |d| hdd
  have et := toFloat_error ht
  rw [abs_abs] at et
  have ht0 : 0 ≤ t := toFloat_nonneg ht (abs_nonneg d)
  have h3 : |(|d| - |q - 100|)| ≤ 1 / 2 ^ 44 :=
    le_trans (abs_abs_sub_abs_le_abs_sub d (q - 100)) ed2
  have h4 : |(|q - 100| - |Q - 100|)| ≤ ε := by
    have := abs_abs_sub_abs_le_abs_sub (q - 100) (Q - 100)
    have e : q - 100 - (Q - 100) = q - Q := by ring
    rw [e] at this
    exact le_trans this hq
  have hT : |Q - 100| ≤ 300 := by
    have := abs_sub Q 100
    have h100 : |(100 : ℚ)| = 100 := abs_of_pos (by norm_num)
    linarith
  have htT : |(t - |Q - 100|)| ≤ ε + 304 / 2 ^ 24 := by
    have h5 := abs_sub_le t |d| |Q - 100|
    have h6 := abs_sub_le |d| |q - 100| |Q - 100|
    have h7 : |d| / 2 ^ 24 ≤ 302 / 2 ^ 24 := div_le_div_of_nonneg_right hda (by norm_num)
    have h8 : (302 : ℚ) / 2 ^ 24 + 1 / 2 ^ 150 + 1 / 2 ^ 44 ≤ 304 / 2 ^ 24 := by norm_num
    linarith
  have htT2 := abs_le.mp htT
  have ht302 : t ≤ 302 := by
    have h8 : (304 : ℚ) / 2 ^ 24 ≤ 1 := by norm_num
    linarith [htT2.2]
  have hc0 : (0 : ℚ) < 5764519562104013 / 8796093022208 := by norm_num
  have hc656 : (5764519562104013 / 8796093022208 : ℚ) ≤ 656 := by norm_num
  have hcK : |(5764519562104013 / 8796093022208 : ℚ) - 65535 / 100| ≤ 1 / 2 ^ 43 := by
    rw [abs_le]
    constructor <;> norm_num
  have htc0 : 0 ≤ t * (5764519562104013 / 8796093022208) := mul_nonneg ht0 (le_of_lt hc0)
  have htc : t * (5764519562104013 / 8796093022208) ≤ 302 * 656 :=
    mul_le_mul ht302 hc656 (le_of_lt hc0) (by norm_num)
  have htca : |t * (5764519562104013 / 8796093022208)| ≤ 302 * 656 := by
    rw [abs_of_nonneg htc0]
    exact htc
  obtain ⟨x, hx⟩ := toDouble_exists (t * (5764519562104013 / 8796093022208))
    (le_trans htca (by norm_num))
  have ex := toDouble_error hx
  have hx0 : 0 ≤ x := toDouble_nonneg hx htc0
  have ex2 : |x - t * (5764519562104013 / 8796093022208)| ≤ 1 / 2 ^ 35 := by
    have h1 : |t * (5764519562104013 / 8796093022208)| / 2 ^ 53 ≤ 302 * 656 / 2 ^ 53 :=
      div_le_div_of_nonneg_right htca (by norm_num)
    have h2 : (302 : ℚ) * 656 / 2 ^ 53 + 1 / 2 ^ 1075 ≤ 1 / 2 ^ 35 := by norm_num
    linarith
  have hprod : |t * (5764519562104013 / 8796093022208) - |Q - 100| * (65535 / 100)| ≤
      656 * (ε + 304 / 2 ^ 24) + 300 * (1 / 2 ^ 43) := by
    have e : t * (5764519562104013 / 8796093022208) - |Q - 100| * (65535 / 100) =
        (t - |Q - 100|) * (5764519562104013 / 8796093022208) +
          |Q - 100| * (5764519562104013 / 8796093022208 - 65535 / 100) := by ring
    rw [e]
    refine le_trans (abs_add _ _) ?_
    rw [abs_mul, abs_mul, abs_of_pos hc0, abs_abs]
    have h1 : |(t - |Q - 100|)| * (5764519562104013 / 8796093022208) ≤
        (ε + 304 / 2 ^ 24) * 656 :=
      mul_le_mul htT hc656 (le_of_lt hc0) (by positivity)
    have h2 : |Q - 100| * |(5764519562104013 / 8796093022208 : ℚ) - 65535 / 100| ≤
        300 * (1 / 2 ^ 43) :=
      mul_le_mul hT hcK (abs_nonneg _) (by norm_num)
    linarith
  have hfin : |x - |Q - 100| * (65535 / 100)| ≤ 656 * ε + 1 / 64 := by
    have h5 := abs_sub_le x (t * (5764519562104013 / 8796093022208))
      (|Q - 100| * (65535 / 100))
    have h6 : (656 : ℚ) * (304 / 2 ^ 24) + 300 * (1 / 2 ^ 43) + 1 / 2 ^ 35 ≤ 1 / 64 := by
      norm_num
    linarith
  refine ⟨d, t, x, hd, ht, hx, hx0, ?_, hfin⟩
  have h9 := (abs_le.mp hfin).2
  have h10 : |Q - 100| * (65535 / 100) ≤ 300 * (65535 / 100) :=
    mul_le_mul_of_nonneg_right hT (by norm_num)
  have h11 : (300 : ℚ) * (65535 / 100) + (656 * 1 + 1 / 64) < 2 ^ 32 := by norm_num
  linarith

/-- The conversion `(uint32_t)x` of a value `x` within less than `1` of `X`: the floor of
`x`, within `1` of the floor of `X`. -/
theorem toUInt32_near {x X e : ℚ} (hx0 : 0 ≤ x) (hx : x < 2 ^ 32) (h : |x - X| ≤ e)
    (he : e < 1) :
    ((toUInt32 x : Nat) : Int) = ⌊x⌋ ∧ |((toUInt32 x : Nat) : Int) - ⌊X⌋| ≤ 1 := by
  have hf0 : 0 ≤ ⌊x⌋ := Int.floor_nonneg.mpr hx0
  have hf1 : ⌊x⌋ < 2 ^ 32 := by
    rw [Int.floor_lt]
    exact_mod_cast hx
  have e1 : ((toUInt32 x : Nat) : Int) = ⌊x⌋ := by
    unfold toUInt32
    have h2 : (⌊x⌋.toNat : Int) = ⌊x⌋ := Int.toNat_of_nonneg hf0
    have h3 : ⌊x⌋.toNat < 2 ^ 32 := by omega
    rw [Nat.mod_eq_of_lt h3, h2]
  refine ⟨e1, ?_⟩
  rw [e1]
  have hab := abs_le.mp h
  have a1 : (⌊x⌋ : ℚ) ≤ x := Int.floor_le x
  have a2 : x < ⌊x⌋ + 1 := Int.lt_floor_add_one x
  have b1 : (⌊X⌋ : ℚ) ≤ X := Int.floor_le X
  have b2 : X < ⌊X⌋ + 1 := Int.lt_floor_add_one X
  have c1 : ((⌊x⌋ : Int) : ℚ) < ⌊X⌋ + 2 := by linarith [hab.1, hab.2]
  have c2 : ((⌊X⌋ : Int) : ℚ) < ⌊x⌋ + 2 := by linarith [hab.1, hab.2]
  have d1 : ⌊x⌋ < ⌊X⌋ + 2 := by exact_mod_cast c1
  have d2 : ⌊X⌋ < ⌊x⌋ + 2 := by exact_mod_cast c2
  rw [abs_le]
  constructor <;> omega
/-! ## Error bounds of the fit in the arithmetic of the code -/

theorem toFloat_fifty : toFloat 50 = some 50 := by
  simpa using toFloat_intCast 50 (by norm_num)

theorem toFloat_seventy_five : toFloat 75 = some 75 := by
  simpa using toFloat_intCast 75 (by norm_num)

theorem toFloat_twenty_five : toFloat 25 = some 25 := by
  simpa using toFloat_intCast 25 (by norm_num)

/-- The gain of equal estimates in the arithmetic of the code: `0`. -/
theorem fitCalFloat_self (y : ℚ) : fitCalFloat (some y) (some y) = some 0 := by
  have hs : toFloat (y - y) = some 0 := by
    rw [sub_self]; exact toFloat_zero
  have hg : toFloat ((0 : ℚ) / 50) = some 0 := by
    rw [zero_div]; exact toFloat_zero
  exact fitCalFloat_some hs toFloat_fifty (by norm_num) hg

/-- The gain fitted in the arithmetic of the code from two estimates that differ by at least
`2 ^ (-100)` and at most `2 ^ 100`: it has a value, within `|y2 - y1| / (24 * 2 ^ 24)` of
`(y2 - y1) / 50`, and that value is not `0`. -/
theorem fitCalFloat_error (y1 y2 : ℚ) (hlo : 1 / 2 ^ 100 ≤ |y2 - y1|)
    (hhi : |y2 - y1| ≤ 2 ^ 100) :
    ∃ g, fitCalFloat (some y1) (some y2) = some g ∧
      |g - (y2 - y1) / 50| ≤ |y2 - y1| / (24 * 2 ^ 24) ∧ g ≠ 0 := by
  obtain ⟨s, hs⟩ := toFloat_exists (y2 - y1) hhi
  have es := toFloat_error hs
  have hη : (1 : ℚ) / 2 ^ 150 ≤ |y2 - y1| / 2 ^ 50 := by
    have : (1 : ℚ) / 2 ^ 150 = 1 / 2 ^ 100 / 2 ^ 50 := by norm_num
    rw [this]
    exact div_le_div_of_nonneg_right hlo (by norm_num)
  have hsa : |s| ≤ |y2 - y1| + (|y2 - y1| / 2 ^ 24 + |y2 - y1| / 2 ^ 50) := by
    have := abs_sub_abs_le_abs_sub s (y2 - y1)
    linarith
  have hs50 : |s / 50| = |s| / 50 := by
    rw [abs_div, abs_of_pos (by norm_num : (0 : ℚ) < 50)]
  have hex : |s / 50| ≤ 2 ^ 100 := by
    rw [hs50]
    have h0 := abs_nonneg (y2 - y1)
    have h1 : |y2 - y1| / 2 ^ 24 ≤ |y2 - y1| := div_le_self h0 (by norm_num)
    have h2 : |y2 - y1| / 2 ^ 50 ≤ |y2 - y1| := div_le_self h0 (by norm_num)
    have h3 : |s| / 50 ≤ 3 * |y2 - y1| / 50 := div_le_div_of_nonneg_right (by linarith) (by norm_num)
    linarith
  obtain ⟨g, hg⟩ := toFloat_exists (s / 50) hex
  have eg := toFloat_error hg
  rw [hs50] at eg
  have hmain : |g - (y2 - y1) / 50| ≤ |y2 - y1| / (24 * 2 ^ 24) := by
    have h1 := abs_sub_le g (s / 50) ((y2 - y1) / 50)
    have h2 : |s / 50 - (y2 - y1) / 50| = |s - (y2 - y1)| / 50 := by
      rw [← sub_div, abs_div, abs_of_pos (by norm_num : (0 : ℚ) < 50)]
    rw [h2] at h1
    have h0 := abs_nonneg (y2 - y1)
    have h3 : |s - (y2 - y1)| / 50 ≤ (|y2 - y1| / 2 ^ 24 + |y2 - y1| / 2 ^ 50) / 50 :=
      div_le_div_of_nonneg_right (by linarith) (by norm_num)
    have h4 : |s| / 50 / 2 ^ 24 ≤
        (|y2 - y1| + (|y2 - y1| / 2 ^ 24 + |y2 - y1| / 2 ^ 50)) / 50 / 2 ^ 24 :=
      div_le_div_of_nonneg_right (div_le_div_of_nonneg_right hsa (by norm_num)) (by norm_num)
    have h5 : (|y2 - y1| + (|y2 - y1| / 2 ^ 24 + |y2 - y1| / 2 ^ 50)) / 50 / 2 ^ 24 +
        |y2 - y1| / 2 ^ 50 + (|y2 - y1| / 2 ^ 24 + |y2 - y1| / 2 ^ 50) / 50 ≤
        |y2 - y1| / (24 * 2 ^ 24) := by
      have e : |y2 - y1| / (24 * 2 ^ 24) -
          ((|y2 - y1| + (|y2 - y1| / 2 ^ 24 + |y2 - y1| / 2 ^ 50)) / 50 / 2 ^ 24 +
            |y2 - y1| / 2 ^ 50 + (|y2 - y1| / 2 ^ 24 + |y2 - y1| / 2 ^ 50) / 50) =
          |y2 - y1| * (1 / (24 * 2 ^ 24) -
            ((1 + (1 / 2 ^ 24 + 1 / 2 ^ 50)) / 50 / 2 ^ 24 + 1 / 2 ^ 50 +
              (1 / 2 ^ 24 + 1 / 2 ^ 50) / 50)) := by ring
      have h6 : (0 : ℚ) ≤ 1 / (24 * 2 ^ 24) -
            ((1 + (1 / 2 ^ 24 + 1 / 2 ^ 50)) / 50 / 2 ^ 24 + 1 / 2 ^ 50 +
              (1 / 2 ^ 24 + 1 / 2 ^ 50) / 50) := by norm_num
      have := mul_nonneg h0 h6
      linarith
    linarith
  refine ⟨g, fitCalFloat_some hs toFloat_fifty (by norm_num) hg, hmain, ?_⟩
  intro h0
  rw [h0, zero_sub, abs_neg, abs_div, abs_of_pos (by norm_num : (0 : ℚ) < 50)] at hmain
  have hpos : 0 < |y2 - y1| := lt_of_lt_of_le (by norm_num) hlo
  have : |y2 - y1| / (24 * 2 ^ 24) < |y2 - y1| / 50 :=
    div_lt_div_of_pos_left hpos (by norm_num) (by norm_num)
  linarith

/-- The intercept fitted in the arithmetic of the code from two estimates in `[0, 100]`: it
has a value, within `502 / 2 ^ 24` of `(75 * y1 - 25 * y2) / 50`. -/
theorem fitOffsetFloat_error (y1 y2 : ℚ) (h1 : 0 ≤ y1) (h1b : y1 ≤ 100) (h2 : 0 ≤ y2)
    (h2b : y2 ≤ 100) :
    ∃ o, fitOffsetFloat (some y1) (some y2) = some o ∧
      |o - (75 * y1 - 25 * y2) / 50| ≤ 502 / 2 ^ 24 := by
  have a0 : |75 * y1| ≤ 7500 := by
    rw [abs_of_nonneg (by linarith)]; linarith
  have a1 : |25 * y2| ≤ 2500 := by
    rw [abs_of_nonneg (by linarith)]; linarith
  obtain ⟨m0, hm0⟩ := toFloat_exists (75 * y1) (le_trans a0 (by norm_num))
  obtain ⟨m1, hm1⟩ := toFloat_exists (25 * y2) (le_trans a1 (by norm_num))
  have e0 := toFloat_error hm0
  have e1 := toFloat_error hm1
  have e0b : |m0 - 75 * y1| ≤ 7500 / 2 ^ 24 + 1 / 2 ^ 150 := by
    have : |75 * y1| / 2 ^ 24 ≤ 7500 / 2 ^ 24 := div_le_div_of_nonneg_right a0 (by norm_num)
    linarith
  have e1b : |m1 - 25 * y2| ≤ 2500 / 2 ^ 24 + 1 / 2 ^ 150 := by
    have : |25 * y2| / 2 ^ 24 ≤ 2500 / 2 ^ 24 := div_le_div_of_nonneg_right a1 (by norm_num)
    linarith
  have eN : |m0 - m1 - (75 * y1 - 25 * y2)| ≤ 10000 / 2 ^ 24 + 2 / 2 ^ 150 := by
    have e : m0 - m1 - (75 * y1 - 25 * y2) = (m0 - 75 * y1) - (m1 - 25 * y2) := by ring
    rw [e]
    have := abs_sub (m0 - 75 * y1) (m1 - 25 * y2)
    linarith
  have aN : |75 * y1 - 25 * y2| ≤ 7500 := by
    rw [abs_le]; constructor <;> linarith
  have aD : |m0 - m1| ≤ 7501 := by
    have := abs_sub_abs_le_abs_sub (m0 - m1) (75 * y1 - 25 * y2)
    have h3 : (10000 : ℚ) / 2 ^ 24 + 2 / 2 ^ 150 ≤ 1 := by norm_num
    linarith
  obtain ⟨d, hd⟩ := toFloat_exists (m0 - m1) (le_trans aD (by norm_num))
  have ed := toFloat_error hd
  have edb : |d - (m0 - m1)| ≤ 7501 / 2 ^ 24 + 1 / 2 ^ 150 := by
    have : |m0 - m1| / 2 ^ 24 ≤ 7501 / 2 ^ 24 := div_le_div_of_nonneg_right aD (by norm_num)
    linarith
  have edN : |d - (75 * y1 - 25 * y2)| ≤ 17501 / 2 ^ 24 + 3 / 2 ^ 150 := by
    have := abs_sub_le d (m0 - m1) (75 * y1 - 25 * y2)
    linarith
  have ad : |d| ≤ 7502 := by
    have := abs_sub_abs_le_abs_sub d (m0 - m1)
    have h3 : (7501 : ℚ) / 2 ^ 24 + 1 / 2 ^ 150 ≤ 1 := by norm_num
    linarith
  have ad50 : |d / 50| ≤ 151 := by
    rw [abs_div, abs_of_pos (by norm_num : (0 : ℚ) < 50), div_le_iff₀ (by norm_num)]
    linarith
  obtain ⟨o, ho⟩ := toFloat_exists (d / 50) (le_trans ad50 (by norm_num))
  have eo := toFloat_error ho
  refine ⟨o, fitOffsetFloat_some toFloat_seventy_five toFloat_twenty_five hm0 hm1 hd
    toFloat_fifty (by norm_num) ho, ?_⟩
  have h4 := abs_sub_le o (d / 50) ((75 * y1 - 25 * y2) / 50)
  have h5 : |d / 50 - (75 * y1 - 25 * y2) / 50| = |d - (75 * y1 - 25 * y2)| / 50 := by
    rw [← sub_div, abs_div, abs_of_pos (by norm_num : (0 : ℚ) < 50)]
  rw [h5] at h4
  have h6 : |d - (75 * y1 - 25 * y2)| / 50 ≤ (17501 / 2 ^ 24 + 3 / 2 ^ 150) / 50 :=
    div_le_div_of_nonneg_right edN (by norm_num)
  have h7 : |d / 50| / 2 ^ 24 ≤ 151 / 2 ^ 24 := div_le_div_of_nonneg_right ad50 (by norm_num)
  have h8 : (151 : ℚ) / 2 ^ 24 + 1 / 2 ^ 150 + (17501 / 2 ^ 24 + 3 / 2 ^ 150) / 50 ≤
      502 / 2 ^ 24 := by norm_num
  linarith

/-- The applier on a fitted model, in the arithmetic of the code, with positive pulses: when
the gain `g` is within `100 / (24 * 2 ^ 24)` of `G`, `|G| ≥ 1 / 25`, and the difference
`r - o` is within `502 / 2 ^ 24` of `k * G`, for `0 ≤ k ≤ 75`, the product `x` converted to
the DAC code is within `31 / 32` of `|k - 100| * 655.35`. -/
theorem round_trip_error (r : Int) (g o G k : ℚ) (hr : |r| < 2 ^ 24) (hG : 1 / 25 ≤ |G|)
    (hg : |g - G| ≤ 100 / (24 * 2 ^ 24)) (hk0 : 0 ≤ k) (hk : k ≤ 75) (hkG : |k * G| ≤ 150)
    (ho : |(r : ℚ) - o - k * G| ≤ 502 / 2 ^ 24) :
    ∃ x, calibratedCodeFloat .CAEN_DGTZ_PulsePolarityPositive r (some g) (some o) =
        some (toUInt32 x) ∧
      0 ≤ x ∧ x < 2 ^ 32 ∧ |x - |k - 100| * (65535 / 100)| ≤ 31 / 32 := by
  have hga : 399 / 10000 ≤ |g| := by
    have := abs_sub_abs_le_abs_sub G g
    rw [abs_sub_comm] at this
    have h3 : (1 : ℚ) / 25 - 100 / (24 * 2 ^ 24) ≥ 399 / 10000 := by norm_num
    linarith
  have hgpos : 0 < |g| := lt_of_lt_of_le (by norm_num) hga
  have hg0 : g ≠ 0 := abs_pos.mp hgpos
  have aro : |(r : ℚ) - o| ≤ 151 := by
    have := abs_sub_abs_le_abs_sub ((r : ℚ) - o) (k * G)
    have h3 : (502 : ℚ) / 2 ^ 24 ≤ 1 := by norm_num
    linarith
  obtain ⟨s, hs⟩ := toFloat_exists ((r : ℚ) - o) (le_trans aro (by norm_num))
  have es := toFloat_error hs
  have es2 : |s - k * G| ≤ 654 / 2 ^ 24 := by
    have := abs_sub_le s ((r : ℚ) - o) (k * G)
    have h3 : |(r : ℚ) - o| / 2 ^ 24 ≤ 151 / 2 ^ 24 := div_le_div_of_nonneg_right aro (by norm_num)
    have h4 : (151 : ℚ) / 2 ^ 24 + 1 / 2 ^ 150 + 502 / 2 ^ 24 ≤ 654 / 2 ^ 24 := by norm_num
    linarith
  have es3 : |s - k * g| ≤ 967 / 2 ^ 24 := by
    have e : s - k * g = (s - k * G) - k * (g - G) := by ring
    rw [e]
    have h3 := abs_sub (s - k * G) (k * (g - G))
    have h4 : |k * (g - G)| ≤ 75 * (100 / (24 * 2 ^ 24)) := by
      rw [abs_mul, abs_of_nonneg hk0]
      exact mul_le_mul hk hg (abs_nonneg _) (by norm_num)
    have h5 : (654 : ℚ) / 2 ^ 24 + 75 * (100 / (24 * 2 ^ 24)) ≤ 967 / 2 ^ 24 := by norm_num
    linarith
  have eq1 : |s / g - k| ≤ 24236 / 2 ^ 24 := by
    have e : s / g - k = (s - k * g) / g := by
      field_simp
      ring
    rw [e, abs_div, div_le_iff₀ hgpos]
    have h3 : (24236 : ℚ) / 2 ^ 24 * (399 / 10000) ≤ 24236 / 2 ^ 24 * |g| :=
      mul_le_mul_of_nonneg_left hga (by norm_num)
    have h4 : (967 : ℚ) / 2 ^ 24 ≤ 24236 / 2 ^ 24 * (399 / 10000) := by norm_num
    linarith
  have ak : |k| ≤ 75 := by
    rw [abs_of_nonneg hk0]; exact hk
  have asg : |s / g| ≤ 76 := by
    have := abs_sub_abs_le_abs_sub (s / g) k
    have h3 : (24236 : ℚ) / 2 ^ 24 ≤ 1 := by norm_num
    linarith
  obtain ⟨q, hq⟩ := toFloat_exists (s / g) (le_trans asg (by norm_num))
  have eq := toFloat_error hq
  have eq2 : |q - k| ≤ 24313 / 2 ^ 24 := by
    have := abs_sub_le q (s / g) k
    have h3 : |s / g| / 2 ^ 24 ≤ 76 / 2 ^ 24 := div_le_div_of_nonneg_right asg (by norm_num)
    have h4 : (76 : ℚ) / 2 ^ 24 + 1 / 2 ^ 150 + 24236 / 2 ^ 24 ≤ 24313 / 2 ^ 24 := by norm_num
    linarith
  obtain ⟨d, t, x, hd, ht, hx, hx0, hx32, ex⟩ := scaled_error q k (24313 / 2 ^ 24) eq2
    (le_trans ak (by norm_num)) (by norm_num)
  refine ⟨x, calibratedCodeFloat_positive (toFloat_intCast r hr) hs hg0 hq hd ht
    toDouble_scale hx, hx0, hx32, le_trans ex (by norm_num)⟩
/-! ## The store loop and the applier in the arithmetic of the code -/

theorem storeCalibrationFloat_foldl (avg_value : Nat → Nat → CFloat) (n : Nat)
    (WDcfg : WaveDumpConfig_t) :
    (List.range n).foldl (storeStepFloat avg_value) WDcfg =
      { WDcfg with
        DAC_Calib :=
          { cal := fun ch =>
              if ch < n then fitCalFloat (avg_value 0 ch) (avg_value 1 ch)
              else WDcfg.DAC_Calib.cal ch
            offset := fun ch =>
              if ch < n then fitOffsetFloat (avg_value 0 ch) (avg_value 1 ch)
              else WDcfg.DAC_Calib.offset ch } } := by
  induction n with
  | zero => simp
  | succ n ih =>
    rw [List.range_succ, List.foldl_append, ih]
    simp only [List.foldl_cons, List.foldl_nil, storeStepFloat]
    congr 2
    · funext ch
      by_cases h : ch = n
      · subst h; simp
      · rw [Function.update_noteq h]
        have : ch < n + 1 ↔ ch < n := by omega
        simp [this]
    · funext ch
      by_cases h : ch = n
      · subst h; simp
      · rw [Function.update_noteq h]
        have : ch < n + 1 ↔ ch < n := by omega
        simp [this]

/-- The store loop in the arithmetic of the code writes the fitted model of every unit
below `Channels` and nothing else. -/
theorem storeCalibrationFloat_eq (BoardInfo : CAEN_DGTZ_BoardInfo_t)
    (avg_value : Nat → Nat → CFloat) (WDcfg : WaveDumpConfig_t) :
    storeCalibrationFloat BoardInfo avg_value WDcfg =
      { WDcfg with
        DAC_Calib :=
          { cal := fun ch =>
              if ch < BoardInfo.Channels then fitCalFloat (avg_value 0 ch) (avg_value 1 ch)
              else WDcfg.DAC_Calib.cal ch
            offset := fun ch =>
              if ch < BoardInfo.Channels then fitOffsetFloat (avg_value 0 ch) (avg_value 1 ch)
              else WDcfg.DAC_Calib.offset ch } } :=
  storeCalibrationFloat_foldl avg_value BoardInfo.Channels WDcfg

/-- The result of `Set_calibrated_DCO` in the arithmetic of the code for a unit that is not
in Legacy mode, when the converted code is `d`. -/
theorem Set_calibrated_DCOFloat_of_code (dc_file : Nat → Int) (setRet : Int) (ch : Nat)
    (WDcfg : WaveDumpConfig_t) (BoardInfo : CAEN_DGTZ_BoardInfo_t) (d : Nat)
    (hv : WDcfg.Version_used ch ≠ 0)
    (hd : calibratedCodeFloat (WDcfg.PulsePolarity ch) (dc_file ch) (WDcfg.DAC_Calib.cal ch)
      (WDcfg.DAC_Calib.offset ch) = some d) :
    ∃ res, Set_calibrated_DCOFloat dc_file setRet ch WDcfg BoardInfo = some res ∧
      res.WDcfg = { WDcfg with DCoffset := Function.update WDcfg.DCoffset ch (min d 65535) } ∧
      res.ret = setRet ∧
      (res.calls = [HwCall.SetChannelDCOffset ch (min d 65535)] ∨
        res.calls = [HwCall.SetGroupDCOffset ch (min d 65535)]) := by
  unfold Set_calibrated_DCOFloat
  rw [if_neg hv, hd]
  by_cases hf : BoardInfo.FamilyCode = .CAEN_DGTZ_XX740_FAMILY_CODE
  · simp [hf, clampDCoffset_eq]
  · simp [hf, clampDCoffset_eq]

/-! ## The estimator in the arithmetic of the code -/

/-- The `float` sum of observations within the band of `mpp` is exact while it stays below
`2 ^ 24`. -/
theorem discardStepFloat_foldl (mpp : Int) (value : List Int) (a k : Int)
    (hband : ∀ v ∈ value, v ≥ mpp - 5 ∧ v ≤ mpp + 5) (hv : ∀ v ∈ value, 0 ≤ v ∧ v < 2 ^ 14)
    (ha0 : 0 ≤ a) (ha : a + 2 ^ 14 * value.length < 2 ^ 24) :
    value.foldl (discardStepFloat mpp) (some (a : ℚ), k) =
      (some ((a + value.sum : Int) : ℚ), k + value.length) := by
  induction value generalizing a k with
  | nil => simp
  | cons v vs ih =>
    have hb := hband v (List.mem_cons_self v vs)
    have hvv := hv v (List.mem_cons_self v vs)
    have hlen : ((v :: vs).length : Int) = vs.length + 1 := by simp
    rw [hlen] at ha
    have hstep : discardStepFloat mpp (some (a : ℚ), k) v = (some ((a + v : Int) : ℚ), k + 1) := by
      unfold discardStepFloat
      rw [if_pos hb]
      have h1 : toFloat (v : ℚ) = some (v : ℚ) :=
        toFloat_intCast v (by rw [abs_lt]; constructor <;> omega)
      have h2 : toFloat ((a + v : Int) : ℚ) = some ((a + v : Int) : ℚ) :=
        toFloat_intCast (a + v) (by rw [abs_lt]; constructor <;> omega)
      simp only [h1, CFloat.add, Option.some_bind]
      rw [← Int.cast_add, h2]
    rw [List.foldl_cons, hstep, ih (a + v) (k + 1)
      (fun w hw => hband w (List.mem_cons_of_mem v hw))
      (fun w hw => hv w (List.mem_cons_of_mem v hw)) (by omega) (by omega)]
    rw [List.sum_cons, hlen]
    have e1 : a + v + vs.sum = a + (v + vs.sum) := by ring
    have e2 : k + 1 + (vs.length : Int) = k + ((vs.length : Int) + 1) := by ring
    rw [e1, e2]
/-! ## Evaluations in the arithmetic of the code -/

/-- The estimate of a batch in the arithmetic of the code, from the sum and the count left
by the loop `discard values too far from mpp`. -/
theorem checkCleanBaselineFloat_some {ADC_NBits : Nat} {value : List Int} {total ok : Int}
    {q m d y : ℚ}
    (hfold : value.foldl (discardStepFloat (findMpp (adcSize ADC_NBits) value).mpp) (some 0, 0) =
      (some (total : ℚ), ok))
    (hok : |ok| < 2 ^ 24) (hok0 : ok ≠ 0) (hsize : |adcSize ADC_NBits| < 2 ^ 24)
    (hsize0 : adcSize ADC_NBits ≠ 0)
    (hq : toFloat ((total : ℚ) / (ok : ℚ)) = some q) (hm : toDouble (q * 100) = some m)
    (hd : toDouble (m / (adcSize ADC_NBits : ℚ)) = some d) (hy : toFloat d = some y) :
    checkCleanBaselineFloat ADC_NBits value = some y := by
  have hokq : (ok : ℚ) ≠ 0 := by exact_mod_cast hok0
  have hsq : (adcSize ADC_NBits : ℚ) ≠ 0 := by exact_mod_cast hsize0
  unfold checkCleanBaselineFloat
  simp only [hfold, toFloat_intCast ok hok, toFloat_intCast (adcSize ADC_NBits) hsize,
    CFloat.divD, CFloat.mulD, CFloat.divF, CFloat.div, CFloat.mul, Option.some_bind,
    if_neg hokq, if_neg hsq, hq, hm, hd, hy]

/-- The estimate, in the arithmetic of the code, of a batch of 20 observations `8192` on a
14-bit ADC: `50`. -/
theorem checkCleanBaselineFloat_level :
    checkCleanBaselineFloat 14 (List.replicate 20 8192) = some 50 := by
  have hmpp : (findMpp (adcSize 14) (List.replicate 20 8192)).mpp = 8192 := by decide
  have h := discardStepFloat_foldl 8192 (List.replicate 20 8192 : List Int) 0 0
    (by decide) (by decide) (by decide) (by decide)
  have hs : (0 : Int) + (List.replicate 20 8192 : List Int).sum = 163840 := by decide
  have hl : (0 : Int) + (((List.replicate 20 8192 : List Int).length : Nat) : Int) = 20 := by
    decide
  rw [hs, hl, Int.cast_zero] at h
  have hfold : (List.replicate 20 8192).foldl
      (discardStepFloat (findMpp (adcSize 14) (List.replicate 20 8192)).mpp) (some 0, 0) =
      (some ((163840 : Int) : ℚ), 20) := by
    rw [hmpp]
    exact h
  have hsz : adcSize 14 = 16384 := by decide
  have hq : toFloat (((163840 : Int) : ℚ) / ((20 : Int) : ℚ)) = some (8192 : ℚ) := by
    rw [show (((163840 : Int) : ℚ) / ((20 : Int) : ℚ)) = (8192 : ℚ) from by norm_num [abs_of_neg, abs_of_pos]]
    refine toFloat_of_near _ _ 13 8388608 (1 / 1024)
      (by norm_num) (by norm_num) ?_ ?_ ?_ ?_ ?_ <;>
      norm_num [abs_of_pos, abs_of_neg, abs_lt]
  have hm : toDouble ((8192 : ℚ) * 100) = some (819200 : ℚ) := by
    rw [show ((8192 : ℚ) * 100) = (819200 : ℚ) from by norm_num [abs_of_neg, abs_of_pos]]
    refine toDouble_of_near _ _ 19 7036874417766400 (1 / 8589934592)
      (by norm_num) (by norm_num) ?_ ?_ ?_ ?_ ?_ <;>
      norm_num [abs_of_pos, abs_of_neg, abs_lt]
  have hd : toDouble ((819200 : ℚ) / ((16384 : Int) : ℚ)) = some (50 : ℚ) := by
    rw [show ((819200 : ℚ) / ((16384 : Int) : ℚ)) = (50 : ℚ) from by norm_num [abs_of_neg, abs_of_pos]]
    refine toDouble_of_near _ _ 5 7036874417766400 (1 / 140737488355328)
      (by norm_num) (by norm_num) ?_ ?_ ?_ ?_ ?_ <;>
      norm_num [abs_of_pos, abs_of_neg, abs_lt]
  have hy : toFloat ((50 : ℚ)) = some (50 : ℚ) := by
    refine toFloat_of_near _ _ 5 13107200 (1 / 262144)
      (by norm_num) (by norm_num) ?_ ?_ ?_ ?_ ?_ <;>
      norm_num [abs_of_pos, abs_of_neg, abs_lt]
  refine checkCleanBaselineFloat_some hfold (by norm_num) (by norm_num) (by rw [hsz]; norm_num)
    (by rw [hsz]; norm_num) hq hm ?_ hy
  rw [hsz]
  exact hd

/-- The estimate, in the arithmetic of the code, of a batch of 18 observations `8192` and 2
observations `8191` on a 14-bit ADC: `409595 / 8192`, that is `49.99938...`. -/
theorem checkCleanBaselineFloat_two_low :
    checkCleanBaselineFloat 14 (List.replicate 18 8192 ++ [8191, 8191]) = some (409595 / 8192) := by
  have hmpp : (findMpp (adcSize 14) (List.replicate 18 8192 ++ [8191, 8191])).mpp = 8192 := by decide
  have h := discardStepFloat_foldl 8192 (List.replicate 18 8192 ++ [8191, 8191] : List Int) 0 0
    (by decide) (by decide) (by decide) (by decide)
  have hs : (0 : Int) + (List.replicate 18 8192 ++ [8191, 8191] : List Int).sum = 163838 := by decide
  have hl : (0 : Int) + (((List.replicate 18 8192 ++ [8191, 8191] : List Int).length : Nat) : Int) = 20 := by
    decide
  rw [hs, hl, Int.cast_zero] at h
  have hfold : (List.replicate 18 8192 ++ [8191, 8191]).foldl
      (discardStepFloat (findMpp (adcSize 14) (List.replicate 18 8192 ++ [8191, 8191])).mpp) (some 0, 0) =
      (some ((163838 : Int) : ℚ), 20) := by
    rw [hmpp]
    exact h
  have hsz : adcSize 14 = 16384 := by decide
  have hq : toFloat (((163838 : Int) : ℚ) / ((20 : Int) : ℚ)) = some (16777011 / 2048 : ℚ) := by
    rw [show (((163838 : Int) : ℚ) / ((20 : Int) : ℚ)) = (81919 / 10 : ℚ) from by norm_num [abs_of_neg, abs_of_pos]]
    refine toFloat_of_near _ _ 12 16777011 (1 / 2048)
      (by norm_num) (by norm_num) ?_ ?_ ?_ ?_ ?_ <;>
      norm_num [abs_of_pos, abs_of_neg, abs_lt]
  have hm : toDouble ((16777011 / 2048 : ℚ) * 100) = some (419425275 / 512 : ℚ) := by
    rw [show ((16777011 / 2048 : ℚ) * 100) = (419425275 / 512 : ℚ) from by norm_num [abs_of_neg, abs_of_pos]]
    refine toDouble_of_near _ _ 19 7036788434534400 (1 / 8589934592)
      (by norm_num) (by norm_num) ?_ ?_ ?_ ?_ ?_ <;>
      norm_num [abs_of_pos, abs_of_neg, abs_lt]
  have hd : toDouble ((419425275 / 512 : ℚ) / ((16384 : Int) : ℚ)) = some (419425275 / 8388608 : ℚ) := by
    rw [show ((419425275 / 512 : ℚ) / ((16384 : Int) : ℚ)) = (419425275 / 8388608 : ℚ) from by norm_num [abs_of_neg, abs_of_pos]]
    refine toDouble_of_near _ _ 5 7036788434534400 (1 / 140737488355328)
      (by norm_num) (by norm_num) ?_ ?_ ?_ ?_ ?_ <;>
      norm_num [abs_of_pos, abs_of_neg, abs_lt]
  have hy : toFloat ((419425275 / 8388608 : ℚ)) = some (409595 / 8192 : ℚ) := by
    refine toFloat_of_near _ _ 5 13107040 (1 / 262144)
      (by norm_num) (by norm_num) ?_ ?_ ?_ ?_ ?_ <;>
      norm_num [abs_of_pos, abs_of_neg, abs_lt]
  refine checkCleanBaselineFloat_some hfold (by norm_num) (by norm_num) (by rw [hsz]; norm_num)
    (by rw [hsz]; norm_num) hq hm ?_ hy
  rw [hsz]
  exact hd

/-- The estimate, in the arithmetic of the code, of a batch of 20 observations `8949` on a
14-bit ADC: `223725 / 4096`, that is `54.6203613...`. -/
theorem checkCleanBaselineFloat_constant :
    checkCleanBaselineFloat 14 (List.replicate 20 8949) = some (223725 / 4096) := by
  have hmpp : (findMpp (adcSize 14) (List.replicate 20 8949)).mpp = 8949 := by decide
  have h := discardStepFloat_foldl 8949 (List.replicate 20 8949 : List Int) 0 0
    (by decide) (by decide) (by decide) (by decide)
  have hs : (0 : Int) + (List.replicate 20 8949 : List Int).sum = 178980 := by decide
  have hl : (0 : Int) + (((List.replicate 20 8949 : List Int).length : Nat) : Int) = 20 := by
    decide
  rw [hs, hl, Int.cast_zero] at h
  have hfold : (List.replicate 20 8949).foldl
      (discardStepFloat (findMpp (adcSize 14) (List.replicate 20 8949)).mpp) (some 0, 0) =
      (some ((178980 : Int) : ℚ), 20) := by
    rw [hmpp]
    exact h
  have hsz : adcSize 14 = 16384 := by decide
  have hq : toFloat (((178980 : Int) : ℚ) / ((20 : Int) : ℚ)) = some (8949 : ℚ) := by
    rw [show (((178980 : Int) : ℚ) / ((20 : Int) : ℚ)) = (8949 : ℚ) from by norm_num [abs_of_neg, abs_of_pos]]
    refine toFloat_of_near _ _ 13 9163776 (1 / 1024)
      (by norm_num) (by norm_num) ?_ ?_ ?_ ?_ ?_ <;>
      norm_num [abs_of_pos, abs_of_neg, abs_lt]
  have hm : toDouble ((8949 : ℚ) * 100) = some (894900 : ℚ) := by
    rw [show ((8949 : ℚ) * 100) = (894900 : ℚ) from by norm_num [abs_of_neg, abs_of_pos]]
    refine toDouble_of_near _ _ 19 7687132466380800 (1 / 8589934592)
      (by norm_num) (by norm_num) ?_ ?_ ?_ ?_ ?_ <;>
      norm_num [abs_of_pos, abs_of_neg, abs_lt]
  have hd : toDouble ((894900 : ℚ) / ((16384 : Int) : ℚ)) = some (223725 / 4096 : ℚ) := by
    rw [show ((894900 : ℚ) / ((16384 : Int) : ℚ)) = (223725 / 4096 : ℚ) from by norm_num [abs_of_neg, abs_of_pos]]
    refine toDouble_of_near _ _ 5 7687132466380800 (1 / 140737488355328)
      (by norm_num) (by norm_num) ?_ ?_ ?_ ?_ ?_ <;>
      norm_num [abs_of_pos, abs_of_neg, abs_lt]
  have hy : toFloat ((223725 / 4096 : ℚ)) = some (223725 / 4096 : ℚ) := by
    refine toFloat_of_near _ _ 5 14318400 (1 / 262144)
      (by norm_num) (by norm_num) ?_ ?_ ?_ ?_ ?_ <;>
      norm_num [abs_of_pos, abs_of_neg, abs_lt]
  refine checkCleanBaselineFloat_some hfold (by norm_num) (by norm_num) (by rw [hsz]; norm_num)
    (by rw [hsz]; norm_num) hq hm ?_ hy
  rw [hsz]
  exact hd

/-- The intercept fitted in the arithmetic of the code from the two equal estimates
`y = (223725 / 4096)` (`54.6203613...`): the products `75 * y` and `25 * y` are rounded, and
the result `(14318401 / 262144)` (`54.6203651...`) is not `y`. -/
theorem fitOffsetFloat_equal_estimates :
    fitOffsetFloat (some (223725 / 4096)) (some (223725 / 4096)) = some (14318401 / 262144) := by
  have hm0 : toFloat (75 * (223725 / 4096 : ℚ)) = some (1048711 / 256 : ℚ) := by
    rw [show (75 * (223725 / 4096 : ℚ)) = (16779375 / 4096 : ℚ) from by norm_num [abs_of_neg, abs_of_pos]]
    refine toFloat_of_tie _ _ 12 8389687 (1 / 2048)
      (by norm_num) (by norm_num) ?_ ?_ ?_ ?_ ?_ <;>
      norm_num [abs_of_pos, abs_of_neg, abs_lt]
  have hm1 : toFloat (25 * (223725 / 4096 : ℚ)) = some (5593125 / 4096 : ℚ) := by
    rw [show (25 * (223725 / 4096 : ℚ)) = (5593125 / 4096 : ℚ) from by norm_num [abs_of_neg, abs_of_pos]]
    refine toFloat_of_near _ _ 10 11186250 (1 / 8192)
      (by norm_num) (by norm_num) ?_ ?_ ?_ ?_ ?_ <;>
      norm_num [abs_of_pos, abs_of_neg, abs_lt]
  have hd : toFloat ((1048711 / 256 : ℚ) - (5593125 / 4096 : ℚ)) = some (11186251 / 4096 : ℚ) := by
    rw [show ((1048711 / 256 : ℚ) - (5593125 / 4096 : ℚ)) = (11186251 / 4096 : ℚ) from by norm_num [abs_of_neg, abs_of_pos]]
    refine toFloat_of_near _ _ 11 11186251 (1 / 4096)
      (by norm_num) (by norm_num) ?_ ?_ ?_ ?_ ?_ <;>
      norm_num [abs_of_pos, abs_of_neg, abs_lt]
  have ho : toFloat ((11186251 / 4096 : ℚ) / 50) = some (14318401 / 262144 : ℚ) := by
    rw [show ((11186251 / 4096 : ℚ) / 50) = (11186251 / 204800 : ℚ) from by norm_num [abs_of_neg, abs_of_pos]]
    refine toFloat_of_near _ _ 5 14318401 (1 / 262144)
      (by norm_num) (by norm_num) ?_ ?_ ?_ ?_ ?_ <;>
      norm_num [abs_of_pos, abs_of_neg, abs_lt]
  exact fitOffsetFloat_some toFloat_seventy_five toFloat_twenty_five hm0 hm1 hd
    toFloat_fifty (by norm_num) ho

/-- The applier in the arithmetic of the code on the model `cal = 3 / 8`, `offset = 1` and
the request `6` with positive pulses: the quotient `40 / 3` is rounded down, the `double`
product is just below `56797` and the code is `56796`, while `t * 655.35 = 56797.0...` in
exact arithmetic. -/
theorem calibratedCodeFloat_below_exact :
    calibratedCodeFloat .CAEN_DGTZ_PulsePolarityPositive 6 (some (3 / 8)) (some 1) =
        some 56796 ∧
      calibratedCode .CAEN_DGTZ_PulsePolarityPositive 6 (some (3 / 8)) (some 1) = some 56797 := by
  have a1 : toFloat (((6 : Int) : ℚ) - (1 : ℚ)) = some (5 : ℚ) := by
    rw [show (((6 : Int) : ℚ) - (1 : ℚ)) = (5 : ℚ) from by norm_num [abs_of_neg, abs_of_pos]]
    refine toFloat_of_near _ _ 2 10485760 (1 / 2097152)
      (by norm_num) (by norm_num) ?_ ?_ ?_ ?_ ?_ <;>
      norm_num [abs_of_pos, abs_of_neg, abs_lt]
  have a2 : toFloat ((5 : ℚ) / (3 / 8 : ℚ)) = some (13981013 / 1048576 : ℚ) := by
    rw [show ((5 : ℚ) / (3 / 8 : ℚ)) = (40 / 3 : ℚ) from by norm_num [abs_of_neg, abs_of_pos]]
    refine toFloat_of_near _ _ 3 13981013 (1 / 1048576)
      (by norm_num) (by norm_num) ?_ ?_ ?_ ?_ ?_ <;>
      norm_num [abs_of_pos, abs_of_neg, abs_lt]
  have a3 : toDouble ((13981013 / 1048576 : ℚ) - 100) = some (-90876587 / 1048576 : ℚ) := by
    rw [show ((13981013 / 1048576 : ℚ) - 100) = (-90876587 / 1048576 : ℚ) from by norm_num [abs_of_neg, abs_of_pos]]
    refine toDouble_of_near _ _ 6 (-6098624517767168) (1 / 70368744177664)
      (by norm_num) (by norm_num) ?_ ?_ ?_ ?_ ?_ <;>
      norm_num [abs_of_pos, abs_of_neg, abs_lt]
  have a4 : toFloat (|(-90876587 / 1048576 : ℚ)|) = some (11359573 / 131072 : ℚ) := by
    rw [show (|(-90876587 / 1048576 : ℚ)|) = (90876587 / 1048576 : ℚ) from by norm_num [abs_of_neg, abs_of_pos]]
    refine toFloat_of_near _ _ 6 11359573 (1 / 131072)
      (by norm_num) (by norm_num) ?_ ?_ ?_ ?_ ?_ <;>
      norm_num [abs_of_pos, abs_of_neg, abs_lt]
  have a6 : toDouble ((11359573 / 131072 : ℚ) * (5764519562104013 / 8796093022208 : ℚ)) = some (7806120011287757 / 137438953472 : ℚ) := by
    rw [show ((11359573 / 131072 : ℚ) * (5764519562104013 / 8796093022208 : ℚ)) = (65482480775648569266449 / 1152921504606846976 : ℚ) from by norm_num [abs_of_neg, abs_of_pos]]
    refine toDouble_of_near _ _ 15 7806120011287757 (1 / 137438953472)
      (by norm_num) (by norm_num) ?_ ?_ ?_ ?_ ?_ <;>
      norm_num [abs_of_pos, abs_of_neg, abs_lt]
  constructor
  · rw [calibratedCodeFloat_positive (toFloat_intCast 6 (by norm_num)) a1 (by norm_num) a2 a3 a4
    toDouble_scale a6]
    exact congrArg some (toUInt32_of_floor (by norm_num) (by norm_num) (by norm_num))
  · rw [calibratedCode_of_target (targetPercent_positive 6 1 (by norm_num))]
    refine congrArg some (toUInt32_of_floor (by norm_num) ?_ ?_) <;>
      norm_num [abs_of_neg]

/-- The applier in the arithmetic of the code on the model `cal = 1`, `offset = 0` and the
request `75` with positive pulses: the code is `16383`, as in exact arithmetic. -/
theorem calibratedCodeFloat_not_rounded :
    calibratedCodeFloat .CAEN_DGTZ_PulsePolarityPositive 75 (some 1) (some 0) = some 16383 := by
  have a1 : toFloat (((75 : Int) : ℚ) - (0 : ℚ)) = some (75 : ℚ) := by
    rw [show (((75 : Int) : ℚ) - (0 : ℚ)) = (75 : ℚ) from by norm_num [abs_of_neg, abs_of_pos]]
    refine toFloat_of_near _ _ 6 9830400 (1 / 131072)
      (by norm_num) (by norm_num) ?_ ?_ ?_ ?_ ?_ <;>
      norm_num [abs_of_pos, abs_of_neg, abs_lt]
  have a2 : toFloat ((75 : ℚ) / (1 : ℚ)) = some (75 : ℚ) := by
    rw [show ((75 : ℚ) / (1 : ℚ)) = (75 : ℚ) from by norm_num [abs_of_neg, abs_of_pos]]
    refine toFloat_of_near _ _ 6 9830400 (1 / 131072)
      (by norm_num) (by norm_num) ?_ ?_ ?_ ?_ ?_ <;>
      norm_num [abs_of_pos, abs_of_neg, abs_lt]
  have a3 : toDouble ((75 : ℚ) - 100) = some (-25 : ℚ) := by
    rw [show ((75 : ℚ) - 100) = (-25 : ℚ) from by norm_num [abs_of_neg, abs_of_pos]]
    refine toDouble_of_near _ _ 4 (-7036874417766400) (1 / 281474976710656)
      (by norm_num) (by norm_num) ?_ ?_ ?_ ?_ ?_ <;>
      norm_num [abs_of_pos, abs_of_neg, abs_lt]
  have a4 : toFloat (|(-25 : ℚ)|) = some (25 : ℚ) := by
    rw [show (|(-25 : ℚ)|) = (25 : ℚ) from by norm_num [abs_of_neg, abs_of_pos]]
    refine toFloat_of_near _ _ 4 13107200 (1 / 524288)
      (by norm_num) (by norm_num) ?_ ?_ ?_ ?_ ?_ <;>
      norm_num [abs_of_pos, abs_of_neg, abs_lt]
  have a6 : toDouble ((25 : ℚ) * (5764519562104013 / 8796093022208 : ℚ)) = some (65535 / 4 : ℚ) := by
    rw [show ((25 : ℚ) * (5764519562104013 / 8796093022208 : ℚ)) = (144112989052600325 / 8796093022208 : ℚ) from by norm_num [abs_of_neg, abs_of_pos]]
    refine toDouble_of_near _ _ 13 9007061815787520 (1 / 549755813888)
      (by norm_num) (by norm_num) ?_ ?_ ?_ ?_ ?_ <;>
      norm_num [abs_of_pos, abs_of_neg, abs_lt]
  rw [calibratedCodeFloat_positive (toFloat_intCast 75 (by norm_num)) a1 (by norm_num) a2 a3 a4
    toDouble_scale a6]
  exact congrArg some (toUInt32_of_floor (by norm_num) (by norm_num) (by norm_num))

/-- The gain fitted in the arithmetic of the code from the estimates `50` and
`(409595 / 8192)`. -/
theorem fitCalFloat_close_estimates :
    fitCalFloat (some 50) (some (409595 / 8192)) = some (-13421773 / 1099511627776) := by
  have hs : toFloat ((409595 / 8192 : ℚ) - (50 : ℚ)) = some (-5 / 8192 : ℚ) := by
    rw [show ((409595 / 8192 : ℚ) - (50 : ℚ)) = (-5 / 8192 : ℚ) from by norm_num [abs_of_neg, abs_of_pos]]
    refine toFloat_of_near _ _ (-11) (-10485760) (1 / 17179869184)
      (by norm_num) (by norm_num) ?_ ?_ ?_ ?_ ?_ <;>
      norm_num [abs_of_pos, abs_of_neg, abs_lt]
  have hg : toFloat ((-5 / 8192 : ℚ) / 50) = some (-13421773 / 1099511627776 : ℚ) := by
    rw [show ((-5 / 8192 : ℚ) / 50) = (-1 / 81920 : ℚ) from by norm_num [abs_of_neg, abs_of_pos]]
    refine toFloat_of_near _ _ (-17) (-13421773) (1 / 1099511627776)
      (by norm_num) (by norm_num) ?_ ?_ ?_ ?_ ?_ <;>
      norm_num [abs_of_pos, abs_of_neg, abs_lt]
  exact fitCalFloat_some hs toFloat_fifty (by norm_num) hg

/-- The intercept fitted in the arithmetic of the code from the estimates `50` and
`(409595 / 8192)`. -/
theorem fitOffsetFloat_close_estimates :
    fitOffsetFloat (some 50) (some (409595 / 8192)) = some (13107279 / 262144) := by
  have hm0 : toFloat (75 * (50 : ℚ)) = some (3750 : ℚ) := by
    rw [show (75 * (50 : ℚ)) = (3750 : ℚ) from by norm_num [abs_of_neg, abs_of_pos]]
    refine toFloat_of_near _ _ 11 15360000 (1 / 4096)
      (by norm_num) (by norm_num) ?_ ?_ ?_ ?_ ?_ <;>
      norm_num [abs_of_pos, abs_of_neg, abs_lt]
  have hm1 : toFloat (25 * (409595 / 8192 : ℚ)) = some (10239875 / 8192 : ℚ) := by
    rw [show (25 * (409595 / 8192 : ℚ)) = (10239875 / 8192 : ℚ) from by norm_num [abs_of_neg, abs_of_pos]]
    refine toFloat_of_near _ _ 10 10239875 (1 / 8192)
      (by norm_num) (by norm_num) ?_ ?_ ?_ ?_ ?_ <;>
      norm_num [abs_of_pos, abs_of_neg, abs_lt]
  have hd : toFloat ((3750 : ℚ) - (10239875 / 8192 : ℚ)) = some (5120031 / 2048 : ℚ) := by
    rw [show ((3750 : ℚ) - (10239875 / 8192 : ℚ)) = (20480125 / 8192 : ℚ) from by norm_num [abs_of_neg, abs_of_pos]]
    refine toFloat_of_tie _ _ 11 10240062 (1 / 4096)
      (by norm_num) (by norm_num) ?_ ?_ ?_ ?_ ?_ <;>
      norm_num [abs_of_pos, abs_of_neg, abs_lt]
  have ho : toFloat ((5120031 / 2048 : ℚ) / 50) = some (13107279 / 262144 : ℚ) := by
    rw [show ((5120031 / 2048 : ℚ) / 50) = (5120031 / 102400 : ℚ) from by norm_num [abs_of_neg, abs_of_pos]]
    refine toFloat_of_near _ _ 5 13107279 (1 / 262144)
      (by norm_num) (by norm_num) ?_ ?_ ?_ ?_ ?_ <;>
      norm_num [abs_of_pos, abs_of_neg, abs_lt]
  exact fitOffsetFloat_some toFloat_seventy_five toFloat_twenty_five hm0 hm1 hd
    toFloat_fifty (by norm_num) ho

/-- The applier in the arithmetic of the code on the model fitted from the estimates `50`
and `(409595 / 8192)`, with the request `50` and positive pulses: the quotient is
`(395 / 16)` instead of `25`, and the code is `49356`. -/
theorem calibratedCodeFloat_close_estimates :
    calibratedCodeFloat .CAEN_DGTZ_PulsePolarityPositive 50 (some (-13421773 / 1099511627776))
        (some (13107279 / 262144)) = some 49356 := by
  have a1 : toFloat (((50 : Int) : ℚ) - (13107279 / 262144 : ℚ)) = some (-79 / 262144 : ℚ) := by
    rw [show (((50 : Int) : ℚ) - (13107279 / 262144 : ℚ)) = (-79 / 262144 : ℚ) from by norm_num [abs_of_neg, abs_of_pos]]
    refine toFloat_of_near _ _ (-12) (-10354688) (1 / 34359738368)
      (by norm_num) (by norm_num) ?_ ?_ ?_ ?_ ?_ <;>
      norm_num [abs_of_pos, abs_of_neg, abs_lt]
  have a2 : toFloat ((-79 / 262144 : ℚ) / (-13421773 / 1099511627776 : ℚ)) = some (395 / 16 : ℚ) := by
    rw [show ((-79 / 262144 : ℚ) / (-13421773 / 1099511627776 : ℚ)) = (331350016 / 13421773 : ℚ) from by norm_num [abs_of_neg, abs_of_pos]]
    refine toFloat_of_near _ _ 4 12943360 (1 / 524288)
      (by norm_num) (by norm_num) ?_ ?_ ?_ ?_ ?_ <;>
      norm_num [abs_of_pos, abs_of_neg, abs_lt]
  have a3 : toDouble ((395 / 16 : ℚ) - 100) = some (-1205 / 16 : ℚ) := by
    rw [show ((395 / 16 : ℚ) - 100) = (-1205 / 16 : ℚ) from by norm_num [abs_of_neg, abs_of_pos]]
    refine toDouble_of_near _ _ 6 (-5299646045880320) (1 / 70368744177664)
      (by norm_num) (by norm_num) ?_ ?_ ?_ ?_ ?_ <;>
      norm_num [abs_of_pos, abs_of_neg, abs_lt]
  have a4 : toFloat (|(-1205 / 16 : ℚ)|) = some (1205 / 16 : ℚ) := by
    rw [show (|(-1205 / 16 : ℚ)|) = (1205 / 16 : ℚ) from by norm_num [abs_of_neg, abs_of_pos]]
    refine toFloat_of_near _ _ 6 9871360 (1 / 131072)
      (by norm_num) (by norm_num) ?_ ?_ ?_ ?_ ?_ <;>
      norm_num [abs_of_pos, abs_of_neg, abs_lt]
  have a6 : toDouble ((1205 / 16 : ℚ) * (5764519562104013 / 8796093022208 : ℚ)) = some (3158787 / 64 : ℚ) := by
    rw [show ((1205 / 16 : ℚ) * (5764519562104013 / 8796093022208 : ℚ)) = (6946246072335335665 / 140737488355328 : ℚ) from by norm_num [abs_of_neg, abs_of_pos]]
    refine toDouble_of_near _ _ 15 6783443430014976 (1 / 137438953472)
      (by norm_num) (by norm_num) ?_ ?_ ?_ ?_ ?_ <;>
      norm_num [abs_of_pos, abs_of_neg, abs_lt]
  rw [calibratedCodeFloat_positive (toFloat_intCast 50 (by norm_num)) a1 (by norm_num) a2 a3 a4
    toDouble_scale a6]
  exact congrArg some (toUInt32_of_floor (by norm_num) (by norm_num) (by norm_num))

/-! ## The round trip in the arithmetic of the code -/

/-- C4, counterexample. On a 14-bit ADC, a batch of 20 observations `8192` at the 25% point
gives the estimate `y1 = 50` and a batch of 18 observations `8192` and 2 observations `8191`
at the 75% point gives the estimate `y2 = 409595 / 8192` (`49.99938...`), both computed as the
code computes them. The two estimates differ and `y1` is an integer, but with the model
fitted from them `Set_calibrated_DCO` with the request `dc_file[ch] = 50` and positive
pulses stores the DAC code `49356`, which is `205` above the code `49151` programmed at the
25% point. -/
theorem Set_calibrated_DCOFloat_round_trip_lost :
    checkCleanBaselineFloat 14 (List.replicate 20 8192) = some 50 ∧
      checkCleanBaselineFloat 14 (List.replicate 18 8192 ++ [8191, 8191]) =
        some (409595 / 8192) ∧
      (50 : ℚ) ≠ 409595 / 8192 ∧
      testDCOffset 0 = 49151 ∧
      (Set_calibrated_DCOFloat (fun _ => 50) 0 0
        (storeCalibrationFloat board730
          (fun p _ => if p = 0 then some 50 else some (409595 / 8192)) config730)
        board730).map (fun res => res.WDcfg.DCoffset 0) = some 49356 := by
  refine ⟨checkCleanBaselineFloat_level, checkCleanBaselineFloat_two_low, by norm_num,
    testDCOffset_zero, ?_⟩
  have hcode : calibratedCodeFloat
      ((storeCalibrationFloat board730
        (fun p _ => if p = 0 then some 50 else some (409595 / 8192)) config730).PulsePolarity 0)
      ((fun _ => 50 : Nat → Int) 0)
      ((storeCalibrationFloat board730
        (fun p _ => if p = 0 then some 50 else some (409595 / 8192)) config730).DAC_Calib.cal 0)
      ((storeCalibrationFloat board730
        (fun p _ => if p = 0 then some 50 else some (409595 / 8192)) config730).DAC_Calib.offset
          0) = some 49356 := by
    rw [storeCalibrationFloat_eq]
    have hch : (0 : Nat) < board730.Channels := by decide
    simp only [if_pos hch, if_true, (by decide : ¬ (1 : Nat) = 0), if_false]
    rw [fitCalFloat_close_estimates, fitOffsetFloat_close_estimates]
    exact calibratedCodeFloat_close_estimates
  obtain ⟨res, hres, hW, _, _⟩ := Set_calibrated_DCOFloat_of_code (fun _ => 50) 0 0 _ board730
    49356 (by rw [storeCalibrationFloat_eq]; decide) hcode
  rw [hres, Option.map_some', hW]
  simp

/-- C4, amended. Round trip between Fitter and Applier in the arithmetic of the code: for a
unit `ch` below `Channels`, not in Legacy mode and with positive pulses, whose model was
fitted from two estimates `y1` (at 25) and `y2` (at 75) in `[0, 100]` that differ by at
least `2`, `Set_calibrated_DCO` with the request `dc_file[ch] = y1` stores and writes a DAC
code within `1` of the code `49151` that the Fitter programmed at the 25% point, and with
the request `dc_file[ch] = y2` a DAC code within `1` of the code `16383` that it programmed
at the 75% point. -/
theorem Set_calibrated_DCOFloat_round_trip (BoardInfo : CAEN_DGTZ_BoardInfo_t)
    (avg_value : Nat → Nat → CFloat) (WDcfg : WaveDumpConfig_t) (dc_file : Nat → Int)
    (setRet : Int) (ch : Nat) (y1 y2 : ℚ)
    (hch : ch < BoardInfo.Channels) (h1 : avg_value 0 ch = some y1)
    (h2 : avg_value 1 ch = some y2) (hy1 : 0 ≤ y1 ∧ y1 ≤ 100) (hy2 : 0 ≤ y2 ∧ y2 ≤ 100)
    (hd : 2 ≤ |y2 - y1|) (hv : WDcfg.Version_used ch ≠ 0)
    (hp : WDcfg.PulsePolarity ch = .CAEN_DGTZ_PulsePolarityPositive)
    (hr : (dc_file ch : ℚ) = y1 ∨ (dc_file ch : ℚ) = y2) :
    ∃ res, Set_calibrated_DCOFloat dc_file setRet ch
        (storeCalibrationFloat BoardInfo avg_value WDcfg) BoardInfo = some res ∧
      (res.calls = [HwCall.SetChannelDCOffset ch (res.WDcfg.DCoffset ch)] ∨
        res.calls = [HwCall.SetGroupDCOffset ch (res.WDcfg.DCoffset ch)]) ∧
      ((dc_file ch : ℚ) = y1 →
        testDCOffset 0 = 49151 ∧ |((res.WDcfg.DCoffset ch : Nat) : Int) - 49151| ≤ 1) ∧
      ((dc_file ch : ℚ) = y2 →
        testDCOffset 1 = 16383 ∧ |((res.WDcfg.DCoffset ch : Nat) : Int) - 16383| ≤ 1) := by
  have hne : y1 ≠ y2 := by
    intro e
    rw [e, sub_self, abs_zero] at hd
    norm_num at hd
  have hΔ : |y2 - y1| ≤ 100 := by
    rw [abs_le]; constructor <;> linarith [hy1.1, hy1.2, hy2.1, hy2.2]
  obtain ⟨g, hg, eg, _⟩ := fitCalFloat_error y1 y2 (le_trans (by norm_num) hd)
    (le_trans hΔ (by norm_num))
  obtain ⟨o, ho, eo⟩ := fitOffsetFloat_error y1 y2 hy1.1 hy1.2 hy2.1 hy2.2
  have eg2 : |g - (y2 - y1) / 50| ≤ 100 / (24 * 2 ^ 24) :=
    le_trans eg (div_le_div_of_nonneg_right hΔ (by norm_num))
  have hG : 1 / 25 ≤ |(y2 - y1) / 50| := by
    rw [abs_div, abs_of_pos (by norm_num : (0 : ℚ) < 50), le_div_iff₀ (by norm_num)]
    linarith
  have hcal : (storeCalibrationFloat BoardInfo avg_value WDcfg).DAC_Calib.cal ch = some g := by
    rw [storeCalibrationFloat_eq]; simp only [if_pos hch, h1, h2, hg]
  have hoff : (storeCalibrationFloat BoardInfo avg_value WDcfg).DAC_Calib.offset ch =
      some o := by
    rw [storeCalibrationFloat_eq]; simp only [if_pos hch, h1, h2, ho]
  have hv2 : (storeCalibrationFloat BoardInfo avg_value WDcfg).Version_used ch ≠ 0 := by
    rw [storeCalibrationFloat_eq]; exact hv
  have hp2 : (storeCalibrationFloat BoardInfo avg_value WDcfg).PulsePolarity ch =
      .CAEN_DGTZ_PulsePolarityPositive := by
    rw [storeCalibrationFloat_eq]; exact hp
  have hrange : |dc_file ch| < 2 ^ 24 := by
    have hq : (0 : ℚ) ≤ (dc_file ch : ℚ) ∧ (dc_file ch : ℚ) ≤ 100 := by
      rcases hr with e | e <;> rw [e]
      · exact hy1
      · exact hy2
    have h0 : (0 : Int) ≤ dc_file ch := by exact_mod_cast hq.1
    have h100 : dc_file ch ≤ 100 := by exact_mod_cast hq.2
    rw [abs_lt]; constructor <;> omega
  have key : ∀ k : ℚ, 0 ≤ k → k ≤ 75 → (|k * ((y2 - y1) / 50)| ≤ 150) →
      (dc_file ch : ℚ) - (75 * y1 - 25 * y2) / 50 = k * ((y2 - y1) / 50) →
      ∃ res, Set_calibrated_DCOFloat dc_file setRet ch
          (storeCalibrationFloat BoardInfo avg_value WDcfg) BoardInfo = some res ∧
        (res.calls = [HwCall.SetChannelDCOffset ch (res.WDcfg.DCoffset ch)] ∨
          res.calls = [HwCall.SetGroupDCOffset ch (res.WDcfg.DCoffset ch)]) ∧
        |((res.WDcfg.DCoffset ch : Nat) : Int) - ⌊|k - 100| * (65535 / 100 : ℚ)⌋| ≤ 1 := by
    intro k hk0 hk hkG hrk
    have hro : |(dc_file ch : ℚ) - o - k * ((y2 - y1) / 50)| ≤ 502 / 2 ^ 24 := by
      have e : (dc_file ch : ℚ) - o - k * ((y2 - y1) / 50) =
          -(o - (75 * y1 - 25 * y2) / 50) := by
        rw [← hrk]; ring
      rw [e, abs_neg]
      exact eo
    obtain ⟨x, hx, hx0, hx32, ex⟩ := round_trip_error (dc_file ch) g o ((y2 - y1) / 50) k
      hrange hG eg2 hk0 hk hkG hro
    obtain ⟨e1, e2⟩ := toUInt32_near hx0 hx32 ex (by norm_num)
    have hcode : calibratedCodeFloat
        ((storeCalibrationFloat BoardInfo avg_value WDcfg).PulsePolarity ch) (dc_file ch)
        ((storeCalibrationFloat BoardInfo avg_value WDcfg).DAC_Calib.cal ch)
        ((storeCalibrationFloat BoardInfo avg_value WDcfg).DAC_Calib.offset ch) =
        some (toUInt32 x) := by
      rw [hp2, hcal, hoff]; exact hx
    obtain ⟨res, hres, hW, _, hcalls⟩ := Set_calibrated_DCOFloat_of_code dc_file setRet ch
      _ BoardInfo _ hv2 hcode
    have hT : |k - 100| * (65535 / 100 : ℚ) ≤ 65535 := by
      have : |k - 100| ≤ 100 := by
        rw [abs_le]; constructor <;> linarith
      linarith
    have hxle : x < 65536 := by
      have := (abs_le.mp ex).2
      linarith
    have hfl : ⌊x⌋ < 65536 := by
      rw [Int.floor_lt]; exact_mod_cast hxle
    have hmin : min (toUInt32 x) 65535 = toUInt32 x := by
      apply min_eq_left
      omega
    rw [hmin] at hW hcalls
    have hD : res.WDcfg.DCoffset ch = toUInt32 x := by
      rw [hW]; simp
    refine ⟨res, hres, ?_, ?_⟩
    · rw [hD]; exact hcalls
    · rw [hD]; exact e2
  have hkG : ∀ k : ℚ, 0 ≤ k → k ≤ 75 → |k * ((y2 - y1) / 50)| ≤ 150 := by
    intro k hk0 hk
    rw [abs_mul, abs_of_nonneg hk0, abs_div, abs_of_pos (by norm_num : (0 : ℚ) < 50)]
    have h3 : |y2 - y1| / 50 ≤ 2 := by
      rw [div_le_iff₀ (by norm_num)]; linarith
    have h4 : 0 ≤ |y2 - y1| / 50 := by positivity
    nlinarith
  have f75 : ⌊|(25 : ℚ) - 100| * (65535 / 100)⌋ = 49151 := by
    rw [Int.floor_eq_iff]
    norm_num [abs_of_neg]
  have f25 : ⌊|(75 : ℚ) - 100| * (65535 / 100)⌋ = 16383 := by
    rw [Int.floor_eq_iff]
    norm_num [abs_of_neg]
  rcases hr with hx | hx
  · obtain ⟨res, hres, hcalls, hcode⟩ := key 25 (by norm_num) (by norm_num)
      (hkG 25 (by norm_num) (by norm_num)) (by rw [hx]; ring)
    rw [f75] at hcode
    exact ⟨res, hres, hcalls, fun _ => ⟨testDCOffset_zero, hcode⟩,
      fun hy2 => absurd (hx.symm.trans hy2) hne⟩
  · obtain ⟨res, hres, hcalls, hcode⟩ := key 75 (by norm_num) (by norm_num)
      (hkG 75 (by norm_num) (by norm_num)) (by rw [hx]; ring)
    rw [f25] at hcode
    exact ⟨res, hres, hcalls, fun hy1 => absurd (hy1.symm.trans hx) hne,
      fun _ => ⟨testDCOffset_one, hcode⟩⟩

/-- The amended C4 on the model fitted from `y1 = 40` and `y2 = 60`: the request `40` gives
a code within `1` of the code `49151` of the 25% point. -/
theorem Set_calibrated_DCOFloat_round_trip_witness :
    (Set_calibrated_DCOFloat (fun _ => 40) 0 0
        (storeCalibrationFloat board730 (fun p _ => if p = 0 then some 40 else some 60)
          config730)
        board730).map
      (fun res => decide (|((res.WDcfg.DCoffset 0 : Nat) : Int) - 49151| ≤ 1)) = some true := by
  obtain ⟨res, hres, _, h1, _⟩ := Set_calibrated_DCOFloat_round_trip board730
    (fun p _ => if p = 0 then some 40 else some 60) config730 (fun _ => 40) 0 0 40 60
    (by decide) rfl rfl (by norm_num) (by norm_num) (by norm_num [abs_of_pos]) (by decide) rfl
    (Or.inl (by norm_num))
  rw [hres, Option.map_some']
  exact congrArg some (decide_eq_true (h1 (by norm_num)).2)
/-! ## The applier formula in the arithmetic of the code -/

/-- C8, amended. Applier formula in the arithmetic of the code: for a request `r` with
`|r| < 2 ^ 24` and a model with gain `g`, `2 ^ (-20) ≤ |g| ≤ 2 ^ 20`, and offset `o`, whose
exact quotient `(r - o) / g` (positive pulses) or `(|r - 100| - o) / g` (negative pulses) is
at most `200` in absolute value, the `double` product that `Set_calibrated_DCO` computes
for `t * 655.35` has a value `x` within `1 / 16` of `t * 655.35`, where
`t = |(r - o) / g - 100|` resp. `t = |(|r - 100| - o) / g - 100|`; the DAC code before the
range checks is `x` truncated to an integer, the floor of `x`, and it is within `1` of the
floor of `t * 655.35`. -/
theorem calibratedCodeFloat_truncates (r : Int) (g o : ℚ) (hr : |r| < 2 ^ 24)
    (hg1 : 1 / 2 ^ 20 ≤ |g|) (hg2 : |g| ≤ 2 ^ 20) :
    (|((r : ℚ) - o) / g| ≤ 200 →
      ∃ x : ℚ,
        CFloat.mulD (targetPercentFloat .CAEN_DGTZ_PulsePolarityPositive r (some g) (some o))
          (toDouble (65535 / 100)) = some x ∧
        calibratedCodeFloat .CAEN_DGTZ_PulsePolarityPositive r (some g) (some o) =
          some (toUInt32 x) ∧
        ((toUInt32 x : Nat) : Int) = ⌊x⌋ ∧
        |x - |((r : ℚ) - o) / g - 100| * (65535 / 100)| ≤ 1 / 16 ∧
        |((toUInt32 x : Nat) : Int) - ⌊|((r : ℚ) - o) / g - 100| * (65535 / 100)⌋| ≤ 1) ∧
    (|(|(r : ℚ) - 100| - o) / g| ≤ 200 →
      ∃ x : ℚ,
        CFloat.mulD (targetPercentFloat .CAEN_DGTZ_PulsePolarityNegative r (some g) (some o))
          (toDouble (65535 / 100)) = some x ∧
        calibratedCodeFloat .CAEN_DGTZ_PulsePolarityNegative r (some g) (some o) =
          some (toUInt32 x) ∧
        ((toUInt32 x : Nat) : Int) = ⌊x⌋ ∧
        |x - |(|(r : ℚ) - 100| - o) / g - 100| * (65535 / 100)| ≤ 1 / 16 ∧
        |((toUInt32 x : Nat) : Int) - ⌊|(|(r : ℚ) - 100| - o) / g - 100| * (65535 / 100)⌋| ≤
          1) := by
  have hg : g ≠ 0 := by
    intro h
    rw [h, abs_zero] at hg1
    norm_num at hg1
  have hb : (656 : ℚ) * (402 / 2 ^ 24) + 1 / 64 ≤ 1 / 16 := by norm_num
  constructor
  · intro hQ
    obtain ⟨s, q, hs, hq, eq⟩ := quotient_error toFloat toFloat_exists
      (fun _ _ h => toFloat_error h) (r : ℚ) g o hg1 hg2 hQ
    obtain ⟨d, t, x, hd, ht, hx, hx0, hx32, ex⟩ := scaled_error q (((r : ℚ) - o) / g)
      (402 / 2 ^ 24) eq hQ (by norm_num)
    have ex2 := le_trans ex hb
    obtain ⟨e1, e2⟩ := toUInt32_near hx0 hx32 ex2 (by norm_num)
    exact ⟨x, scaledTargetFloat_positive (toFloat_intCast r hr) hs hg hq hd ht toDouble_scale hx,
      calibratedCodeFloat_positive (toFloat_intCast r hr) hs hg hq hd ht toDouble_scale hx,
      e1, ex2, e2⟩
  · intro hQ
    have hr2 : |r - 100| < 2 ^ 53 := by
      rw [abs_lt] at hr ⊢
      constructor <;> omega
    have ha : toDouble ((r : ℚ) - 100) = some ((r : ℚ) - 100) := by
      have := toDouble_intCast (r - 100) hr2
      push_cast at this
      exact this
    obtain ⟨s, q, hs, hq, eq⟩ := quotient_error toDouble toDouble_exists
      (fun _ _ h => toDouble_error_le h) |(r : ℚ) - 100| g o hg1 hg2 hQ
    obtain ⟨d, t, x, hd, ht, hx, hx0, hx32, ex⟩ := scaled_error q ((|(r : ℚ) - 100| - o) / g)
      (402 / 2 ^ 24) eq hQ (by norm_num)
    have ex2 := le_trans ex hb
    obtain ⟨e1, e2⟩ := toUInt32_near hx0 hx32 ex2 (by norm_num)
    exact ⟨x, scaledTargetFloat_negative ha hs hg hq hd ht toDouble_scale hx,
      calibratedCodeFloat_negative ha hs hg hq hd ht toDouble_scale hx, e1, ex2, e2⟩

/-- The amended C8 on the model `cal = 3 / 8`, `offset = 1` and the request `6` with positive
pulses, where `t * 655.35 = 56797.0...`: the code is within `1` of `56797`. -/
theorem calibratedCodeFloat_truncates_witness :
    (calibratedCodeFloat .CAEN_DGTZ_PulsePolarityPositive 6 (some (3 / 8)) (some 1)).map
      (fun code => decide (|((code : Nat) : Int) - 56797| ≤ 1)) = some true := by
  obtain ⟨x, _, h1, _, _, h4⟩ := (calibratedCodeFloat_truncates 6 (3 / 8) 1 (by norm_num)
    (by norm_num [abs_of_pos]) (by norm_num [abs_of_pos])).1 (by norm_num [abs_of_pos])
  have hf : ⌊|(((6 : Int) : ℚ) - 1) / (3 / 8) - 100| * (65535 / 100)⌋ = 56797 := by
    rw [Int.floor_eq_iff]
    norm_num [abs_of_neg]
  rw [hf] at h4
  rw [h1, Option.map_some']
  exact congrArg some (decide_eq_true h4)
/-! ## The stored gain in the arithmetic of the code -/

/-- C10, amended. The store loop of a Fitter run, in the arithmetic of the code, stores the
fitted gain of every unit `ch` below `Channels` unconditionally. For equal baseline
estimates `y1 = y2` the stored gain is `0`. For estimates with
`2 ^ (-100) ≤ |y2 - y1| ≤ 2 ^ 100` the stored gain is not `0` and lies within
`|y2 - y1| / (24 * 2 ^ 24)` of `(y2 - y1) / 50`. The Fitter leaves `Version_used` of every
unit as it was, in the store loop and in every run of `Calibrate_DC_Offset` and
`Calibrate_XX740_DC_Offset`. -/
theorem storeCalibrationFloat_gain (BoardInfo : CAEN_DGTZ_BoardInfo_t)
    (avg_value : Nat → Nat → CFloat) (WDcfg : WaveDumpConfig_t) (ch : Nat) (y1 y2 : ℚ)
    (hch : ch < BoardInfo.Channels) (h1 : avg_value 0 ch = some y1)
    (h2 : avg_value 1 ch = some y2) :
    (y1 = y2 → (storeCalibrationFloat BoardInfo avg_value WDcfg).DAC_Calib.cal ch = some 0) ∧
      (1 / 2 ^ 100 ≤ |y2 - y1| → |y2 - y1| ≤ 2 ^ 100 →
        ∃ g, (storeCalibrationFloat BoardInfo avg_value WDcfg).DAC_Calib.cal ch = some g ∧
          g ≠ 0 ∧ |g - (y2 - y1) / 50| ≤ |y2 - y1| / (24 * 2 ^ 24)) ∧
      (storeCalibrationFloat BoardInfo avg_value WDcfg).Version_used = WDcfg.Version_used ∧
      (∀ dev NACQS,
        (Calibrate_DC_Offset dev NACQS WDcfg BoardInfo).WDcfg.Version_used =
          WDcfg.Version_used) ∧
      (∀ dev NACQS,
        (Calibrate_XX740_DC_Offset dev NACQS WDcfg BoardInfo).WDcfg.Version_used =
          WDcfg.Version_used) := by
  have hcal : (storeCalibrationFloat BoardInfo avg_value WDcfg).DAC_Calib.cal ch =
      fitCalFloat (some y1) (some y2) := by
    rw [storeCalibrationFloat_eq]; simp only [if_pos hch, h1, h2]
  refine ⟨?_, ?_, ?_, ?_, ?_⟩
  · intro e
    rw [hcal, e]
    exact fitCalFloat_self y2
  · intro hlo hhi
    obtain ⟨g, hg, eg, hg0⟩ := fitCalFloat_error y1 y2 hlo hhi
    exact ⟨g, by rw [hcal, hg], hg0, eg⟩
  · rw [storeCalibrationFloat_eq]
  · intro dev NACQS
    unfold Calibrate_DC_Offset
    cases measurePoints dev NACQS WDcfg BoardInfo with
    | quit e c => rfl
    | next avg c => simp only [storeCalibration_eq]
  · intro dev NACQS
    unfold Calibrate_XX740_DC_Offset
    cases measurePointsXX740 dev NACQS BoardInfo with
    | quit e c => rfl
    | next avg c => simp only [storeCalibration_eq]

/-- The amended C10 on a two-channel x730 board: with equal estimates `y1 = y2 = 40` the
gain `0` is stored over the previous gain `1` and the unit stays in Calibrated mode; with
the estimates `40` and `60` the stored gain is not `0`. -/
theorem storeCalibrationFloat_gain_witness :
    config730.DAC_Calib.cal 0 = some 1 ∧
      (storeCalibrationFloat board730 (fun _ _ => some 40) config730).DAC_Calib.cal 0 = some 0 ∧
      (storeCalibrationFloat board730 (fun _ _ => some 40) config730).Version_used 0 = 1 ∧
      (storeCalibrationFloat board730 (fun p _ => if p = 0 then some 40 else some 60)
        config730).DAC_Calib.cal 0 ≠ some 0 := by
  have h := storeCalibrationFloat_gain board730 (fun _ _ => some 40) config730 0 40 40
    (by decide) rfl rfl
  have h2 := storeCalibrationFloat_gain board730
    (fun p _ => if p = 0 then some 40 else some 60) config730 0 40 60 (by decide) rfl rfl
  refine ⟨rfl, h.1 rfl, ?_, ?_⟩
  · rw [h.2.2.1]
    rfl
  · obtain ⟨g, hg, hg0, _⟩ := h2.2.1 (by norm_num [abs_of_pos]) (by norm_num [abs_of_pos])
    rw [hg]
    intro e
    exact hg0 (Option.some.inj e)

end WaveDump
